import Mathlib

/-!
# ClamAV PE emulator: the instruction emulation engine of `clamemu/emulator.c`

A shallow embedding of the fetch, decode and dispatch loop of the 32-bit x86
emulator and of its opcode handlers, followed by theorems about it.

Conventions of the embedding.

* A C object of type `uint32_t` or `int32_t` is a natural number below `2 ^ 32`
  holding the bit pattern; arithmetic is followed by an explicit reduction.
  `s32` gives the signed reading of a pattern where the C code compares or
  extends a signed value.
* A C function `int f(cli_emu_t *state, ...)` that mutates the state becomes a
  function returning the pair of the `int` result and the state it leaves
  behind; the state is returned on the failure paths as well, because the C
  code does not undo what it has already written.
* The headers `emulator.h`, `vmm.h`, `flags.h` and `disasm-common.h` are not
  part of the sources at hand.  What the code needs from them is modelled in
  the sections marked so, from the words of the specification.
-/

namespace ClamEmu

/-! ## Machine words -/

/-- Truncation to `uint8_t`. -/
def u8 (n : Nat) : Nat := n % 256

/-- Truncation to `uint16_t`. -/
def u16 (n : Nat) : Nat := n % 65536

/-- Truncation to `uint32_t`. -/
def u32 (n : Nat) : Nat := n % 4294967296

/-- The C operator `~` applied to a `uint32_t`. -/
def not32 (n : Nat) : Nat := 4294967295 ^^^ u32 n

/-- The value of a 32-bit pattern read as `int32_t`. -/
def s32 (n : Nat) : Int :=
  if u32 n < 2147483648 then (u32 n : Int) else (u32 n : Int) - 4294967296

/-- The 32-bit pattern of a C `int` value (conversion to `uint32_t`). -/
def ofInt32 (i : Int) : Nat := (i % 4294967296).toNat

/-- Conversion `(int32_t)(int8_t)b`: sign extension of a byte. -/
def sext8 (b : Nat) : Nat := if u8 b < 128 then u8 b else u8 b + 4294967040

/-- Conversion `(int32_t)(int16_t)w`: sign extension of a 16-bit word. -/
def sext16 (w : Nat) : Nat := if u16 w < 32768 then u16 w else u16 w + 4294901760

/-- Little-endian value of a byte sequence (`cli_readint16`, `cli_readint32`). -/
def le_value : List Nat → Nat
  | [] => 0
  | b :: bs => u8 b + 256 * le_value bs

/-- The `len` low bytes of a value, least significant first
(`cli_writeint32`, `le16_to_host` on a little-endian buffer). -/
def le_bytes : Nat → Nat → List Nat
  | 0, _ => []
  | len + 1, v => v % 256 :: le_bytes len (v / 256)

/-! ## Virtual memory manager

Modelled from the spec: `vmm.h` and `vmm.c` are not among the sources.  The
specification describes a paged 32-bit address space with read, write and
execute access primitives and sized linear accesses that return a status.
-/

/-- The import hooks the emulator source defines (`hook_generic_stdcall` is
the only one). -/
inductive hook_t where
  | generic_stdcall
  deriving DecidableEq, Repr

/-- Modelled from the spec: `struct import_description` of `vmm.h`, the record
`get_import` returns for a trap address: the handler and the declared
argument byte count (the description string is used for tracing only). -/
structure import_description where
  handler : hook_t
  bytes : Nat
  deriving DecidableEq, Repr

/-- Modelled from the spec: the virtual memory manager `emu_vmm_t` of `vmm.h`.
A byte-addressed 32-bit space; each address carries its read, write and
execute permission and a byte; trap addresses carry an import record. -/
structure emu_vmm_t where
  readable : Nat → Bool
  writable : Nat → Bool
  executable : Nat → Bool
  data : Nat → Nat
  imports : Nat → Option import_description

/-- Every byte of `[va, va + len)` (addresses taken modulo `2 ^ 32`) satisfies `p`. -/
def vmm_range_ok (p : Nat → Bool) (va len : Nat) : Bool :=
  (List.range len).all (fun i => p (u32 (va + i)))

/-- The bytes stored at `[va, va + len)`. -/
def vmm_bytes (v : emu_vmm_t) (va len : Nat) : List Nat :=
  (List.range len).map (fun i => u8 (v.data (u32 (va + i))))

/-- Modelled from the spec: `cli_emu_vmm_read_r`, a read of `len` bytes that
fails (`none`) unless the whole range is readable. -/
def cli_emu_vmm_read_r (v : emu_vmm_t) (va len : Nat) : Option (List Nat) :=
  if vmm_range_ok v.readable va len then some (vmm_bytes v va len) else none

/-- Modelled from the spec: `cli_emu_vmm_read_x`, the instruction fetch: a read
of `len` bytes that fails unless the whole range is executable. -/
def cli_emu_vmm_read_x (v : emu_vmm_t) (va len : Nat) : Option (List Nat) :=
  if vmm_range_ok v.executable va len then some (vmm_bytes v va len) else none

/-- Modelled from the spec: `cli_emu_vmm_write`, a write of a byte buffer that
fails, writing nothing, unless the whole range is writable. -/
def cli_emu_vmm_write (v : emu_vmm_t) (va : Nat) (buf : List Nat) : Option emu_vmm_t :=
  if vmm_range_ok v.writable va buf.length then
    some { v with
      data := fun a =>
        if a < 4294967296 ∧ u32 (a + 4294967296 - u32 va) < buf.length then
          u8 (buf.getD (u32 (a + 4294967296 - u32 va)) 0)
        else v.data a }
  else none

/-- Modelled from the spec: `cli_emu_vmm_read8`. -/
def cli_emu_vmm_read8 (v : emu_vmm_t) (va : Nat) : Option Nat :=
  (cli_emu_vmm_read_r v (u32 va) 1).map le_value

/-- Modelled from the spec: `cli_emu_vmm_read16` (little endian). -/
def cli_emu_vmm_read16 (v : emu_vmm_t) (va : Nat) : Option Nat :=
  (cli_emu_vmm_read_r v (u32 va) 2).map le_value

/-- Modelled from the spec: `cli_emu_vmm_read32` (little endian). -/
def cli_emu_vmm_read32 (v : emu_vmm_t) (va : Nat) : Option Nat :=
  (cli_emu_vmm_read_r v (u32 va) 4).map le_value

/-- Modelled from the spec: `cli_emu_vmm_write8`. -/
def cli_emu_vmm_write8 (v : emu_vmm_t) (va value : Nat) : Option emu_vmm_t :=
  cli_emu_vmm_write v (u32 va) (le_bytes 1 value)

/-- Modelled from the spec: `cli_emu_vmm_write16` (little endian). -/
def cli_emu_vmm_write16 (v : emu_vmm_t) (va value : Nat) : Option emu_vmm_t :=
  cli_emu_vmm_write v (u32 va) (le_bytes 2 value)

/-- Modelled from the spec: `cli_emu_vmm_write32` (little endian). -/
def cli_emu_vmm_write32 (v : emu_vmm_t) (va value : Nat) : Option emu_vmm_t :=
  cli_emu_vmm_write v (u32 va) (le_bytes 4 value)

/-- Modelled from the spec: `cli_emu_vmm_get_import`, the import record of a
trap address, if the address is one. -/
def cli_emu_vmm_get_import (v : emu_vmm_t) (va : Nat) : Option import_description :=
  v.imports va

/-- Modelled from the spec: `MAPPING_END` of `vmm.h`, the reserved virtual
address that denotes program exit when observed in `eip`. -/
def MAPPING_END : Nat := 4026531840

/-! ## Registers and operand descriptors

Modelled from the spec: the enumerations of `disasm-common.h` and the types
and tables of `emulator.h` are not among the sources.
-/

/-- Modelled from the spec: `enum X86REGS` of `disasm-common.h`; the eight
32-bit registers come first, in the canonical order of the register cells. -/
def REG_EAX : Nat := 0
/-- Modelled from the spec: `enum X86REGS`. -/
def REG_ECX : Nat := 1
/-- Modelled from the spec: `enum X86REGS`. -/
def REG_EDX : Nat := 2
/-- Modelled from the spec: `enum X86REGS`. -/
def REG_EBX : Nat := 3
/-- Modelled from the spec: `enum X86REGS`. -/
def REG_ESP : Nat := 4
/-- Modelled from the spec: `enum X86REGS`. -/
def REG_EBP : Nat := 5
/-- Modelled from the spec: `enum X86REGS`. -/
def REG_ESI : Nat := 6
/-- Modelled from the spec: `enum X86REGS`. -/
def REG_EDI : Nat := 7
/-- Modelled from the spec: `enum X86REGS`, the 16-bit registers. -/
def REG_AX : Nat := 8
/-- Modelled from the spec: `enum X86REGS`. -/
def REG_CX : Nat := 9
/-- Modelled from the spec: `enum X86REGS`. -/
def REG_DI : Nat := 15
/-- Modelled from the spec: `enum X86REGS`, the high-byte registers. -/
def REG_AH : Nat := 16
/-- Modelled from the spec: `enum X86REGS`, the low-byte registers. -/
def REG_AL : Nat := 20
/-- Modelled from the spec: `enum X86REGS`, the enumerator that marks an
absent register; it follows the segment, control, debug and FPU registers. -/
def REG_INVALID : Nat := 54

/-- Modelled from the spec: `REGIDX_INVALID` of `emulator.h`, the distinguished
sentinel cell index of an absent register view. -/
def REGIDX_INVALID : Nat := 8

/-- The register view `desc_t` of `emulator.h`, in the field order of the
initialisers of `mem_desc`. -/
structure desc_t where
  mask : Nat
  shift : Nat
  idx : Nat
  carry_bit : Nat
  sign_bit : Nat
  deriving DecidableEq, Repr

/-- An entry of the table `reg_masks`. -/
structure reg_mask_t where
  rw_mask : Nat
  rw_shift : Nat
  carry_bit : Nat
  sub : Nat
  deriving DecidableEq, Repr

/-- Modelled from the spec: the table `reg_masks` of `emulator.h`, indexed by
`enum X86REGS`: the 32-bit views, the 16-bit views, the high-byte views
(mask `0xff00`, shift 8) and the low-byte views (mask `0xff`, shift 0), with
`sub` the first enumerator of the group minus the cell of its first member. -/
def reg_masks (reg : Nat) : reg_mask_t :=
  if reg < 8 then ⟨4294967295, 0, 32, 0⟩
  else if reg < 16 then ⟨65535, 0, 16, 8⟩
  else if reg < 20 then ⟨65280, 8, 8, 16⟩
  else ⟨255, 0, 8, 20⟩

/-- The constant `MAXREG`: the number of entries of `reg_masks`. -/
def MAXREG : Nat := 24

/-- Modelled from the spec: `enum DIS_SIZE` of `disasm-common.h` extended by
the two emulator sizes `SIZE_INVALID` and `SIZE_REL` of `emulator.h`;
`SIZE_OTHER` stands for the decoder sizes the emulator has no case for. -/
inductive DIS_SIZE where
  | SIZEB
  | SIZEW
  | SIZED
  | SIZE_OTHER
  | SIZE_INVALID
  | SIZE_REL
  deriving DecidableEq, Repr

open DIS_SIZE

/-- The table `mem_desc`: `DEFINE_MEM(first, last, bits)` is
`{~0u >> (32 - bits), 0, 0, bits, bits - 1}`.  The table has entries for
`SIZEB`, `SIZEW` and `SIZED` only; an index outside it is a read outside the
array in C and is given the all-zero descriptor here. -/
def mem_desc : DIS_SIZE → desc_t
  | SIZED => ⟨4294967295 >>> (32 - 32), 0, 0, 32, 32 - 1⟩
  | SIZEW => ⟨4294967295 >>> (32 - 16), 0, 0, 16, 16 - 1⟩
  | SIZEB => ⟨4294967295 >>> (32 - 8), 0, 0, 8, 8 - 1⟩
  | _ => ⟨0, 0, 0, 0, 0⟩

/-- An operand slot `struct dis_arg` of `emulator.h`. -/
structure dis_arg where
  access_size : DIS_SIZE
  scale_reg : desc_t
  add_reg : desc_t
  scale : Nat
  displacement : Nat
  deriving DecidableEq, Repr

/-- Modelled from the spec: `enum X86OPS` of `disasm-common.h`, restricted to
the opcodes `cli_emulator_step` has a case for; `OP_OTHER` stands for every
other opcode tag. -/
inductive X86OPS where
  | OP_MOV | OP_PUSH | OP_POP | OP_INC | OP_DEC | OP_CLD | OP_STD
  | OP_LODSB | OP_LODSW | OP_LODSD | OP_STOSB | OP_STOSW | OP_STOSD
  | OP_MOVSB | OP_MOVSW | OP_MOVSD
  | OP_XOR | OP_AND | OP_OR | OP_SUB | OP_ADC | OP_ADD
  | OP_SHL | OP_SHR | OP_ROL | OP_ROR | OP_LOOP | OP_CMP
  | OP_JMP | OP_JO | OP_JNO | OP_JC | OP_JNC | OP_JZ | OP_JNZ | OP_JBE | OP_JA
  | OP_JS | OP_JNS | OP_JP | OP_JNP | OP_JL | OP_JGE | OP_JLE | OP_JG
  | OP_CALL | OP_RETN | OP_PUSHAD | OP_POPAD | OP_LEA | OP_XCHG
  | OP_SCASB | OP_SCASW | OP_SCASD | OP_CLC | OP_STC | OP_NOP
  | OP_PREFIX_REPE | OP_PREFIX_REPNE | OP_PREFIX_LOCK
  | OP_OTHER
  deriving DecidableEq, Repr

open X86OPS

/-- A decoded instruction `struct dis_instr` of `emulator.h`. -/
structure dis_instr where
  opcode : X86OPS
  operation_size : Nat
  address_size : Nat
  segment : Nat
  len : Nat
  arg : Nat → dis_arg

/-- The emulator state `cli_emu_t` of `emulator.h`. -/
structure cli_emu_t where
  mem : emu_vmm_t
  reg_val : Nat → Nat
  eflags : Nat
  eflags_def : Nat
  eip : Nat
  prefix_repe : Nat
  prefix_repne : Nat
  cached_disasm : Nat → dis_instr

/-- Assignment `state->reg_val[i] = v`. -/
def set_reg_val (emu : cli_emu_t) (i v : Nat) : cli_emu_t :=
  { emu with reg_val := fun j => if j = i then v else emu.reg_val j }

/-- Function `mem_push`: decrement ESP by `size`, then store `value` there. -/
def mem_push (state : cli_emu_t) (size value : Nat) : Int × cli_emu_t :=
  let esp := u32 (state.reg_val REG_ESP + 4294967296 - u32 size)
  let state1 := set_reg_val state REG_ESP esp
  if size = 2 then
    match cli_emu_vmm_write16 state1.mem esp value with
    | some m => (0, { state1 with mem := m })
    | none => (-1, state1)
  else if size = 4 then
    match cli_emu_vmm_write32 state1.mem esp value with
    | some m => (0, { state1 with mem := m })
    | none => (-1, state1)
  else (-1, state1)

/-- Function `get_reg`: fill the view `desc` for the register `reg`.  A
register beyond the table that is not `REG_INVALID` is unimplemented: the
function fails and leaves `desc` as it was.  The sign bit is assigned from
the `carry_bit` column, as in the source. -/
def get_reg (desc : desc_t) (reg : Nat) : Int × desc_t :=
  if reg ≥ MAXREG then
    if reg ≠ REG_INVALID then (-1, desc)
    else (0, { desc with idx := REGIDX_INVALID })
  else
    (0, { mask := (reg_masks reg).rw_mask
          shift := (reg_masks reg).rw_shift
          idx := reg - (reg_masks reg).sub
          carry_bit := (reg_masks reg).carry_bit
          sign_bit := (reg_masks reg).carry_bit })

/-- Modelled from the spec: `enum DIS_ACCESS` of `disasm-common.h`. -/
def ACCESS_NOARG : Nat := 0
/-- Modelled from the spec: `enum DIS_ACCESS`. -/
def ACCESS_IMM : Nat := 1
/-- Modelled from the spec: `enum DIS_ACCESS`. -/
def ACCESS_REL : Nat := 2
/-- Modelled from the spec: `enum DIS_ACCESS`. -/
def ACCESS_REG : Nat := 3
/-- Modelled from the spec: `enum DIS_ACCESS`. -/
def ACCESS_MEM : Nat := 4

/-- Modelled from the spec: the cast `(enum DIS_SIZE) byte` of a raw operand
size byte (`SIZEB`, `SIZEW`, `SIZED` are the first three enumerators). -/
def DIS_SIZE.ofRaw (b : Nat) : DIS_SIZE :=
  if b = 0 then SIZEB else if b = 1 then SIZEW else if b = 2 then SIZED else SIZE_OTHER

/-- Modelled from the spec: `struct DISASM_RESULT` of `disasm-common.h`, the
record the decoder fills: the opcode tag, the operand and address size
overrides, the segment and three operand records of ten bytes each
(`arg i k` is the byte `arg[i][k]`). -/
structure DISASM_RESULT where
  real_op : X86OPS
  opsize : Nat
  adsize : Nat
  segment : Nat
  arg : Nat → Nat → Nat

/-- The body of the operand loop of `DisassembleAt` for one operand: `raw` is
the decoder record `res.arg[i]` and `arg` the slot `result->arg[i]` as the
cache held it before. -/
def DisassembleAt_arg (raw : Nat → Nat) (arg : dis_arg) : dis_arg :=
  let size := DIS_SIZE.ofRaw (u8 (raw 1))
  let arg := { arg with access_size := SIZE_INVALID }
  if u8 (raw 0) = ACCESS_MEM then
    let arg := { arg with scale_reg := (get_reg arg.scale_reg (u8 (raw 2))).2 }
    let arg := { arg with add_reg := (get_reg arg.add_reg (u8 (raw 3))).2 }
    let arg := { arg with scale := u8 (raw 4) }
    let arg :=
      if arg.scale = 1 ∧ u8 (raw 3) = REG_INVALID then
        { arg with add_reg := arg.scale_reg,
                   scale_reg := { arg.scale_reg with idx := REGIDX_INVALID } }
      else arg
    let arg :=
      if arg.scale = 0 then
        { arg with scale_reg := { arg.scale_reg with idx := REGIDX_INVALID } }
      else arg
    { arg with displacement := le_value [raw 6, raw 7, raw 8, raw 9],
               access_size := size }
  else if u8 (raw 0) = ACCESS_REG then
    let arg := { arg with add_reg := (get_reg arg.add_reg (u8 (raw 1))).2 }
    { arg with scale_reg := { arg.scale_reg with idx := REGIDX_INVALID },
               displacement := 0,
               access_size := SIZE_INVALID }
  else
    let arg := if u8 (raw 0) = ACCESS_REL then { arg with access_size := SIZE_REL } else arg
    { arg with scale_reg := { arg.scale_reg with idx := REGIDX_INVALID },
               add_reg := { arg.add_reg with idx := REGIDX_INVALID },
               scale := 0,
               displacement :=
                 match size with
                 | SIZEB => sext8 (raw 2)
                 | SIZEW => sext16 (le_value [raw 2, raw 3])
                 | _ => le_value [raw 2, raw 3, raw 4, raw 5] }

/-- Function `DisassembleAt`: fetch 32 bytes at `offset`, run the decoder and
translate its record into the slot `result`.  `cli_disasm_one` is the external
decoder; it returns the record and the number of bytes it consumed
(`next - dis`).  The result is the `uint32_t` the C function returns, with
the slot as the function leaves it: on a failed fetch the status `rc`
(`-1` converted to `uint32_t`) and the slot untouched. -/
def DisassembleAt (cli_disasm_one : List Nat → DISASM_RESULT × Nat)
    (v : emu_vmm_t) (result : dis_instr) (offset : Nat) : Nat × dis_instr :=
  match cli_emu_vmm_read_x v offset 32 with
  | none => (ofInt32 (-1), result)
  | some dis =>
    let res := (cli_disasm_one dis).1
    let next := (cli_disasm_one dis).2
    (u32 (offset + next),
     { result with
        operation_size := res.opsize
        address_size := res.adsize
        segment := res.segment
        opcode := res.real_op
        arg := fun i => if i < 3 then DisassembleAt_arg (res.arg i) (result.arg i)
                        else result.arg i })

/-- Function `hash32shift`, the 32-bit mix function that indexes the cache. -/
def hash32shift (key : Nat) : Nat :=
  let key := u32 (not32 key + u32 (key <<< 15))
  let key := key ^^^ (key >>> 12)
  let key := u32 (key + u32 (key <<< 2))
  let key := key ^^^ (key >>> 4)
  let key := u32 (u32 (key + u32 (key <<< 3)) + u32 (key <<< 11))
  let key := key ^^^ (key >>> 16)
  key

/-- Modelled from the spec: `DISASM_CACHE_SIZE` of `emulator.h`, the number of
slots of the decoded-instruction cache (a power of two). -/
def DISASM_CACHE_SIZE : Nat := 256

/-- Function `disasm`: decode the instruction at `eip` into its cache slot.
The result of `DisassembleAt` is stored in an `int` and tested with `< 0`, so
a pattern with the top bit set makes the function return `NULL` (`none`); the
slot has been overwritten by then unless the fetch itself failed.  The length
is stored as `ret - eip`. -/
def disasm (cli_disasm_one : List Nat → DISASM_RESULT × Nat) (emu : cli_emu_t) :
    Option dis_instr × cli_emu_t :=
  let idx := hash32shift emu.eip &&& (DISASM_CACHE_SIZE - 1)
  let r := DisassembleAt cli_disasm_one emu.mem (emu.cached_disasm idx) emu.eip
  if s32 r.1 < 0 then
    (none, { emu with cached_disasm := fun j => if j = idx then r.2 else emu.cached_disasm j })
  else
    let instr := { r.2 with len := u32 (r.1 + 4294967296 - u32 emu.eip) }
    (some instr, { emu with cached_disasm := fun j => if j = idx then instr else emu.cached_disasm j })

/-- Function `readreg`: masked and shifted read of a register view; the
sentinel view reads as zero. -/
def readreg (emu : cli_emu_t) (reg : desc_t) : Nat :=
  if reg.idx ≠ REGIDX_INVALID then (emu.reg_val reg.idx &&& reg.mask) >>> reg.shift else 0

/-- Function `read_reg`: read the register `reg` through its view.  The C
function fills an uninitialised local view with `get_reg`; every call in the
source passes a register of the table, for which all fields are assigned.
For a register outside the table the result is failure. -/
def read_reg (emu : cli_emu_t) (reg : Nat) : Option Nat :=
  let desc := (get_reg ⟨0, 0, REGIDX_INVALID, 0, 0⟩ reg).2
  if desc.idx = REGIDX_INVALID then none else some (readreg emu desc)

/-- Function `writereg`: masked and shifted write of a register view; writing
the sentinel view fails. -/
def writereg (emu : cli_emu_t) (reg : desc_t) (value : Nat) : Int × cli_emu_t :=
  if reg.idx = REGIDX_INVALID then (-1, emu)
  else
    (0, set_reg_val emu reg.idx
          ((emu.reg_val reg.idx &&& not32 reg.mask) ||| (u32 (value <<< reg.shift) &&& reg.mask)))

/-- Function `write_reg`: write the register `reg` through its view; the
result of `writereg` is dropped and the function returns 0. -/
def write_reg (emu : cli_emu_t) (reg value : Nat) : Int × cli_emu_t :=
  let desc := (get_reg ⟨0, 0, REGIDX_INVALID, 0, 0⟩ reg).2
  (0, (writereg emu desc value).2)

/-- Function `calcreg`: the effective address of an operand. -/
def calcreg (emu : cli_emu_t) (arg : dis_arg) : Nat :=
  let value := u32 (arg.displacement + readreg emu arg.add_reg)
  if arg.scale_reg.idx ≠ REGIDX_INVALID then
    u32 (value + u32 (arg.scale * readreg emu arg.scale_reg))
  else value

/-- Function `mem_read`: sized read through the VMM; `value` is the content of
the output variable before the call, kept when nothing is read. -/
def mem_read (emu : cli_emu_t) (addr : Nat) (size : DIS_SIZE) (value : Nat) : Int × Nat :=
  match size with
  | SIZE_INVALID => (0, value)
  | SIZEB =>
    match cli_emu_vmm_read8 emu.mem addr with
    | some x => (0, x)
    | none => (-1, value)
  | SIZEW =>
    match cli_emu_vmm_read16 emu.mem addr with
    | some x => (0, x)
    | none => (-1, value)
  | _ =>
    match cli_emu_vmm_read32 emu.mem addr with
    | some x => (0, x)
    | none => (-1, value)

/-- Function `read_operand`: the value of an operand. -/
def read_operand (emu : cli_emu_t) (arg : dis_arg) : Int × Nat :=
  let value := calcreg emu arg
  mem_read emu value arg.access_size value

/-- Function `mem_write`: sized write through the VMM. -/
def mem_write (emu : cli_emu_t) (addr : Nat) (size : DIS_SIZE) (value : Nat) : Int × cli_emu_t :=
  match size with
  | SIZEB =>
    match cli_emu_vmm_write8 emu.mem addr value with
    | some m => (0, { emu with mem := m })
    | none => (-1, emu)
  | SIZEW =>
    match cli_emu_vmm_write16 emu.mem addr value with
    | some m => (0, { emu with mem := m })
    | none => (-1, emu)
  | _ =>
    match cli_emu_vmm_write32 emu.mem addr value with
    | some m => (0, { emu with mem := m })
    | none => (-1, emu)

/-- Function `write_operand`: store a value into an operand. -/
def write_operand (emu : cli_emu_t) (arg : dis_arg) (value : Nat) : Int × cli_emu_t :=
  if arg.access_size = SIZE_INVALID then writereg emu arg.add_reg value
  else mem_write emu (calcreg emu arg) arg.access_size value

/-! ## Flag calculator

Modelled from the spec: `flags.h` is not among the sources.  The bit positions
are the architectural ones; the calculators follow section 4.2 of the
specification.
-/

/-- Modelled from the spec: bit position of CF in `eflags` (`flags.h`). -/
def bit_cf : Nat := 0
/-- Modelled from the spec: bit position of PF. -/
def bit_pf : Nat := 2
/-- Modelled from the spec: bit position of AF. -/
def bit_af : Nat := 4
/-- Modelled from the spec: bit position of ZF. -/
def bit_zf : Nat := 6
/-- Modelled from the spec: bit position of SF. -/
def bit_sf : Nat := 7
/-- Modelled from the spec: bit position of DF. -/
def bit_df : Nat := 10
/-- Modelled from the spec: bit position of OF. -/
def bit_of : Nat := 11

/-- The C expression `(w & ~(1 << bit)) | (b << bit)` for a one-bit value `b`. -/
def put_flag (w bit b : Nat) : Nat :=
  (w &&& not32 (1 <<< bit)) ||| ((b &&& 1) <<< bit)

/-- The truth value of a condition as the C integer 0 or 1. -/
def b2n (b : Bool) : Nat := if b then 1 else 0

/-- Parity flag of a result: 1 when the low byte has an even number of set bits. -/
def parity_even (r : Nat) : Nat :=
  b2n (((List.range 8).countP (fun i => r.testBit i)) % 2 = 0)

/-- Modelled from the spec: `calc_flags_test(state, r, d)`: ZF from `r & mask`,
SF from bit `sign_bit` of `r`, PF the even parity of the low byte, CF and OF
cleared; all of these marked defined and AF marked undefined. -/
def calc_flags_test (state : cli_emu_t) (r : Nat) (d : desc_t) : cli_emu_t :=
  let f := put_flag state.eflags bit_zf (b2n (r &&& d.mask = 0))
  let f := put_flag f bit_sf ((r >>> d.sign_bit) &&& 1)
  let f := put_flag f bit_pf (parity_even r)
  let f := put_flag f bit_cf 0
  let f := put_flag f bit_of 0
  { state with
    eflags := f
    eflags_def :=
      (state.eflags_def ||| ((1 <<< bit_zf) ||| (1 <<< bit_sf) ||| (1 <<< bit_pf)
        ||| (1 <<< bit_cf) ||| (1 <<< bit_of))) &&& not32 (1 <<< bit_af) }

/-- Modelled from the spec: `calc_flags_inc(state, r, d)` for the result `r` of
an increment: SF, ZF, PF, OF and AF as for the addition of 1 (the operand was
`r - 1`); CF and its defined bit are left alone. -/
def calc_flags_inc (state : cli_emu_t) (r : Nat) (d : desc_t) : cli_emu_t :=
  let a := u32 (r + 4294967295)
  let f := put_flag state.eflags bit_zf (b2n (r &&& d.mask = 0))
  let f := put_flag f bit_sf ((r >>> d.sign_bit) &&& 1)
  let f := put_flag f bit_pf (parity_even r)
  let f := put_flag f bit_of
    (b2n ((a >>> d.sign_bit) &&& 1 = 0 ∧ (r >>> d.sign_bit) &&& 1 = 1))
  let f := put_flag f bit_af (b2n (r &&& 15 = 0))
  { state with
    eflags := f
    eflags_def :=
      state.eflags_def ||| ((1 <<< bit_zf) ||| (1 <<< bit_sf) ||| (1 <<< bit_pf)
        ||| (1 <<< bit_of) ||| (1 <<< bit_af)) }

/-- Modelled from the spec: `calc_flags_dec(state, r, d)` for the result `r` of
a decrement: SF, ZF, PF, OF and AF as for the subtraction of 1 (the operand
was `r + 1`); CF and its defined bit are left alone. -/
def calc_flags_dec (state : cli_emu_t) (r : Nat) (d : desc_t) : cli_emu_t :=
  let a := u32 (r + 1)
  let f := put_flag state.eflags bit_zf (b2n (r &&& d.mask = 0))
  let f := put_flag f bit_sf ((r >>> d.sign_bit) &&& 1)
  let f := put_flag f bit_pf (parity_even r)
  let f := put_flag f bit_of
    (b2n ((a >>> d.sign_bit) &&& 1 = 1 ∧ (r >>> d.sign_bit) &&& 1 = 0))
  let f := put_flag f bit_af (b2n (r &&& 15 = 15))
  { state with
    eflags := f
    eflags_def :=
      state.eflags_def ||| ((1 <<< bit_zf) ||| (1 <<< bit_sf) ||| (1 <<< bit_pf)
        ||| (1 <<< bit_of) ||| (1 <<< bit_af)) }

/-- Modelled from the spec: `calc_flags_addsub(state, a, b, d, is_sub)`: the
full flag set of `a + b` or `a - b` under the width of `d`: CF the carry out
of bit `carry_bit` (the borrow for a subtraction), OF from the signs of the
operands against the sign of the result, SF, ZF, PF and AF; all six marked
defined. -/
def calc_flags_addsub (state : cli_emu_t) (a b : Nat) (d : desc_t) (is_sub : Nat) : cli_emu_t :=
  let w := 2 ^ d.carry_bit
  let r := if is_sub ≠ 0 then (a % w + w - b % w) % w else (a % w + b % w) % w
  let cf := if is_sub ≠ 0 then b2n (a % w < b % w) else b2n (w ≤ a % w + b % w)
  let sa := (a >>> d.sign_bit) &&& 1
  let sb := (b >>> d.sign_bit) &&& 1
  let sr := (r >>> d.sign_bit) &&& 1
  let o := if is_sub ≠ 0 then b2n (sa ≠ sb ∧ sr ≠ sa) else b2n (sa = sb ∧ sr ≠ sa)
  let af := if is_sub ≠ 0 then b2n (a % 16 < b % 16) else b2n (16 ≤ a % 16 + b % 16)
  let f := put_flag state.eflags bit_zf (b2n (r = 0))
  let f := put_flag f bit_sf sr
  let f := put_flag f bit_pf (parity_even r)
  let f := put_flag f bit_cf cf
  let f := put_flag f bit_of o
  let f := put_flag f bit_af af
  { state with
    eflags := f
    eflags_def :=
      state.eflags_def ||| ((1 <<< bit_zf) ||| (1 <<< bit_sf) ||| (1 <<< bit_pf)
        ||| (1 <<< bit_cf) ||| (1 <<< bit_of) ||| (1 <<< bit_af)) }

/-! ## Opcode handlers: data movement, stack, flags -/

/-- Function `emu_mov`. -/
def emu_mov (state : cli_emu_t) (instr : dis_instr) : Int × cli_emu_t :=
  let r := read_operand state (instr.arg 1)
  if r.1 < 0 then (-1, state) else
  let w := write_operand state (instr.arg 0) r.2
  if w.1 < 0 then (-1, w.2) else (0, w.2)

/-- The size argument of `MEM_PUSH` and `MEM_POP`: `instr->operation_size ? 2 : 4`. -/
def stack_size (instr : dis_instr) : Nat := if instr.operation_size ≠ 0 then 2 else 4

/-- Function `emu_push`. -/
def emu_push (state : cli_emu_t) (instr : dis_instr) : Int × cli_emu_t :=
  let r := read_operand state (instr.arg 0)
  if r.1 < 0 then (-1, state) else
  let p := mem_push state (stack_size instr) r.2
  if p.1 < 0 then (-1, p.2) else (0, p.2)

/-- Function `mem_pop`: load from `[ESP]`, then increment ESP by `size`.
`value` is the content of the output variable before the call; the result is
the status, the output variable and the state. -/
def mem_pop (state : cli_emu_t) (size value : Nat) : Int × Nat × cli_emu_t :=
  let esp := state.reg_val REG_ESP
  let rd : Option Nat :=
    if size = 2 then cli_emu_vmm_read16 state.mem esp
    else if size = 4 then cli_emu_vmm_read32 state.mem esp
    else some value
  match rd with
  | none => (-1, value, state)
  | some x => (0, x, set_reg_val state REG_ESP (u32 (esp + size)))

/-- Function `emu_pop`. -/
def emu_pop (state : cli_emu_t) (instr : dis_instr) : Int × cli_emu_t :=
  let p := mem_pop state (stack_size instr) 0
  if p.1 < 0 then (-1, p.2.2) else
  let w := write_operand p.2.2 (instr.arg 0) p.2.1
  if w.1 < 0 then (-1, w.2) else (0, w.2)

/-- Function `emu_cld`. -/
def emu_cld (state : cli_emu_t) (_instr : dis_instr) : Int × cli_emu_t :=
  (0, { state with
        eflags := state.eflags &&& not32 (1 <<< bit_df)
        eflags_def := state.eflags_def ||| (1 <<< bit_df) })

/-- Function `emu_std`. -/
def emu_std (state : cli_emu_t) (_instr : dis_instr) : Int × cli_emu_t :=
  (0, { state with
        eflags := state.eflags ||| (1 <<< bit_df)
        eflags_def := state.eflags_def ||| (1 <<< bit_df) })

/-- Function `emu_stc`. -/
def emu_stc (state : cli_emu_t) (_instr : dis_instr) : Int × cli_emu_t :=
  (0, { state with
        eflags := state.eflags ||| (1 <<< bit_cf)
        eflags_def := state.eflags_def ||| (1 <<< bit_cf) })

/-- Function `emu_clc`. -/
def emu_clc (state : cli_emu_t) (_instr : dis_instr) : Int × cli_emu_t :=
  (0, { state with
        eflags := state.eflags &&& not32 (1 <<< bit_cf)
        eflags_def := state.eflags_def ||| (1 <<< bit_cf) })

/-- Function `emu_inc`: the flags are computed under the view of the base
register of operand 0, whatever the operand is. -/
def emu_inc (state : cli_emu_t) (instr : dis_instr) : Int × cli_emu_t :=
  let r := read_operand state (instr.arg 0)
  if r.1 < 0 then (-1, state) else
  let reg := u32 (r.2 + 1)
  let w := write_operand state (instr.arg 0) reg
  if w.1 < 0 then (-1, w.2) else
  (0, calc_flags_inc w.2 reg (instr.arg 0).add_reg)

/-- Function `emu_dec`. -/
def emu_dec (state : cli_emu_t) (instr : dis_instr) : Int × cli_emu_t :=
  let r := read_operand state (instr.arg 0)
  if r.1 < 0 then (-1, state) else
  let reg := u32 (r.2 + 4294967295)
  let w := write_operand state (instr.arg 0) reg
  if w.1 < 0 then (-1, w.2) else
  (0, calc_flags_dec w.2 reg (instr.arg 0).add_reg)

/-- The width descriptor the logical, arithmetic, shift and rotate handlers
select: the view of the register operand, or the entry of `mem_desc`. -/
def dst_desc (instr : dis_instr) : desc_t :=
  if (instr.arg 0).access_size = SIZE_INVALID then (instr.arg 0).add_reg
  else mem_desc (instr.arg 0).access_size

/-- Function `emu_xor`. -/
def emu_xor (state : cli_emu_t) (instr : dis_instr) : Int × cli_emu_t :=
  let r1 := read_operand state (instr.arg 0)
  if r1.1 < 0 then (-1, state) else
  let r2 := read_operand state (instr.arg 1)
  if r2.1 < 0 then (-1, state) else
  let reg1 := r1.2 ^^^ r2.2
  let state1 := calc_flags_test state reg1 (dst_desc instr)
  let w := write_operand state1 (instr.arg 0) reg1
  if w.1 < 0 then (-1, w.2) else (0, w.2)

/-- Function `emu_and`. -/
def emu_and (state : cli_emu_t) (instr : dis_instr) : Int × cli_emu_t :=
  let r1 := read_operand state (instr.arg 0)
  if r1.1 < 0 then (-1, state) else
  let r2 := read_operand state (instr.arg 1)
  if r2.1 < 0 then (-1, state) else
  let reg1 := r1.2 &&& r2.2
  let state1 := calc_flags_test state reg1 (dst_desc instr)
  let w := write_operand state1 (instr.arg 0) reg1
  if w.1 < 0 then (-1, w.2) else (0, w.2)

/-- Function `emu_or`. -/
def emu_or (state : cli_emu_t) (instr : dis_instr) : Int × cli_emu_t :=
  let r1 := read_operand state (instr.arg 0)
  if r1.1 < 0 then (-1, state) else
  let r2 := read_operand state (instr.arg 1)
  if r2.1 < 0 then (-1, state) else
  let reg1 := r1.2 ||| r2.2
  let state1 := calc_flags_test state reg1 (dst_desc instr)
  let w := write_operand state1 (instr.arg 0) reg1
  if w.1 < 0 then (-1, w.2) else (0, w.2)

/-- Function `emu_sub`: flags first, then the write back. -/
def emu_sub (state : cli_emu_t) (instr : dis_instr) : Int × cli_emu_t :=
  let r1 := read_operand state (instr.arg 0)
  if r1.1 < 0 then (-1, state) else
  let r2 := read_operand state (instr.arg 1)
  if r2.1 < 0 then (-1, state) else
  let state1 := calc_flags_addsub state r1.2 r2.2 (dst_desc instr) 1
  let reg1 := u32 (r1.2 + 4294967296 - u32 r2.2)
  let w := write_operand state1 (instr.arg 0) reg1
  if w.1 < 0 then (-1, w.2) else (0, w.2)

/-- Function `emu_cmp`. -/
def emu_cmp (state : cli_emu_t) (instr : dis_instr) : Int × cli_emu_t :=
  let r1 := read_operand state (instr.arg 0)
  if r1.1 < 0 then (-1, state) else
  let r2 := read_operand state (instr.arg 1)
  if r2.1 < 0 then (-1, state) else
  (0, calc_flags_addsub state r1.2 r2.2 (dst_desc instr) 1)

/-- Function `emu_flags`: one bit of `eflags`. -/
def emu_flags (state : cli_emu_t) (bit : Nat) : Nat :=
  (state.eflags >>> bit) &&& 1

/-- Function `emu_adc`: CF is added to the first operand before the flags are
computed. -/
def emu_adc (state : cli_emu_t) (instr : dis_instr) : Int × cli_emu_t :=
  let r1 := read_operand state (instr.arg 0)
  if r1.1 < 0 then (-1, state) else
  let r2 := read_operand state (instr.arg 1)
  if r2.1 < 0 then (-1, state) else
  let reg1 := u32 (r1.2 + emu_flags state bit_cf)
  let state1 := calc_flags_addsub state reg1 r2.2 (dst_desc instr) 0
  let reg1 := u32 (reg1 + r2.2)
  let w := write_operand state1 (instr.arg 0) reg1
  if w.1 < 0 then (-1, w.2) else (0, w.2)

/-- Function `emu_add`. -/
def emu_add (state : cli_emu_t) (instr : dis_instr) : Int × cli_emu_t :=
  let r1 := read_operand state (instr.arg 0)
  if r1.1 < 0 then (-1, state) else
  let r2 := read_operand state (instr.arg 1)
  if r2.1 < 0 then (-1, state) else
  let state1 := calc_flags_addsub state r1.2 r2.2 (dst_desc instr) 0
  let reg1 := u32 (r1.2 + r2.2)
  let w := write_operand state1 (instr.arg 0) reg1
  if w.1 < 0 then (-1, w.2) else (0, w.2)

/-- Function `emu_xchg`. -/
def emu_xchg (state : cli_emu_t) (instr : dis_instr) : Int × cli_emu_t :=
  let r0 := read_operand state (instr.arg 0)
  if r0.1 < 0 then (-1, state) else
  let r1 := read_operand state (instr.arg 1)
  if r1.1 < 0 then (-1, state) else
  let w0 := write_operand state (instr.arg 0) r1.2
  if w0.1 < 0 then (-1, w0.2) else
  let w1 := write_operand w0.2 (instr.arg 1) r0.2
  if w1.1 < 0 then (-1, w1.2) else (0, w1.2)

/-- Function `emu_lea`. -/
def emu_lea (state : cli_emu_t) (instr : dis_instr) : Int × cli_emu_t :=
  let addr := calcreg state (instr.arg 1)
  let w := write_operand state (instr.arg 0) addr
  if w.1 < 0 then (-1, w.2) else (0, w.2)

/-! ## Opcode handlers: shifts and rotates -/

/-- Conversion `(uint64_t)x` of an `int32_t` pattern: sign extension to 64 bits. -/
def sext64 (x : Nat) : Nat :=
  if u32 x < 2147483648 then u32 x else u32 x + 18446744069414584320

/-- The flag update shared by the shift handlers once `cf`, `of` and the masked
count `reg2` are known. -/
def shift_flags (state : cli_emu_t) (reg2 cf o : Nat) (largeshift : Bool) : cli_emu_t :=
  let state1 :=
    if reg2 = 1 then
      { state with
        eflags := ((state.eflags &&& not32 ((1 <<< bit_cf) ||| (1 <<< bit_of)))
                    ||| (cf <<< bit_cf)) ||| (o <<< bit_of)
        eflags_def := state.eflags_def ||| ((1 <<< bit_cf) ||| (1 <<< bit_of)) }
    else
      { state with
        eflags := (state.eflags &&& not32 (1 <<< bit_cf)) ||| (cf <<< bit_cf)
        eflags_def := (state.eflags_def ||| (1 <<< bit_cf)) &&& not32 (1 <<< bit_of) }
  if largeshift then
    { state1 with eflags_def := state1.eflags_def &&& not32 (1 <<< bit_cf) }
  else state1

/-- Function `emu_shl`.  The count is an `int32_t` and the descriptor field is
taken to be of a type that promotes to `int`, so `largeshift` is a signed
comparison; the shifted value is the 64-bit conversion of the `int32_t`
operand. -/
def emu_shl (state : cli_emu_t) (instr : dis_instr) : Int × cli_emu_t :=
  let r1 := read_operand state (instr.arg 0)
  if r1.1 < 0 then (-1, state) else
  let r2 := read_operand state (instr.arg 1)
  if r2.1 < 0 then (-1, state) else
  let desc := dst_desc instr
  let largeshift : Bool := decide (s32 r2.2 ≥ (desc.carry_bit : Int))
  let reg2 := r2.2 &&& 31
  if reg2 = 0 then (0, state) else
  let result := (sext64 r1.2 <<< reg2) % 18446744073709551616
  let cf := (result >>> desc.carry_bit) &&& 1
  let reg1 := u32 result
  let o := ((result >>> desc.sign_bit) &&& 1) ^^^ cf
  let state1 := shift_flags state reg2 cf o largeshift
  let w := write_operand state1 (instr.arg 0) reg1
  if w.1 < 0 then (-1, w.2) else (0, w.2)

/-- Function `emu_shr`.  The shift `result >> sign_bit` is taken as the
mathematical shift for every value of `sign_bit`. -/
def emu_shr (state : cli_emu_t) (instr : dis_instr) : Int × cli_emu_t :=
  let r1 := read_operand state (instr.arg 0)
  if r1.1 < 0 then (-1, state) else
  let r2 := read_operand state (instr.arg 1)
  if r2.1 < 0 then (-1, state) else
  let desc := dst_desc instr
  let largeshift : Bool := decide (s32 r2.2 ≥ (desc.carry_bit : Int))
  let reg2 := r2.2 &&& 31
  if reg2 = 0 then (0, state) else
  let result := u32 r1.2 >>> u8 (reg2 - 1)
  let cf := result &&& 1
  let reg1 := result >>> 1
  let o := (result >>> desc.sign_bit) &&& 1
  let state1 := shift_flags state reg2 cf o largeshift
  let w := write_operand state1 (instr.arg 0) reg1
  if w.1 < 0 then (-1, w.2) else (0, w.2)

/-- The C macro `ROL(a, b, n)` on `uint32_t`: `a = (a << b) | (a >> (n - b))`. -/
def ROL (a b n : Nat) : Nat := u32 (a <<< b) ||| (a >>> (n - b))

/-- The C macro `ROR(a, b, n)` on `uint32_t`: `a = (a >> b) | (a << (n - b))`. -/
def ROR (a b n : Nat) : Nat := (a >>> b) ||| u32 (a <<< (n - b))

/-- The code of `emu_rol` and `emu_ror` after the `switch`: store CF and OF,
mark CF defined, write the result. -/
def rot_finish (state : cli_emu_t) (instr : dis_instr) (reg1 cf o : Nat) : Int × cli_emu_t :=
  let state1 :=
    { state with
      eflags := ((state.eflags &&& not32 ((1 <<< bit_cf) ||| (1 <<< bit_of)))
                  ||| (cf <<< bit_cf)) ||| (o <<< bit_of)
      eflags_def := state.eflags_def ||| (1 <<< bit_cf) }
  let w := write_operand state1 (instr.arg 0) reg1
  if w.1 < 0 then (-1, w.2) else (0, w.2)

/-- Function `emu_rol`.  The OF defined bit is decided on the count before it
is masked.  The arm for width 16 has no `break` and runs on into the arm for
width 32. -/
def emu_rol (state : cli_emu_t) (instr : dis_instr) : Int × cli_emu_t :=
  let r1 := read_operand state (instr.arg 0)
  if r1.1 < 0 then (-1, state) else
  let r2 := read_operand state (instr.arg 1)
  if r2.1 < 0 then (-1, state) else
  let desc := dst_desc instr
  let state1 :=
    if r2.2 = 1 then { state with eflags_def := state.eflags_def ||| (1 <<< bit_of) }
    else { state with eflags_def := state.eflags_def &&& not32 (1 <<< bit_of) }
  let reg2 := r2.2 &&& 31
  if desc.carry_bit = 8 then
    let reg2 := reg2 % 8
    if reg2 = 0 then (0, state1) else
    let reg1 := ROL r1.2 reg2 8
    let cf := reg1 &&& 1
    let msb := (reg1 >>> 7) &&& 1
    rot_finish state1 instr reg1 cf (msb ^^^ cf)
  else if desc.carry_bit = 16 then
    let reg2 := reg2 % 16
    if reg2 = 0 then (0, state1) else
    let reg1 := ROL r1.2 reg2 16
    let reg1 := ROL reg1 reg2 32
    let cf := reg1 &&& 1
    let msb := (reg1 >>> 31) &&& 1
    rot_finish state1 instr reg1 cf (msb ^^^ cf)
  else if desc.carry_bit = 32 then
    if reg2 = 0 then (0, state1) else
    let reg1 := ROL r1.2 reg2 32
    let cf := reg1 &&& 1
    let msb := (reg1 >>> 31) &&& 1
    rot_finish state1 instr reg1 cf (msb ^^^ cf)
  else (-1, state1)

/-- Function `emu_ror`; the same shape as `emu_rol`, CF being the new MSB. -/
def emu_ror (state : cli_emu_t) (instr : dis_instr) : Int × cli_emu_t :=
  let r1 := read_operand state (instr.arg 0)
  if r1.1 < 0 then (-1, state) else
  let r2 := read_operand state (instr.arg 1)
  if r2.1 < 0 then (-1, state) else
  let desc := dst_desc instr
  let state1 :=
    if r2.2 = 1 then { state with eflags_def := state.eflags_def ||| (1 <<< bit_of) }
    else { state with eflags_def := state.eflags_def &&& not32 (1 <<< bit_of) }
  let reg2 := r2.2 &&& 31
  if desc.carry_bit = 8 then
    let reg2 := reg2 % 8
    if reg2 = 0 then (0, state1) else
    let reg1 := ROR r1.2 reg2 8
    let msb := (reg1 >>> 7) &&& 1
    let o := u8 (msb ^^^ ((reg1 >>> 6) &&& 1))
    rot_finish state1 instr reg1 msb o
  else if desc.carry_bit = 16 then
    let reg2 := reg2 % 16
    if reg2 = 0 then (0, state1) else
    let reg1 := ROR r1.2 reg2 16
    let reg1 := ROR reg1 reg2 32
    let msb := (reg1 >>> 31) &&& 1
    let o := u8 (msb ^^^ ((reg1 >>> 30) &&& 1))
    rot_finish state1 instr reg1 msb o
  else if desc.carry_bit = 32 then
    if reg2 = 0 then (0, state1) else
    let reg1 := ROR r1.2 reg2 32
    let msb := (reg1 >>> 31) &&& 1
    let o := u8 (msb ^^^ ((reg1 >>> 30) &&& 1))
    rot_finish state1 instr reg1 msb o
  else (-1, state1)

/-! ## Opcode handlers: control transfers -/

/-- The count register of the REP harness and of LOOP: CX under address-size
override, ECX otherwise. -/
def cnt_reg (ad16 : Nat) : Nat := if ad16 ≠ 0 then REG_CX else REG_ECX

/-- Function `emu_loop`. -/
def emu_loop (state : cli_emu_t) (instr : dis_instr) : Int × cli_emu_t :=
  match read_reg state (cnt_reg instr.address_size) with
  | none => (-1, state)
  | some c =>
    let cnt := u32 (c + 4294967295)
    let state1 :=
      if cnt ≠ 0 then
        if instr.operation_size = 0 then
          { state with eip := u32 (state.eip + sext8 (instr.arg 0).displacement) }
        else { state with eip := state.eip &&& 65535 }
      else state
    (0, (write_reg state1 (cnt_reg instr.address_size) cnt).2)

/-- The code shared by `emu_jmp` and `emu_call`: set `eip` from operand 0. -/
def jmp_target (state : cli_emu_t) (instr : dis_instr) : Int × cli_emu_t :=
  if (instr.arg 0).access_size = SIZE_REL then
    let state1 := { state with eip := u32 (state.eip + (instr.arg 0).displacement) }
    (0, if instr.operation_size ≠ 0 then { state1 with eip := state1.eip &&& 65535 } else state1)
  else
    let r := read_operand state (instr.arg 0)
    if r.1 < 0 then (-1, state) else
    let state1 := { state with eip := r.2 }
    (0, if instr.operation_size ≠ 0 then { state1 with eip := state1.eip &&& 65535 } else state1)

/-- Function `emu_jmp`. -/
def emu_jmp (state : cli_emu_t) (instr : dis_instr) : Int × cli_emu_t :=
  jmp_target state instr

/-- Function `emu_call`: push `eip` (already advanced past the instruction),
then transfer as `emu_jmp` does. -/
def emu_call (state : cli_emu_t) (instr : dis_instr) : Int × cli_emu_t :=
  let p := mem_push state (stack_size instr) state.eip
  if p.1 < 0 then (-1, p.2) else jmp_target p.2 instr

/-- Function `emu_ret`: pop `eip`, then add a nonzero displacement to ESP.
Under address-size override the sum is formed in a `uint16_t` and merged
with `esp & 0xffff00000`, the constant of the source. -/
def emu_ret (state : cli_emu_t) (instr : dis_instr) : Int × cli_emu_t :=
  let p := mem_pop state (stack_size instr) state.eip
  if p.1 < 0 then (-1, { p.2.2 with eip := p.2.1 }) else
  let state1 := { p.2.2 with eip := p.2.1 }
  let esp := state1.reg_val REG_ESP
  let d := (instr.arg 0).displacement
  let esp :=
    if d ≠ 0 then
      if instr.address_size ≠ 0 then
        let sp := u16 (u16 esp + d)
        u32 ((esp &&& 68718428160) ||| sp)
      else u32 (esp + d)
    else esp
  (0, set_reg_val state1 REG_ESP esp)

/-! ## Opcode handlers: string operations and the REP harness

The `do ... while` loops are unrolled along a fuel argument; the handlers run
them with `rep_fuel`, one more than the number of values of the count
register.  Running out of fuel is reported as `-3`, a value the C code never
produces.
-/

/-- Fuel given to the loops of the string handlers. -/
def rep_fuel : Nat := 4294967296

/-- Function `emu_prefix_pre`: 1 if the loop should not be entered. -/
def emu_prefix_pre (state : cli_emu_t) (ad16 : Nat) (_repe_is_rep : Nat) : Nat :=
  if state.prefix_repe ≠ 0 ∨ state.prefix_repne ≠ 0 then
    match read_reg state (cnt_reg ad16) with
    | some cnt => if cnt = 0 then 1 else 0
    | none => 0
  else 0

/-- Function `emu_prefix_post`: decrement the count register when a latch is
set; the result is 1 if the loop goes on. -/
def emu_prefix_post (state : cli_emu_t) (ad16 : Nat) (repe_is_rep : Nat) : Nat × cli_emu_t :=
  if state.prefix_repe ≠ 0 ∨ state.prefix_repne ≠ 0 then
    let cnt := u32 ((read_reg state (cnt_reg ad16)).getD 0 + 4294967295)
    let state1 := (write_reg state (cnt_reg ad16) cnt).2
    if cnt = 0 then (0, state1)
    else if state1.prefix_repe ≠ 0 ∧ repe_is_rep = 0 ∧ state1.eflags &&& (1 <<< bit_zf) = 0 then
      (0, state1)
    else if state1.prefix_repne ≠ 0 ∧ state1.eflags &&& (1 <<< bit_zf) ≠ 0 then (0, state1)
    else (1, state1)
  else (0, state)

/-- The index update of the string handlers: `x -= add` if DF is set, else
`x += add`. -/
def df_step (state : cli_emu_t) (x add : Nat) : Nat :=
  if state.eflags &&& (1 <<< bit_df) ≠ 0 then u32 (x + 4294967296 - u32 add) else u32 (x + add)

/-- The `do ... while` loop of `emu_lodsx`. -/
def emu_lodsx_loop (instr : dis_instr) (size : DIS_SIZE) (reg add : Nat) :
    Nat → cli_emu_t → Int × cli_emu_t
  | 0, state => (-3, state)
  | fuel + 1, state =>
    match read_reg state REG_ESI with
    | none => (-1, state)
    | some esi =>
      let r := mem_read state esi size 0
      if r.1 = -1 then (-1, state) else
      let state1 := (write_reg state reg r.2).2
      let state2 := (write_reg state1 REG_ESI (df_step state1 esi add)).2
      let p := emu_prefix_post state2 instr.address_size 1
      if p.1 ≠ 0 then emu_lodsx_loop instr size reg add fuel p.2 else (0, p.2)

/-- Function `emu_lodsx`. -/
def emu_lodsx (state : cli_emu_t) (instr : dis_instr) (size : DIS_SIZE) (reg add : Nat) :
    Int × cli_emu_t :=
  if emu_prefix_pre state instr.address_size 1 ≠ 0 then (0, state)
  else emu_lodsx_loop instr size reg add rep_fuel state

/-- The `do ... while` loop of `emu_stosx`. -/
def emu_stosx_loop (instr : dis_instr) (size : DIS_SIZE) (reg add : Nat) :
    Nat → cli_emu_t → Int × cli_emu_t
  | 0, state => (-3, state)
  | fuel + 1, state =>
    match read_reg state REG_EDI, read_reg state reg with
    | some edi, some val =>
      let w := mem_write state edi size val
      if w.1 = -1 then (-1, w.2) else
      let state1 := w.2
      let state2 := (write_reg state1 REG_EDI (df_step state1 edi add)).2
      let p := emu_prefix_post state2 instr.address_size 1
      if p.1 ≠ 0 then emu_stosx_loop instr size reg add fuel p.2 else (0, p.2)
    | _, _ => (-1, state)

/-- Function `emu_stosx`. -/
def emu_stosx (state : cli_emu_t) (instr : dis_instr) (size : DIS_SIZE) (reg add : Nat) :
    Int × cli_emu_t :=
  if emu_prefix_pre state instr.address_size 1 ≠ 0 then (0, state)
  else emu_stosx_loop instr size reg add rep_fuel state

/-- The `do ... while` loop of `emu_movsx`. -/
def emu_movsx_loop (instr : dis_instr) (size : DIS_SIZE) (add : Nat) :
    Nat → cli_emu_t → Int × cli_emu_t
  | 0, state => (-3, state)
  | fuel + 1, state =>
    match read_reg state REG_ESI, read_reg state REG_EDI with
    | some esi, some edi =>
      let r := mem_read state esi size 0
      if r.1 = -1 then (-1, state) else
      let w := mem_write state edi size r.2
      if w.1 = -1 then (-1, w.2) else
      let state1 := w.2
      let edi1 := df_step state1 edi add
      let esi1 := df_step state1 esi add
      let state2 := (write_reg state1 REG_ESI esi1).2
      let state3 := (write_reg state2 REG_EDI edi1).2
      let p := emu_prefix_post state3 instr.address_size 1
      if p.1 ≠ 0 then emu_movsx_loop instr size add fuel p.2 else (0, p.2)
    | _, _ => (-1, state)

/-- Function `emu_movsx`. -/
def emu_movsx (state : cli_emu_t) (instr : dis_instr) (size : DIS_SIZE) (add : Nat) :
    Int × cli_emu_t :=
  if emu_prefix_pre state instr.address_size 1 ≠ 0 then (0, state)
  else emu_movsx_loop instr size add rep_fuel state

/-- The `do ... while` loop of `emu_scasx`; `edi` and `src` are the local
variables carried around the loop (the result of `mem_read` is not tested, so
`src` keeps its previous content when the read fails).  The result is the
final `edi` and the state. -/
def emu_scasx_loop (instr : dis_instr) (reg : Nat) (size : DIS_SIZE) (add a : Nat) :
    Nat → Nat → Nat → cli_emu_t → Option (Nat × cli_emu_t)
  | 0, _, _, _ => none
  | fuel + 1, edi, src, state =>
    let src := (mem_read state edi size src).2
    let reg_desc := (get_reg ⟨0, 0, REGIDX_INVALID, 0, 0⟩ reg).2
    let state1 := calc_flags_addsub state a src reg_desc 1
    let edi := df_step state1 edi add
    let edi := if instr.address_size ≠ 0 then edi &&& 65535 else edi
    let p := emu_prefix_post state1 instr.address_size 0
    if p.1 ≠ 0 then emu_scasx_loop instr reg size add a fuel edi src p.2 else some (edi, p.2)

/-- Function `emu_scasx`. -/
def emu_scasx (state : cli_emu_t) (instr : dis_instr) (reg : Nat) (size : DIS_SIZE) (add : Nat) :
    Int × cli_emu_t :=
  let di := if instr.address_size ≠ 0 then REG_DI else REG_EDI
  match read_reg state di, read_reg state reg with
  | some edi, some a =>
    if emu_prefix_pre state instr.address_size 0 ≠ 0 then (0, state) else
    match emu_scasx_loop instr reg size add a rep_fuel edi 0 state with
    | none => (-3, state)
    | some r => (0, (write_reg r.2 di r.1).2)
  | _, _ => (-1, state)

/-! ## Opcode handlers: PUSHAD and POPAD -/

/-- Function `emu_pusha`. -/
def emu_pusha (state : cli_emu_t) (instr : dis_instr) : Int × cli_emu_t :=
  let esp := state.reg_val REG_ESP
  let regs := [REG_EDI, REG_ESI, REG_EBP, REG_ESP, REG_EBX, REG_EDX, REG_ECX, REG_EAX]
  if instr.operation_size ≠ 0 then
    let esp := u32 (esp + 4294967296 - 16)
    let data := regs.flatMap (fun r => le_bytes 2 (state.reg_val r &&& 65535))
    match cli_emu_vmm_write state.mem esp data with
    | none => (-1, state)
    | some m => (0, set_reg_val { state with mem := m } REG_ESP esp)
  else
    let esp := u32 (esp + 4294967296 - 32)
    let data := regs.flatMap (fun r => le_bytes 4 (state.reg_val r))
    match cli_emu_vmm_write state.mem esp data with
    | none => (-1, state)
    | some m => (0, set_reg_val { state with mem := m } REG_ESP esp)

/-- Function `write16reg`: `reg_val[reg] &= 0xff00; reg_val[reg] |= val`. -/
def write16reg (state : cli_emu_t) (reg val : Nat) : cli_emu_t :=
  set_reg_val state reg ((state.reg_val reg &&& 65280) ||| u16 val)

/-- Slot `k` of a buffer of little-endian elements of `n` bytes. -/
def le_slot (data : List Nat) (n k : Nat) : Nat :=
  le_value ((data.drop (n * k)).take n)

/-- Function `emu_popa`; the slots go to EDI, EDX, ESI, EBP, EBX, EDX, ECX,
EAX in this order, as in the source. -/
def emu_popa (state : cli_emu_t) (instr : dis_instr) : Int × cli_emu_t :=
  let esp := state.reg_val REG_ESP
  if instr.operation_size ≠ 0 then
    match cli_emu_vmm_read_r state.mem esp 16 with
    | none => (-1, state)
    | some data =>
      let state := write16reg state REG_EDI (le_slot data 2 0)
      let state := write16reg state REG_EDX (le_slot data 2 1)
      let state := write16reg state REG_ESI (le_slot data 2 2)
      let state := write16reg state REG_EBP (le_slot data 2 3)
      let state := write16reg state REG_EBX (le_slot data 2 4)
      let state := write16reg state REG_EDX (le_slot data 2 5)
      let state := write16reg state REG_ECX (le_slot data 2 6)
      let state := write16reg state REG_EAX (le_slot data 2 7)
      (0, set_reg_val state REG_ESP (u32 (esp + 16)))
  else
    match cli_emu_vmm_read_r state.mem esp 32 with
    | none => (-1, state)
    | some data =>
      let state := set_reg_val state REG_EDI (le_slot data 4 0)
      let state := set_reg_val state REG_EDX (le_slot data 4 1)
      let state := set_reg_val state REG_ESI (le_slot data 4 2)
      let state := set_reg_val state REG_EBP (le_slot data 4 3)
      let state := set_reg_val state REG_EBX (le_slot data 4 4)
      let state := set_reg_val state REG_EDX (le_slot data 4 5)
      let state := set_reg_val state REG_ECX (le_slot data 4 6)
      let state := set_reg_val state REG_EAX (le_slot data 4 7)
      (0, set_reg_val state REG_ESP (u32 (esp + 32)))

/-! ## API traps and the step function -/

/-- Function `hook_generic_stdcall`. -/
def hook_generic_stdcall (emu : cli_emu_t) (bytes : Nat) : Int × cli_emu_t :=
  if bytes ≠ 254 then
    let p := mem_pop emu 4 emu.eip
    if p.1 < 0 then (-1, { p.2.2 with eip := p.2.1 }) else
    let emu1 := { p.2.2 with eip := p.2.1 }
    let emu2 := set_reg_val emu1 REG_ESP (u32 (emu1.reg_val REG_ESP + bytes))
    (0, set_reg_val emu2 REG_EAX 0)
  else (-1, emu)

/-- The call `import->handler(emu, import->description, import->bytes)`. -/
def call_handler (imp : import_description) (emu : cli_emu_t) : Int × cli_emu_t :=
  match imp.handler with
  | hook_t.generic_stdcall => hook_generic_stdcall emu imp.bytes

/-- A conditional jump of `cli_emulator_step`: `rc = (cond) && emu_jmp(emu, instr)`. -/
def jcc (cond : Bool) (emu : cli_emu_t) (instr : dis_instr) : Int × cli_emu_t :=
  if cond then
    let r := emu_jmp emu instr
    (if r.1 ≠ 0 then 1 else 0, r.2)
  else (0, emu)

/-- The arms of the `switch` of `cli_emulator_step` that assign `rc` and
`break`: the value assigned to `rc` and the state the handler leaves.  (The
arm of `OP_NOP` assigns nothing; the prefix arms and the default arm return
from the function and are in `cli_emulator_step`.) -/
def emu_dispatch (emu : cli_emu_t) (instr : dis_instr) : Int × cli_emu_t :=
  match instr.opcode with
  | OP_MOV => emu_mov emu instr
  | OP_PUSH => emu_push emu instr
  | OP_POP => emu_pop emu instr
  | OP_INC => emu_inc emu instr
  | OP_DEC => emu_dec emu instr
  | OP_CLD => emu_cld emu instr
  | OP_STD => emu_std emu instr
  | OP_LODSB => emu_lodsx emu instr SIZEB REG_AL 1
  | OP_LODSW => emu_lodsx emu instr SIZEW REG_AX 2
  | OP_LODSD => emu_lodsx emu instr SIZED REG_EAX 4
  | OP_STOSB => emu_stosx emu instr SIZEB REG_AL 1
  | OP_STOSW => emu_stosx emu instr SIZEW REG_AX 2
  | OP_STOSD => emu_stosx emu instr SIZED REG_EAX 4
  | OP_MOVSB => emu_movsx emu instr SIZEB 1
  | OP_MOVSW => emu_movsx emu instr SIZEW 2
  | OP_MOVSD => emu_movsx emu instr SIZED 4
  | OP_XOR => emu_xor emu instr
  | OP_AND => emu_and emu instr
  | OP_OR => emu_or emu instr
  | OP_SUB => emu_sub emu instr
  | OP_ADC => emu_adc emu instr
  | OP_ADD => emu_add emu instr
  | OP_SHL => emu_shl emu instr
  | OP_SHR => emu_shr emu instr
  | OP_ROL => emu_rol emu instr
  | OP_ROR => emu_ror emu instr
  | OP_LOOP => emu_loop emu instr
  | OP_CMP => emu_cmp emu instr
  | OP_JMP => emu_jmp emu instr
  | OP_JO => jcc (emu_flags emu bit_of = 1) emu instr
  | OP_JNO => jcc (emu_flags emu bit_of = 0) emu instr
  | OP_JC => jcc (emu_flags emu bit_cf = 1) emu instr
  | OP_JNC => jcc (emu_flags emu bit_cf = 0) emu instr
  | OP_JZ => jcc (emu_flags emu bit_zf = 1) emu instr
  | OP_JNZ => jcc (emu_flags emu bit_zf = 0) emu instr
  | OP_JBE => jcc (emu_flags emu bit_cf = 1 ∨ emu_flags emu bit_zf = 1) emu instr
  | OP_JA => jcc (emu_flags emu bit_cf = 0 ∧ emu_flags emu bit_zf = 0) emu instr
  | OP_JS => jcc (emu_flags emu bit_sf = 1) emu instr
  | OP_JNS => jcc (emu_flags emu bit_sf = 0) emu instr
  | OP_JP => jcc (emu_flags emu bit_pf = 1) emu instr
  | OP_JNP => jcc (emu_flags emu bit_pf = 0) emu instr
  | OP_JL => jcc (emu_flags emu bit_sf ≠ emu_flags emu bit_of) emu instr
  | OP_JGE => jcc (emu_flags emu bit_sf = emu_flags emu bit_of) emu instr
  | OP_JLE =>
    jcc (emu_flags emu bit_zf = 1 ∨ emu_flags emu bit_sf ≠ emu_flags emu bit_of) emu instr
  | OP_JG =>
    jcc (emu_flags emu bit_zf = 0 ∧ emu_flags emu bit_sf = emu_flags emu bit_of) emu instr
  | OP_CALL => emu_call emu instr
  | OP_RETN => emu_ret emu instr
  | OP_PUSHAD => emu_pusha emu instr
  | OP_POPAD => emu_popa emu instr
  | OP_LEA => emu_lea emu instr
  | OP_XCHG => emu_xchg emu instr
  | OP_SCASB => emu_scasx emu instr REG_AL SIZEB 1
  | OP_SCASW => emu_scasx emu instr REG_AX SIZEW 2
  | OP_SCASD => emu_scasx emu instr REG_EAX SIZED 4
  | OP_CLC => emu_clc emu instr
  | OP_STC => emu_stc emu instr
  | _ => (0, emu)

/-- Function `cli_emulator_step`: 0 on success, -1 on error, -2 when the
program has exited.  After the `switch` the function clears both latches and
returns 0; the value the handler arm stored in `rc` is not read. -/
def cli_emulator_step (cli_disasm_one : List Nat → DISASM_RESULT × Nat) (emu : cli_emu_t) :
    Int × cli_emu_t :=
  if emu.eip = MAPPING_END then (-2, emu) else
  match cli_emu_vmm_get_import emu.mem emu.eip with
  | some imp =>
    let r := call_handler imp emu
    if r.1 < 0 then (-1, r.2) else (0, r.2)
  | none =>
    match disasm cli_disasm_one emu with
    | (none, emu1) => (-1, emu1)
    | (some instr, emu1) =>
      let emu2 := { emu1 with eip := u32 (emu1.eip + instr.len) }
      match instr.opcode with
      | OP_PREFIX_REPE => (0, { emu2 with prefix_repe := 1 })
      | OP_PREFIX_REPNE => (0, { emu2 with prefix_repne := 1 })
      | OP_PREFIX_LOCK => (0, emu2)
      | OP_OTHER => (-1, emu2)
      | _ =>
        let rc_state := emu_dispatch emu2 instr
        (0, { rc_state.2 with prefix_repe := 0, prefix_repne := 0 })

/-! ## Concrete machines used to instantiate the theorems -/

/-- A descriptor with every field zero. -/
def ex_desc0 : desc_t := ⟨0, 0, 0, 0, 0⟩

/-- An operand slot with every field zero and no access size. -/
def ex_arg0 : dis_arg := ⟨SIZE_INVALID, ex_desc0, ex_desc0, 0, 0⟩

/-- A cache slot as `memset` leaves it at construction. -/
def ex_instr0 : dis_instr := ⟨OP_MOV, 0, 0, 0, 0, fun _ => ex_arg0⟩

/-- A decoder record with the given opcode, size overrides and operand records. -/
def ex_res (op : X86OPS) (opsize adsize : Nat) (arg : Nat → Nat → Nat) : DISASM_RESULT :=
  ⟨op, opsize, adsize, 0, arg⟩

/-- A decoder that answers every fetch with the same record and length. -/
def ex_decoder (res : DISASM_RESULT) (n : Nat) : List Nat → DISASM_RESULT × Nat :=
  fun _ => (res, n)

/-- A memory whose addresses below `limit` are readable, writable and
executable, with the given content and no import traps. -/
def ex_vmm (limit : Nat) (data : Nat → Nat) : emu_vmm_t :=
  ⟨fun a => decide (a < limit), fun a => decide (a < limit), fun a => decide (a < limit),
   data, fun _ => none⟩

/-- A state over `ex_vmm` with the given registers, flags and `eip`, both
latches clear and an empty cache. -/
def ex_state (limit : Nat) (data regs : Nat → Nat) (eflags eip : Nat) : cli_emu_t :=
  ⟨ex_vmm limit data, regs, eflags, 0, eip, 0, 0, fun _ => ex_instr0⟩

/-- A state halted at `MAPPING_END` whose memory reports an import trap at
that very address. -/
def ex_state_exited : cli_emu_t :=
  ⟨⟨fun _ => true, fun _ => true, fun _ => true, fun _ => 0,
    fun _ => some ⟨hook_t.generic_stdcall, 8⟩⟩,
   fun i => i + 1, 2, 3, MAPPING_END, 1, 1, fun _ => ex_instr0⟩

/-- The state in which the handler runs: the decoded state with `eip` already
advanced past the instruction. -/
def step_entry (emu1 : cli_emu_t) (instr : dis_instr) : cli_emu_t :=
  { emu1 with eip := u32 (emu1.eip + instr.len) }

/-- The opcodes that transfer control: JMP, the sixteen conditional jumps,
LOOP, CALL and RETN. -/
def is_control_transfer : X86OPS → Bool
  | OP_JMP | OP_JO | OP_JNO | OP_JC | OP_JNC | OP_JZ | OP_JNZ | OP_JBE | OP_JA
  | OP_JS | OP_JNS | OP_JP | OP_JNP | OP_JL | OP_JGE | OP_JLE | OP_JG
  | OP_LOOP | OP_CALL | OP_RETN => true
  | _ => false

/-- A decoder operand record: a relative operand of byte size with the given
displacement byte. -/
def ex_raw_rel8 (b : Nat) : Nat → Nat
  | 0 => ACCESS_REL
  | 1 => 0
  | 2 => b
  | _ => 0

/-- A decoder operand record for an absent operand. -/
def ex_raw_none : Nat → Nat := fun _ => 0

/-- Operand records of an instruction whose only operand is `raw`. -/
def ex_args1 (raw : Nat → Nat) : Nat → Nat → Nat
  | 0 => raw
  | _ => ex_raw_none

/-- A state with 64 KiB of zeroed memory, zeroed registers and `eip = 0x1000`. -/
def ex_state_code : cli_emu_t := ex_state 65536 (fun _ => 0) (fun _ => 0) 0 4096

/-- A decoder that reads every instruction as a one-byte NOP. -/
def ex_dec_nop : List Nat → DISASM_RESULT × Nat :=
  ex_decoder (ex_res OP_NOP 0 0 (fun _ => ex_raw_none)) 1

/-- A decoder that reads every instruction as the two-byte `JMP rel8` with
displacement byte `0xfe` (minus two). -/
def ex_dec_jmp : List Nat → DISASM_RESULT × Nat :=
  ex_decoder (ex_res OP_JMP 0 0 (ex_args1 (ex_raw_rel8 254))) 2

/-- A decoder operand record: the register `reg`. -/
def ex_raw_reg (reg : Nat) : Nat → Nat
  | 0 => ACCESS_REG
  | 1 => reg
  | _ => 0

/-- A decoder operand record: the dword at the absolute address `0x20000`
(no base, no index). -/
def ex_raw_mem_20000 : Nat → Nat
  | 0 => ACCESS_MEM
  | 1 => 2
  | 2 => REG_INVALID
  | 3 => REG_INVALID
  | 8 => 2
  | _ => 0

/-- Operand records of an instruction with the two operands `r0` and `r1`. -/
def ex_args2 (r0 r1 : Nat → Nat) : Nat → Nat → Nat
  | 0 => r0
  | 1 => r1
  | _ => ex_raw_none

/-- A decoder that reads every instruction as the six-byte
`MOV EAX, dword [0x20000]`. -/
def ex_dec_mov_fault : List Nat → DISASM_RESULT × Nat :=
  ex_decoder (ex_res OP_MOV 0 0 (ex_args2 (ex_raw_reg REG_EAX) ex_raw_mem_20000)) 6

/-- The opcodes whose arm of the `switch` returns from the function: the three
prefixes and every opcode without an arm. -/
def returns_from_switch : X86OPS → Bool
  | OP_PREFIX_REPE | OP_PREFIX_REPNE | OP_PREFIX_LOCK | OP_OTHER => true
  | _ => false

/-- A decoder operand record: a 16-bit immediate with low byte `b`. -/
def ex_raw_imm16 (b : Nat) : Nat → Nat
  | 0 => ACCESS_IMM
  | 1 => 1
  | 2 => b
  | _ => 0

/-- A decoder that reads every instruction as `RET 8` under an address-size
override (four bytes). -/
def ex_dec_ret8_ad16 : List Nat → DISASM_RESULT × Nat :=
  ex_decoder (ex_res OP_RETN 0 1 (ex_args1 (ex_raw_imm16 8))) 4

/-- A state with 1 MiB of zeroed memory, `eip = 0x1000` and
`ESP = 0x000F8000`, the other registers zero. -/
def ex_state_ret : cli_emu_t :=
  ex_state 1048576 (fun _ => 0) (fun i => if i = REG_ESP then 1015808 else 0) 0 4096

/-- The instruction `RET 8` under address-size override as `disasm` delivers it
on `ex_state_ret`. -/
def ex_instr_ret8_ad16 : dis_instr :=
  ((disasm ex_dec_ret8_ad16 ex_state_ret).1).getD ex_instr0

/-- The condition table of the specification for the conditional jumps, on the
values of the flags OF, CF, ZF, SF and PF: JO OF=1; JNO OF=0; JC CF=1;
JNC CF=0; JZ ZF=1; JNZ ZF=0; JBE CF=1 or ZF=1; JA CF=0 and ZF=0; JS SF=1;
JNS SF=0; JP PF=1; JNP PF=0; JL SF≠OF; JGE SF=OF; JLE ZF=1 or SF≠OF;
JG ZF=0 and SF=OF.  No entry for the other opcodes. -/
def spec_jcc_condition (op : X86OPS) (vOF vCF vZF vSF vPF : Nat) : Option Bool :=
  match op with
  | OP_JO => some (decide (vOF = 1))
  | OP_JNO => some (decide (vOF = 0))
  | OP_JC => some (decide (vCF = 1))
  | OP_JNC => some (decide (vCF = 0))
  | OP_JZ => some (decide (vZF = 1))
  | OP_JNZ => some (decide (vZF = 0))
  | OP_JBE => some (decide (vCF = 1 ∨ vZF = 1))
  | OP_JA => some (decide (vCF = 0 ∧ vZF = 0))
  | OP_JS => some (decide (vSF = 1))
  | OP_JNS => some (decide (vSF = 0))
  | OP_JP => some (decide (vPF = 1))
  | OP_JNP => some (decide (vPF = 0))
  | OP_JL => some (decide (vSF ≠ vOF))
  | OP_JGE => some (decide (vSF = vOF))
  | OP_JLE => some (decide (vZF = 1 ∨ vSF ≠ vOF))
  | OP_JG => some (decide (vZF = 0 ∧ vSF = vOF))
  | _ => none

/-- A decoder that reads every instruction as the two-byte `JLE rel8` with
displacement byte `0x10`. -/
def ex_dec_jle : List Nat → DISASM_RESULT × Nat :=
  ex_decoder (ex_res OP_JLE 0 0 (ex_args1 (ex_raw_rel8 16))) 2

/-- The machine `ex_state_code` with SF set and every other flag clear. -/
def ex_state_sf : cli_emu_t := ex_state 65536 (fun _ => 0) (fun _ => 7) 128 4096

/-- A decoder that reads every instruction as the one-byte near `RET`. -/
def ex_dec_ret : List Nat → DISASM_RESULT × Nat :=
  ex_decoder (ex_res OP_RETN 0 0 (fun _ => ex_raw_none)) 1

/-- The state a fresh emulator is in when its program consists of a single
`RET`: 64 KiB mapped, `eip = 0x1000`, `ESP = 0x8000` and the dword
`MAPPING_END` (bytes `00 00 00 f0`) on top of the stack. -/
def ex_state_top : cli_emu_t :=
  ex_state 65536 (fun a => if a = 32771 then 240 else 0)
    (fun i => if i = REG_ESP then 32768 else 0) 0 4096

/-- A decoder operand record: a relative operand of dword size with zero
displacement. -/
def ex_raw_rel32_zero : Nat → Nat
  | 0 => ACCESS_REL
  | 1 => 2
  | _ => 0

/-- A decoder that reads the opcode byte `0xE8` as the five-byte `CALL +0` and
every other byte as the one-byte `POP EAX`. -/
def ex_dec_call_pop : List Nat → DISASM_RESULT × Nat :=
  fun dis =>
    if dis.headD 0 = 232 then (ex_res OP_CALL 0 0 (ex_args1 ex_raw_rel32_zero), 5)
    else (ex_res OP_POP 0 0 (ex_args1 (ex_raw_reg REG_EAX)), 1)

/-- A state whose code at `0x1000` is `E8 00 00 00 00 58` (`CALL +0; POP EAX`),
with `ESP = 0x8000` and 64 KiB mapped. -/
def ex_state_call : cli_emu_t :=
  ex_state 65536 (fun a => if a = 4096 then 232 else if a = 4101 then 88 else 0)
    (fun i => if i = REG_ESP then 32768 else 0) 0 4096

/-- The instruction `PUSH imm32` as the decoder normalises it: operand 0 is an
immediate (no access size, both register views sentinel, scale 0) whose
displacement is the value. -/
def push_imm32 (v : Nat) : dis_instr :=
  { opcode := OP_PUSH, operation_size := 0, address_size := 0, segment := 0, len := 5
    arg := fun i =>
      if i = 0 then
        ⟨SIZE_INVALID, ⟨0, 0, REGIDX_INVALID, 0, 0⟩, ⟨0, 0, REGIDX_INVALID, 0, 0⟩, 0, v⟩
      else ex_arg0 }

/-- The instruction `POP r` for a 32-bit register `r` as the decoder
normalises it: operand 0 is the register view `get_reg` builds. -/
def pop_reg32 (r : Nat) : dis_instr :=
  { opcode := OP_POP, operation_size := 0, address_size := 0, segment := 0, len := 1
    arg := fun i =>
      if i = 0 then
        ⟨SIZE_INVALID, ⟨0, 0, REGIDX_INVALID, 0, 0⟩, (get_reg ex_desc0 r).2, 0, 0⟩
      else ex_arg0 }

/-- Run `emu_push` on each instruction in turn, stopping at the first failure. -/
def run_pushes : cli_emu_t → List dis_instr → Int × cli_emu_t
  | s, [] => (0, s)
  | s, i :: rest =>
    if (emu_push s i).1 < 0 then (-1, (emu_push s i).2) else run_pushes (emu_push s i).2 rest

/-- Run `emu_pop` on each instruction in turn, stopping at the first failure;
the list collects what each POP delivered, read back through its destination
view right after the instruction. -/
def run_pops : cli_emu_t → List dis_instr → Int × List Nat × cli_emu_t
  | s, [] => (0, [], s)
  | s, i :: rest =>
    if (emu_pop s i).1 < 0 then (-1, [], (emu_pop s i).2)
    else
      ((run_pops (emu_pop s i).2 rest).1,
       readreg (emu_pop s i).2 (i.arg 0).add_reg :: (run_pops (emu_pop s i).2 rest).2.1,
       (run_pops (emu_pop s i).2 rest).2.2)

/-- Address of byte `i` of the stack slot the `(k + 1)`-th of a series of 32-bit
pushes writes when the series starts with `ESP = esp`: `esp - 4 (k + 1) + i`
modulo `2 ^ 32`. -/
def slot_addr (esp k i : Nat) : Nat :=
  u32 (esp + 4294967296 * (k + 1) - 4 * (k + 1) + i)

/-- A state with 64 KiB of zeroed memory, `ESP = 0x8000` and the other
registers zero. -/
def ex_state_stack : cli_emu_t :=
  ex_state 65536 (fun _ => 0) (fun i => if i = REG_ESP then 32768 else 0) 0 4096

/-- A state in front of `MOVSD` under the REP latch: 64 KiB mapped holding
the byte `a mod 251` at address `a`, `ESI = 0x100`, `EDI = 0x200`, `ECX = 2`,
`DF = 0`, ZF set, `prefix_repe = 1`. -/
def ex_state_movs : cli_emu_t :=
  ⟨ex_vmm 65536 (fun a => a % 251),
   fun i => if i = REG_ESI then 256 else if i = REG_EDI then 512 else if i = REG_ECX then 2 else 0,
   64, 0, 4096, 1, 0, fun _ => ex_instr0⟩

/-- The instruction `LOOP rel8` with displacement byte `b` and the given
operand-size and address-size overrides, operand 0 as the decoder normalises
a relative operand. -/
def ex_instr_loop (opsize adsize b : Nat) : dis_instr :=
  ⟨OP_LOOP, opsize, adsize, 0, 2,
   fun i => if i = 0 then DisassembleAt_arg (ex_raw_rel8 b) ex_arg0 else ex_arg0⟩

/-- A state in front of the code after a LOOP: `ECX = 2`, `eip = 0x1002`, the
other registers zero. -/
def ex_state_loop : cli_emu_t :=
  ex_state 65536 (fun _ => 0) (fun i => if i = REG_ECX then 2 else 0) 0 4098

/-- Memory order of the eight slots written by emu_pusha, lowest address first. -/
def pusha_order : List Nat :=
  [REG_EDI, REG_ESI, REG_EBP, REG_ESP, REG_EBX, REG_EDX, REG_ECX, REG_EAX]

/-- Example state: 64 KiB of zeroed read/write memory, ESP = 0x8000 and eight distinct
register values 0x11111111 * (i + 1). -/
def ex_state_regs : cli_emu_t :=
  ex_state 65536 (fun _ => 0) (fun i => if i = REG_ESP then 32768 else 286331153 * (i + 1)) 2 4096

/-- Example operand-less instruction with the given opcode and operand-size override. -/
def ex_instr_op (op : X86OPS) (opsize : Nat) : dis_instr :=
  ⟨op, opsize, 0, 0, 1, fun _ => ex_arg0⟩

/-- Example state on an API trap: `eip = 0x7000` carries an import record of the generic
stdcall handler with `b` argument bytes; ESP = 0x8000 and the dword at `[ESP]` is 0x1234. -/
def ex_state_trap (b : Nat) : cli_emu_t :=
  ⟨⟨fun a => decide (a < 65536), fun a => decide (a < 65536), fun a => decide (a < 65536),
    fun a => if a = 32768 then 52 else if a = 32769 then 18 else 0,
    fun a => if a = 28672 then some ⟨hook_t.generic_stdcall, b⟩ else none⟩,
   fun i => if i = REG_ESP then 32768 else i + 1, 2, 3, 28672, 0, 0, fun _ => ex_instr0⟩

/-- Example instruction `LEA EAX, [EBX + 4*ECX + 16]`. -/
def ex_instr_lea : dis_instr :=
  ⟨OP_LEA, 0, 0, 0, 3,
   fun i => if i = 0 then ⟨SIZE_INVALID, ⟨0, 0, REGIDX_INVALID, 0, 0⟩, (get_reg ex_desc0 REG_EAX).2, 0, 0⟩
            else ⟨SIZED, (get_reg ex_desc0 REG_ECX).2, (get_reg ex_desc0 REG_EBX).2, 4, 16⟩⟩

/-- A decoder operand record: a relative operand of dword size with the given
displacement bytes (little endian). -/
def ex_raw_rel32 (b0 b1 b2 b3 : Nat) : Nat → Nat
  | 0 => ACCESS_REL
  | 1 => 2
  | 2 => b0
  | 3 => b1
  | 4 => b2
  | 5 => b3
  | _ => 0

/-- A state with 64 KiB of memory holding the bytes 0x78, 0x56 at addresses 16 and 17. -/
def ex_state_data : cli_emu_t :=
  ex_state 65536 (fun a => if a = 16 then 120 else if a = 17 then 86 else 0) (fun _ => 0) 0 4096

/-- A decoder operand record: an 8-bit immediate `b`. -/
def ex_raw_imm8 (b : Nat) : Nat → Nat
  | 0 => ACCESS_IMM
  | 1 => 0
  | 2 => b
  | _ => 0

/-- A decoder operand record: the byte at the absolute address `0x100`. -/
def ex_raw_mem8_256 : Nat → Nat
  | 0 => ACCESS_MEM
  | 1 => 0
  | 2 => REG_INVALID
  | 3 => REG_INVALID
  | 7 => 1
  | _ => 0

/-- A two-operand instruction as `DisassembleAt` fills an empty slot from the operand records. -/
def ex_instr_shift (op : X86OPS) (r0 r1 : Nat → Nat) : dis_instr :=
  ⟨op, 0, 0, 0, 3, fun i => DisassembleAt_arg (ex_args2 r0 r1 i) ex_arg0⟩

/-- A state with EAX = 0x80 and the byte 0x80 at address `0x100`. -/
def ex_state_al80 : cli_emu_t :=
  ex_state 65536 (fun a => if a = 256 then 128 else 0)
    (fun i => if i = REG_EAX then 128 else 0) 2 4096

/-- A decoder operand record: the memory operand `[base + disp0]` of the raw size `size`,
without index register. -/
def ex_raw_mem (size base disp0 : Nat) : Nat → Nat
  | 0 => ACCESS_MEM
  | 1 => size
  | 2 => REG_INVALID
  | 3 => base
  | 6 => disp0
  | _ => 0

/-- A state with EAX = `v`, EBX = 0x100 and the low word of `v` stored at address `0x100`. -/
def ex_state_eax (v : Nat) : cli_emu_t :=
  ex_state 65536 (fun a => if a = 256 then v % 256 else if a = 257 then v / 256 % 256 else 0)
    (fun i => if i = REG_EAX then v else if i = REG_EBX then 256 else 0) 2 4096

/-- A state with EBX = 0x100 and the bytes 0xFF, 0x80 at addresses `0x100`, `0x101`. -/
def ex_state_bytes : cli_emu_t :=
  ex_state 65536 (fun a => if a = 256 then 255 else if a = 257 then 128 else 0)
    (fun i => if i = REG_EBX then 256 else 0) 2 4096

/-- A one-operand instruction as `DisassembleAt` fills an empty slot from the operand record. -/
def ex_instr_unary (op : X86OPS) (r0 : Nat → Nat) : dis_instr :=
  ⟨op, 0, 0, 0, 2, fun i => DisassembleAt_arg (ex_args1 r0 i) ex_arg0⟩

/-- A state with the REPNE latch set, ECX = 2, ESI = 0x100, EDI = 0x200 and the given flags. -/
def ex_state_repne (eflags : Nat) : cli_emu_t :=
  { ex_state 65536 (fun a => a % 251)
      (fun i => if i = REG_ECX then 2 else if i = REG_ESI then 256
                else if i = REG_EDI then 512 else 0) eflags 4096 with prefix_repne := 1 }

/-- The value a register contributes to an effective address, in the words of the
specification: the value of its view, an absent register counting as zero. -/
def spec_reg_value (state : cli_emu_t) (reg : Nat) : Nat :=
  if reg = REG_INVALID then 0 else readreg state (get_reg ex_desc0 reg).2

/-- Whether the scan stops on the ZF rule after comparing the value `a` with the byte `b`:
REPNE stops on equality, REPE on inequality. -/
def scas_stops (repne : Bool) (a b : Nat) : Bool :=
  if repne then decide (a % 256 = b % 256) else decide (a % 256 ≠ b % 256)

/-- The latch state of a REPNE (resp. REPE) prefixed instruction: that latch alone is set. -/
def scas_latched (repne : Bool) (s : cli_emu_t) : Prop :=
  if repne then s.prefix_repne ≠ 0 ∧ s.prefix_repe = 0
  else s.prefix_repe ≠ 0 ∧ s.prefix_repne = 0

/-- The outcome of a SCAS run `r` from the state `s`: success, the value of ZF, the final
EDI and ECX, every other register (AL among them) and the memory unchanged. -/
def scas_outcome (s : cli_emu_t) (r : Int × cli_emu_t) (zf edi ecx : Nat) : Prop :=
  r.1 = 0 ∧ emu_flags r.2 bit_zf = zf ∧ r.2.reg_val REG_EDI = edi ∧ r.2.reg_val REG_ECX = ecx ∧
  (∀ j, j ≠ REG_ECX → j ≠ REG_EDI → r.2.reg_val j = s.reg_val j) ∧ r.2.mem = s.mem

/-- A state under the REPNE latch with ECX = 4, EDI = 0x100, EAX = 0x1207 and memory bytes
`a % 251` (so the byte 7 is at 0x102 in the scanned range). -/
def ex_state_scas : cli_emu_t :=
  { ex_state 65536 (fun a => a % 251)
      (fun i => if i = REG_ECX then 4 else if i = REG_EDI then 256
                else if i = REG_EAX then 4615 else 0) 2 4096 with prefix_repne := 1 }

/-- A register id beyond the table of `get_reg` that is not `REG_INVALID` (a segment register
in the enumeration of the decoder). -/
def ex_reg_unimplemented : Nat := 27

/-- A decoder that reads every instruction as the two-byte `MOV EAX, EBX`. -/
def ex_dec_mov_ebx : List Nat → DISASM_RESULT × Nat :=
  ex_decoder (ex_res OP_MOV 0 0 (ex_args2 (ex_raw_reg REG_EAX) (ex_raw_reg REG_EBX))) 2

/-- A decoder that reads every instruction as the two-byte `MOV EAX, sreg` whose source is
the register `ex_reg_unimplemented`. -/
def ex_dec_mov_sreg : List Nat → DISASM_RESULT × Nat :=
  ex_decoder (ex_res OP_MOV 0 0 (ex_args2 (ex_raw_reg REG_EAX) (ex_raw_reg ex_reg_unimplemented))) 2

/-- A decoder that reads every instruction as the six-byte `INC dword [0x100]` (no base, no
index). -/
def ex_dec_inc_abs : List Nat → DISASM_RESULT × Nat :=
  ex_decoder (ex_res OP_INC 0 0 (ex_args1 (fun k => if k = 0 then ACCESS_MEM else if k = 1 then 2
    else if k = 2 then REG_INVALID else if k = 3 then REG_INVALID else if k = 7 then 1 else 0))) 6

/-- The example register state after a decode of `MOV EAX, EBX` at its `eip`: only the cache
slot of that address differs from `ex_state_regs`. -/
def ex_state_cached : cli_emu_t := (disasm ex_dec_mov_ebx ex_state_regs).2

/-- The value of the count register of the REP harness: CX under address-size override,
ECX otherwise. -/
def rep_count (t : cli_emu_t) (ad16 : Nat) : Nat :=
  if ad16 ≠ 0 then t.reg_val REG_ECX % 65536 else t.reg_val REG_ECX % 4294967296

/-- A state in which one of the REP latches is set. -/
def rep_latched (t : cli_emu_t) : Prop := t.prefix_repe ≠ 0 ∨ t.prefix_repne ≠ 0

/-- Two states with the same latches and the same ECX cell. -/
def same_count (t t1 : cli_emu_t) : Prop :=
  t1.prefix_repe = t.prefix_repe ∧ t1.prefix_repne = t.prefix_repne ∧
  t1.reg_val REG_ECX = t.reg_val REG_ECX

/-- The shape of one turn of a string loop `L`: either the body fails with a result that does
not depend on the fuel, or the post-check runs on a state with the latches and the count of the
entry state and decides whether the loop goes on. -/
def rep_turn (L : Nat → cli_emu_t → Int × cli_emu_t) (ad r : Nat) (s : cli_emu_t) : Prop :=
  (∃ res : Int × cli_emu_t, res.1 ≠ -3 ∧ res.2.reg_val REG_ECX = s.reg_val REG_ECX ∧
      ∀ fuel, L (fuel + 1) s = res) ∨
  (∃ st, same_count s st ∧
      ∀ fuel, L (fuel + 1) s
        = if (emu_prefix_post st ad r).1 ≠ 0 then L fuel (emu_prefix_post st ad r).2
          else (0, (emu_prefix_post st ad r).2))

/-- A decoder on the first fetched byte: 0xF2 is the REPNE prefix, 0xF3 the REPE prefix, 0xA5
MOVSD, and every other byte an opcode the emulator has no case for; each of length one. -/
def ex_dec_rep_movsd : List Nat → DISASM_RESULT × Nat :=
  fun bytes =>
    if bytes.headD 0 = 242 then (ex_res OP_PREFIX_REPNE 0 0 (fun _ => ex_raw_none), 1)
    else if bytes.headD 0 = 243 then (ex_res OP_PREFIX_REPE 0 0 (fun _ => ex_raw_none), 1)
    else if bytes.headD 0 = 165 then (ex_res OP_MOVSD 0 0 (fun _ => ex_raw_none), 1)
    else (ex_res OP_OTHER 0 0 (fun _ => ex_raw_none), 1)

/-- A state whose code at `eip = 0x1000` is the bytes `F2 F3 A5`, every other byte of the
64 KiB being `a % 251` at address `a`, with ECX = 2, ESI = 0x100, EDI = 0x200, the given
flags and both latches clear. -/
def ex_state_f2f3 (eflags : Nat) : cli_emu_t :=
  ex_state 65536
    (fun a => if a = 4096 then 242 else if a = 4097 then 243 else if a = 4098 then 165
              else a % 251)
    (fun i => if i = REG_ECX then 2 else if i = REG_ESI then 256
              else if i = REG_EDI then 512 else 0) eflags 4096

/-- The state two steps after `ex_state_f2f3`: both prefix bytes have been decoded. -/
def ex_state_both (eflags : Nat) : cli_emu_t :=
  (cli_emulator_step ex_dec_rep_movsd
    (cli_emulator_step ex_dec_rep_movsd (ex_state_f2f3 eflags)).2).2

theorem u32_lt (n : Nat) : u32 n < 4294967296 := by
  unfold u32; omega

theorem u32_of_lt {n : Nat} (h : n < 4294967296) : u32 n = n := by
  unfold u32; omega

theorem testBit_255 (i : Nat) : Nat.testBit 255 i = decide (i < 8) := by
  have h := @Nat.testBit_two_pow_sub_one 8 i
  simpa using h

theorem testBit_65535 (i : Nat) : Nat.testBit 65535 i = decide (i < 16) := by
  have h := @Nat.testBit_two_pow_sub_one 16 i
  simpa using h

theorem testBit_mask32 (i : Nat) : Nat.testBit 4294967295 i = decide (i < 32) := by
  have h := @Nat.testBit_two_pow_sub_one 32 i
  simpa using h

theorem testBit_65280 (i : Nat) :
    Nat.testBit 65280 i = (decide (8 ≤ i) && decide (i < 16)) := by
  have h : (65280 : Nat) = 255 <<< 8 := by decide
  rw [h, Nat.testBit_shiftLeft, testBit_255]
  by_cases h8 : 8 ≤ i <;> simp [h8]
  omega

theorem and_mask32 (a : Nat) : a &&& 4294967295 = u32 a := by
  have h := @Nat.and_pow_two_sub_one_eq_mod a 32
  simpa [u32] using h

theorem testBit_u32 (a i : Nat) : (u32 a).testBit i = (decide (i < 32) && a.testBit i) := by
  rw [← and_mask32, Nat.testBit_and, testBit_mask32, Bool.and_comm]

theorem testBit_not32 (a i : Nat) :
    (not32 a).testBit i = (decide (i < 32) && !a.testBit i) := by
  unfold not32
  rw [Nat.testBit_xor, testBit_mask32, testBit_u32]
  by_cases h : i < 32 <;> simp [h]

/-! ## Register views (C4) -/

/-- C4 (register aliasing).  For every value `v`, writing `v` through the
EAX view and reading through the AH view (mask `0xff00`, shift 8) gives
`(v >> 8) & 0xff`; and for every state and value `x`, writing `x` through the
AL view (mask `0xff`, shift 0) succeeds, sets the low byte of the EAX cell to
`x & 0xff`, leaves the upper 24 bits of the cell as they were and leaves the
other cells alone.  The three views are the ones `get_reg` builds. -/
theorem C4_register_aliasing (emu : cli_emu_t) (v x : Nat) (d : desc_t)
    (hcell : emu.reg_val REG_EAX < 4294967296) :
    (get_reg d REG_AH).2.mask = 65280 ∧ (get_reg d REG_AH).2.shift = 8 ∧
    (get_reg d REG_AL).2.mask = 255 ∧ (get_reg d REG_AL).2.shift = 0 ∧
    (get_reg d REG_EAX).2.idx = REG_EAX ∧ (get_reg d REG_AH).2.idx = REG_EAX ∧
    (get_reg d REG_AL).2.idx = REG_EAX ∧
    readreg (writereg emu (get_reg d REG_EAX).2 v).2 (get_reg d REG_AH).2 = (v >>> 8) &&& 255 ∧
    (writereg emu (get_reg d REG_AL).2 x).1 = 0 ∧
    (writereg emu (get_reg d REG_AL).2 x).2.reg_val REG_EAX &&& 255 = x &&& 255 ∧
    (writereg emu (get_reg d REG_AL).2 x).2.reg_val REG_EAX >>> 8 = emu.reg_val REG_EAX >>> 8 ∧
    (∀ j, j ≠ REG_EAX → (writereg emu (get_reg d REG_AL).2 x).2.reg_val j = emu.reg_val j) := by
  have hEAX : (get_reg d REG_EAX).2 = ⟨4294967295, 0, 0, 32, 32⟩ := by
    simp [get_reg, REG_EAX, MAXREG, reg_masks]
  have hAH : (get_reg d REG_AH).2 = ⟨65280, 8, 0, 8, 8⟩ := by
    simp [get_reg, REG_AH, MAXREG, reg_masks]
  have hAL : (get_reg d REG_AL).2 = ⟨255, 0, 0, 8, 8⟩ := by
    simp [get_reg, REG_AL, MAXREG, reg_masks]
  rw [hEAX, hAH, hAL]
  refine ⟨rfl, rfl, rfl, rfl, rfl, rfl, rfl, ?_, ?_, ?_, ?_, ?_⟩
  · simp only [readreg, writereg, set_reg_val, REGIDX_INVALID, REG_EAX]
    simp only [Nat.zero_ne_add_one, if_false, ne_eq, not_false_eq_true, if_true, Nat.shiftLeft_zero]
    apply Nat.eq_of_testBit_eq
    intro i
    simp only [Nat.testBit_shiftRight, Nat.testBit_and, Nat.testBit_or, testBit_255,
      testBit_65280, testBit_not32, testBit_mask32, testBit_u32]
    have e : decide (8 + i < 16) = decide (i < 8) := by
      rw [decide_eq_decide]; omega
    by_cases h8 : i < 8
    · have h32 : 8 + i < 32 := by omega
      simp [h8, e, h32]
    · simp [h8, e]
  · simp [writereg, REGIDX_INVALID]
  · simp only [writereg, set_reg_val, REGIDX_INVALID, REG_EAX]
    simp only [Nat.zero_ne_add_one, if_false, if_true, Nat.shiftLeft_zero]
    apply Nat.eq_of_testBit_eq
    intro i
    simp only [Nat.testBit_and, Nat.testBit_or, testBit_255, testBit_not32, testBit_u32]
    by_cases h8 : i < 8
    · have h32 : i < 32 := by omega
      simp [h8, h32]
    · simp [h8]
  · simp only [writereg, set_reg_val, REGIDX_INVALID, REG_EAX]
    simp only [Nat.zero_ne_add_one, if_false, if_true, Nat.shiftLeft_zero]
    apply Nat.eq_of_testBit_eq
    intro i
    simp only [Nat.testBit_shiftRight, Nat.testBit_and, Nat.testBit_or, testBit_255,
      testBit_not32, testBit_u32]
    have h8 : ¬ (8 + i < 8) := by omega
    by_cases h32 : 8 + i < 32
    · simp [h8, h32]
    · have hz : (emu.reg_val 0).testBit (8 + i) = false := by
        apply Nat.testBit_lt_two_pow
        have hp : (4294967296 : Nat) ≤ 2 ^ (8 + i) := by
          have h1 : (2 : Nat) ^ 32 ≤ 2 ^ (8 + i) := Nat.pow_le_pow_right (by decide) (by omega)
          simpa using h1
        simp only [REG_EAX] at hcell
        omega
      simp [h8, h32, hz]
  · intro j hj
    simp only [writereg, set_reg_val, REGIDX_INVALID, REG_EAX] at hj ⊢
    simp [hj]

/-- The aliasing law at `v = 0xAABBCCDD`, `x = 0x1234` on a concrete state. -/
theorem C4_register_aliasing_witness :
    readreg (writereg (ex_state 0 (fun _ => 0) (fun _ => 287454020) 0 0)
      (get_reg ex_desc0 REG_EAX).2 2864434397).2 (get_reg ex_desc0 REG_AH).2
      = (2864434397 >>> 8) &&& 255 ∧
    (writereg (ex_state 0 (fun _ => 0) (fun _ => 287454020) 0 0)
      (get_reg ex_desc0 REG_AL).2 4660).2.reg_val REG_EAX >>> 8 = 287454020 >>> 8 :=
  have h := C4_register_aliasing (ex_state 0 (fun _ => 0) (fun _ => 287454020) 0 0)
    2864434397 4660 ex_desc0 (by decide)
  ⟨h.2.2.2.2.2.2.2.1, h.2.2.2.2.2.2.2.2.2.2.1⟩

/-! ## Program exit (C2) -/

/-- C2 (program exited).  In every state whose `eip` equals `MAPPING_END`,
`cli_emulator_step` returns -2, a value different from the error value -1 and
from the success value 0, and hands back the state itself: registers, flags,
`eip`, latches, memory and the decoded-instruction cache are untouched,
whatever the import table and the decoder are. -/
theorem C2_step_at_mapping_end (cli_disasm_one : List Nat → DISASM_RESULT × Nat)
    (emu : cli_emu_t) (h : emu.eip = MAPPING_END) :
    cli_emulator_step cli_disasm_one emu = (-2, emu) ∧ (-2 : Int) ≠ -1 ∧ (-2 : Int) ≠ 0 := by
  refine ⟨?_, by decide, by decide⟩
  unfold cli_emulator_step
  rw [if_pos h]

/-- The exit path on a state whose memory has an import trap at `MAPPING_END`. -/
theorem C2_step_at_mapping_end_witness :
    ex_state_exited.eip = MAPPING_END ∧
    cli_emulator_step (ex_decoder (ex_res OP_MOV 0 0 (fun _ _ => 0)) 1) ex_state_exited
      = (-2, ex_state_exited) :=
  ⟨rfl, (C2_step_at_mapping_end _ ex_state_exited rfl).1⟩

/-! ## Frame lemmas: what the primitives leave alone -/

@[simp] theorem set_reg_val_eip (s : cli_emu_t) (i v : Nat) : (set_reg_val s i v).eip = s.eip := rfl

@[simp] theorem set_reg_val_eflags (s : cli_emu_t) (i v : Nat) :
    (set_reg_val s i v).eflags = s.eflags := rfl

@[simp] theorem set_reg_val_eflags_def (s : cli_emu_t) (i v : Nat) :
    (set_reg_val s i v).eflags_def = s.eflags_def := rfl

@[simp] theorem set_reg_val_mem (s : cli_emu_t) (i v : Nat) : (set_reg_val s i v).mem = s.mem := rfl

@[simp] theorem set_reg_val_repe (s : cli_emu_t) (i v : Nat) :
    (set_reg_val s i v).prefix_repe = s.prefix_repe := rfl

@[simp] theorem set_reg_val_repne (s : cli_emu_t) (i v : Nat) :
    (set_reg_val s i v).prefix_repne = s.prefix_repne := rfl

@[simp] theorem writereg_eip (s : cli_emu_t) (d : desc_t) (v : Nat) :
    (writereg s d v).2.eip = s.eip := by
  unfold writereg; split <;> rfl

@[simp] theorem write_reg_eip (s : cli_emu_t) (r v : Nat) : (write_reg s r v).2.eip = s.eip := by
  simp [write_reg]

@[simp] theorem mem_write_eip (s : cli_emu_t) (a : Nat) (sz : DIS_SIZE) (v : Nat) :
    (mem_write s a sz v).2.eip = s.eip := by
  unfold mem_write; split <;> split <;> rfl

@[simp] theorem write_operand_eip (s : cli_emu_t) (a : dis_arg) (v : Nat) :
    (write_operand s a v).2.eip = s.eip := by
  unfold write_operand; split <;> simp

@[simp] theorem mem_push_eip (s : cli_emu_t) (sz v : Nat) : (mem_push s sz v).2.eip = s.eip := by
  unfold mem_push; dsimp only; split_ifs <;> (try split) <;> rfl

@[simp] theorem mem_pop_eip (s : cli_emu_t) (sz v : Nat) : (mem_pop s sz v).2.2.eip = s.eip := by
  unfold mem_pop; dsimp only; split <;> rfl

@[simp] theorem calc_flags_test_eip (s : cli_emu_t) (r : Nat) (d : desc_t) :
    (calc_flags_test s r d).eip = s.eip := rfl

@[simp] theorem calc_flags_inc_eip (s : cli_emu_t) (r : Nat) (d : desc_t) :
    (calc_flags_inc s r d).eip = s.eip := rfl

@[simp] theorem calc_flags_dec_eip (s : cli_emu_t) (r : Nat) (d : desc_t) :
    (calc_flags_dec s r d).eip = s.eip := rfl

@[simp] theorem calc_flags_addsub_eip (s : cli_emu_t) (a b : Nat) (d : desc_t) (k : Nat) :
    (calc_flags_addsub s a b d k).eip = s.eip := rfl

@[simp] theorem shift_flags_eip (s : cli_emu_t) (c cf o : Nat) (l : Bool) :
    (shift_flags s c cf o l).eip = s.eip := by
  unfold shift_flags; dsimp only; split_ifs <;> rfl

@[simp] theorem rot_finish_eip (s : cli_emu_t) (i : dis_instr) (r cf o : Nat) :
    (rot_finish s i r cf o).2.eip = s.eip := by
  unfold rot_finish; dsimp only; split_ifs <;> simp

@[simp] theorem emu_prefix_post_eip (s : cli_emu_t) (ad rr : Nat) :
    (emu_prefix_post s ad rr).2.eip = s.eip := by
  unfold emu_prefix_post; dsimp only; split_ifs <;> simp

theorem emu_mov_eip (s : cli_emu_t) (i : dis_instr) : (emu_mov s i).2.eip = s.eip := by
  unfold emu_mov; dsimp only; split_ifs <;> simp

theorem emu_push_eip (s : cli_emu_t) (i : dis_instr) : (emu_push s i).2.eip = s.eip := by
  unfold emu_push; dsimp only; split_ifs <;> simp

theorem emu_pop_eip (s : cli_emu_t) (i : dis_instr) : (emu_pop s i).2.eip = s.eip := by
  unfold emu_pop; dsimp only; split_ifs <;> simp

theorem emu_inc_eip (s : cli_emu_t) (i : dis_instr) : (emu_inc s i).2.eip = s.eip := by
  unfold emu_inc; dsimp only; split_ifs <;> simp

theorem emu_dec_eip (s : cli_emu_t) (i : dis_instr) : (emu_dec s i).2.eip = s.eip := by
  unfold emu_dec; dsimp only; split_ifs <;> simp

theorem emu_xor_eip (s : cli_emu_t) (i : dis_instr) : (emu_xor s i).2.eip = s.eip := by
  unfold emu_xor; dsimp only; split_ifs <;> simp

theorem emu_and_eip (s : cli_emu_t) (i : dis_instr) : (emu_and s i).2.eip = s.eip := by
  unfold emu_and; dsimp only; split_ifs <;> simp

theorem emu_or_eip (s : cli_emu_t) (i : dis_instr) : (emu_or s i).2.eip = s.eip := by
  unfold emu_or; dsimp only; split_ifs <;> simp

theorem emu_sub_eip (s : cli_emu_t) (i : dis_instr) : (emu_sub s i).2.eip = s.eip := by
  unfold emu_sub; dsimp only; split_ifs <;> simp

theorem emu_cmp_eip (s : cli_emu_t) (i : dis_instr) : (emu_cmp s i).2.eip = s.eip := by
  unfold emu_cmp; dsimp only; split_ifs <;> simp

theorem emu_adc_eip (s : cli_emu_t) (i : dis_instr) : (emu_adc s i).2.eip = s.eip := by
  unfold emu_adc; dsimp only; split_ifs <;> simp

theorem emu_add_eip (s : cli_emu_t) (i : dis_instr) : (emu_add s i).2.eip = s.eip := by
  unfold emu_add; dsimp only; split_ifs <;> simp

theorem emu_xchg_eip (s : cli_emu_t) (i : dis_instr) : (emu_xchg s i).2.eip = s.eip := by
  unfold emu_xchg; dsimp only; split_ifs <;> simp

theorem emu_lea_eip (s : cli_emu_t) (i : dis_instr) : (emu_lea s i).2.eip = s.eip := by
  unfold emu_lea; dsimp only; split_ifs <;> simp

theorem emu_shl_eip (s : cli_emu_t) (i : dis_instr) : (emu_shl s i).2.eip = s.eip := by
  unfold emu_shl; dsimp only; split_ifs <;> simp

theorem emu_shr_eip (s : cli_emu_t) (i : dis_instr) : (emu_shr s i).2.eip = s.eip := by
  unfold emu_shr; dsimp only; split_ifs <;> simp

theorem emu_rol_eip (s : cli_emu_t) (i : dis_instr) : (emu_rol s i).2.eip = s.eip := by
  unfold emu_rol; dsimp only; split_ifs <;> simp

theorem emu_ror_eip (s : cli_emu_t) (i : dis_instr) : (emu_ror s i).2.eip = s.eip := by
  unfold emu_ror; dsimp only; split_ifs <;> simp

theorem emu_pusha_eip (s : cli_emu_t) (i : dis_instr) : (emu_pusha s i).2.eip = s.eip := by
  unfold emu_pusha; dsimp only; split_ifs <;> split <;> simp

theorem emu_popa_eip (s : cli_emu_t) (i : dis_instr) : (emu_popa s i).2.eip = s.eip := by
  unfold emu_popa; dsimp only; split_ifs <;> split <;> simp [write16reg]

theorem emu_lodsx_loop_eip (i : dis_instr) (sz : DIS_SIZE) (reg add fuel : Nat) (s : cli_emu_t) :
    (emu_lodsx_loop i sz reg add fuel s).2.eip = s.eip := by
  induction fuel generalizing s with
  | zero => rfl
  | succ n ih =>
    unfold emu_lodsx_loop
    split
    · rfl
    · dsimp only
      split_ifs
      · rfl
      · rw [ih]; simp
      · simp

theorem emu_lodsx_eip (s : cli_emu_t) (i : dis_instr) (sz : DIS_SIZE) (reg add : Nat) :
    (emu_lodsx s i sz reg add).2.eip = s.eip := by
  unfold emu_lodsx; split_ifs
  · rfl
  · exact emu_lodsx_loop_eip _ _ _ _ _ _

theorem emu_stosx_loop_eip (i : dis_instr) (sz : DIS_SIZE) (reg add fuel : Nat) (s : cli_emu_t) :
    (emu_stosx_loop i sz reg add fuel s).2.eip = s.eip := by
  induction fuel generalizing s with
  | zero => rfl
  | succ n ih =>
    unfold emu_stosx_loop
    split
    · dsimp only
      split_ifs
      · simp
      · rw [ih]; simp
      · simp
    · rfl

theorem emu_stosx_eip (s : cli_emu_t) (i : dis_instr) (sz : DIS_SIZE) (reg add : Nat) :
    (emu_stosx s i sz reg add).2.eip = s.eip := by
  unfold emu_stosx; split_ifs
  · rfl
  · exact emu_stosx_loop_eip _ _ _ _ _ _

theorem emu_movsx_loop_eip (i : dis_instr) (sz : DIS_SIZE) (add fuel : Nat) (s : cli_emu_t) :
    (emu_movsx_loop i sz add fuel s).2.eip = s.eip := by
  induction fuel generalizing s with
  | zero => rfl
  | succ n ih =>
    unfold emu_movsx_loop
    split
    · dsimp only
      split_ifs
      · rfl
      · simp
      · rw [ih]; simp
      · simp
    · rfl

theorem emu_movsx_eip (s : cli_emu_t) (i : dis_instr) (sz : DIS_SIZE) (add : Nat) :
    (emu_movsx s i sz add).2.eip = s.eip := by
  unfold emu_movsx; split_ifs
  · rfl
  · exact emu_movsx_loop_eip _ _ _ _ _

theorem emu_scasx_loop_eip (i : dis_instr) (reg : Nat) (sz : DIS_SIZE) (add a fuel edi src : Nat)
    (s : cli_emu_t) (r : Nat × cli_emu_t)
    (h : emu_scasx_loop i reg sz add a fuel edi src s = some r) : r.2.eip = s.eip := by
  induction fuel generalizing s edi src with
  | zero => simp [emu_scasx_loop] at h
  | succ n ih =>
    unfold emu_scasx_loop at h
    dsimp only at h
    split_ifs at h
    all_goals first
      | (rw [ih _ _ _ h]; simp)
      | (simp only [Option.some.injEq] at h; rw [← h]; simp)

theorem emu_scasx_eip (s : cli_emu_t) (i : dis_instr) (reg : Nat) (sz : DIS_SIZE) (add : Nat) :
    (emu_scasx s i reg sz add).2.eip = s.eip := by
  unfold emu_scasx
  dsimp only
  split
  · by_cases hp : emu_prefix_pre s i.address_size 0 ≠ 0
    · rw [if_pos hp]
    · rw [if_neg hp]
      split
      · rfl
      · rename_i r hr
        simp only [write_reg_eip]
        exact emu_scasx_loop_eip _ _ _ _ _ _ _ _ _ _ hr
  · rfl

/-! ## The step function after a successful decode -/

/-- What `disasm` leaves alone: it only rewrites a slot of the cache. -/
theorem disasm_frame (dec : List Nat → DISASM_RESULT × Nat) (emu : cli_emu_t) :
    (disasm dec emu).2.mem = emu.mem ∧ (disasm dec emu).2.reg_val = emu.reg_val ∧
    (disasm dec emu).2.eflags = emu.eflags ∧ (disasm dec emu).2.eflags_def = emu.eflags_def ∧
    (disasm dec emu).2.eip = emu.eip ∧ (disasm dec emu).2.prefix_repe = emu.prefix_repe ∧
    (disasm dec emu).2.prefix_repne = emu.prefix_repne := by
  unfold disasm; dsimp only; split_ifs <;> exact ⟨rfl, rfl, rfl, rfl, rfl, rfl, rfl⟩

/-- Unfolding of `cli_emulator_step` on a state that is neither halted nor on
an API trap and whose instruction decodes. -/
theorem step_decoded (dec : List Nat → DISASM_RESULT × Nat) (emu emu1 : cli_emu_t)
    (instr : dis_instr) (hend : emu.eip ≠ MAPPING_END)
    (himp : cli_emu_vmm_get_import emu.mem emu.eip = none)
    (hdec : disasm dec emu = (some instr, emu1)) :
    cli_emulator_step dec emu =
      match instr.opcode with
      | OP_PREFIX_REPE => (0, { step_entry emu1 instr with prefix_repe := 1 })
      | OP_PREFIX_REPNE => (0, { step_entry emu1 instr with prefix_repne := 1 })
      | OP_PREFIX_LOCK => (0, step_entry emu1 instr)
      | OP_OTHER => (-1, step_entry emu1 instr)
      | _ => (0, { (emu_dispatch (step_entry emu1 instr) instr).2 with
                   prefix_repe := 0, prefix_repne := 0 }) := by
  unfold cli_emulator_step
  rw [if_neg hend, himp]
  simp only [hdec]
  rfl

/-! ## Program counter (C3) -/

theorem disasm_eip (dec : List Nat → DISASM_RESULT × Nat) (emu emu1 : cli_emu_t)
    (instr : dis_instr) (hdec : disasm dec emu = (some instr, emu1)) : emu1.eip = emu.eip := by
  have h := (disasm_frame dec emu).2.2.2.2.1
  rw [hdec] at h
  exact h

/-- C3 (PC advance ordering).  In a state that is not at `MAPPING_END` and not
on an import trap, let the instruction decoded at `eip` have length `L`.  If
its opcode is not a control transfer, then after `cli_emulator_step` the new
`eip` is `eip + L` modulo `2 ^ 32`.  If it is a JMP whose operand is RELATIVE
with signed displacement `D` and the operand size is not overridden, the new
`eip` is `eip + L + D` modulo `2 ^ 32`. -/
theorem C3_pc_advance (dec : List Nat → DISASM_RESULT × Nat) (emu emu1 : cli_emu_t)
    (instr : dis_instr) (hend : emu.eip ≠ MAPPING_END)
    (himp : cli_emu_vmm_get_import emu.mem emu.eip = none)
    (hdec : disasm dec emu = (some instr, emu1)) :
    (is_control_transfer instr.opcode = false →
      (cli_emulator_step dec emu).2.eip = (emu.eip + instr.len) % 4294967296) ∧
    (instr.opcode = OP_JMP → (instr.arg 0).access_size = SIZE_REL → instr.operation_size = 0 →
      ((cli_emulator_step dec emu).2.eip : Int) =
        ((emu.eip : Int) + (instr.len : Int) + s32 (instr.arg 0).displacement) % 4294967296) := by
  have he := disasm_eip dec emu emu1 instr hdec
  rw [step_decoded dec emu emu1 instr hend himp hdec]
  constructor
  · intro hct
    cases hop : instr.opcode <;> rw [hop] at hct <;>
      first
        | (exact absurd hct (by decide))
        | simp [emu_dispatch, hop, step_entry, he, u32, emu_mov_eip, emu_push_eip,
            emu_pop_eip, emu_inc_eip, emu_dec_eip, emu_xor_eip, emu_and_eip, emu_or_eip,
            emu_sub_eip, emu_cmp_eip, emu_adc_eip, emu_add_eip, emu_xchg_eip, emu_lea_eip,
            emu_shl_eip, emu_shr_eip, emu_rol_eip, emu_ror_eip, emu_pusha_eip, emu_popa_eip,
            emu_lodsx_eip, emu_stosx_eip, emu_movsx_eip, emu_scasx_eip, emu_cld, emu_std,
            emu_stc, emu_clc]
  · intro hop hrel hsz
    simp only [hop, emu_dispatch, emu_jmp, jmp_target, hrel, if_true, hsz, ne_eq,
      not_true_eq_false, if_false, step_entry, he]
    unfold s32 u32
    split_ifs <;> push_cast <;> omega

/-- The two cases of C3 on the machine `ex_state_code`: a one-byte NOP at
`0x1000` leaves `eip = 0x1001`, and `JMP -2` of length 2 at `0x1000` leaves
`eip = 0x1000`. -/
theorem C3_pc_advance_witness :
    (cli_emulator_step ex_dec_nop ex_state_code).2.eip = (4096 + 1) % 4294967296 ∧
    ((cli_emulator_step ex_dec_jmp ex_state_code).2.eip : Int) =
      ((4096 : Int) + 2 + s32 4294967294) % 4294967296 :=
  ⟨(C3_pc_advance ex_dec_nop ex_state_code (disasm ex_dec_nop ex_state_code).2
      (((disasm ex_dec_nop ex_state_code).1).getD ex_instr0) (by decide) rfl rfl).1 rfl,
   (C3_pc_advance ex_dec_jmp ex_state_code (disasm ex_dec_jmp ex_state_code).2
      (((disasm ex_dec_jmp ex_state_code).1).getD ex_instr0) (by decide) rfl rfl).2 rfl rfl rfl⟩

/-! ## Handler failure (C1) -/

/-- Whatever the handler returns, a step that reaches a handler arm of the
`switch` returns 0: the value stored in `rc` is not read. -/
theorem step_drops_handler_result (dec : List Nat → DISASM_RESULT × Nat) (emu emu1 : cli_emu_t)
    (instr : dis_instr) (hend : emu.eip ≠ MAPPING_END)
    (himp : cli_emu_vmm_get_import emu.mem emu.eip = none)
    (hdec : disasm dec emu = (some instr, emu1))
    (hop : returns_from_switch instr.opcode = false) :
    (cli_emulator_step dec emu).1 = 0 := by
  rw [step_decoded dec emu emu1 instr hend himp hdec]
  cases h : instr.opcode <;> simp_all [returns_from_switch]

/-- C1 (handler failure is not propagated).  On the machine `ex_state_code`
(64 KiB mapped, `eip = 0x1000`) the instruction `MOV EAX, dword [0x20000]`
reads an unmapped address: the operand read fails, `emu_mov` returns -1 on the
state the step hands it, and `cli_emulator_step` nevertheless returns 0, with
`eip` advanced and EAX unchanged. -/
theorem C1_step_returns_zero_on_handler_failure :
    ex_state_code.eip ≠ MAPPING_END ∧
    cli_emu_vmm_get_import ex_state_code.mem ex_state_code.eip = none ∧
    (read_operand (step_entry (disasm ex_dec_mov_fault ex_state_code).2
        (((disasm ex_dec_mov_fault ex_state_code).1).getD ex_instr0))
      ((((disasm ex_dec_mov_fault ex_state_code).1).getD ex_instr0).arg 1)).1 = -1 ∧
    (emu_mov (step_entry (disasm ex_dec_mov_fault ex_state_code).2
        (((disasm ex_dec_mov_fault ex_state_code).1).getD ex_instr0))
      (((disasm ex_dec_mov_fault ex_state_code).1).getD ex_instr0)).1 = -1 ∧
    (cli_emulator_step ex_dec_mov_fault ex_state_code).1 = 0 ∧
    (cli_emulator_step ex_dec_mov_fault ex_state_code).2.eip = 4102 ∧
    (cli_emulator_step ex_dec_mov_fault ex_state_code).2.reg_val REG_EAX = 0 := by
  refine ⟨by decide, rfl, ?_, ?_, ?_, ?_, ?_⟩ <;> decide

/-! ## RET with an immediate (C10) -/

/-- Near RET without address-size override: `eip` is the dword popped from
`[ESP]` and ESP becomes `ESP + 4 + d` modulo `2 ^ 32`. -/
theorem emu_ret_no_override (state : cli_emu_t) (instr : dis_instr) (v : Nat)
    (hop : instr.operation_size = 0) (had : instr.address_size = 0)
    (hrd : cli_emu_vmm_read32 state.mem (state.reg_val REG_ESP) = some v) :
    (emu_ret state instr).1 = 0 ∧ (emu_ret state instr).2.eip = v ∧
    (emu_ret state instr).2.reg_val REG_ESP =
      (state.reg_val REG_ESP + 4 + (instr.arg 0).displacement) % 4294967296 := by
  unfold emu_ret mem_pop stack_size
  simp [hop, had, hrd, set_reg_val, u32]
  intro h0
  rw [h0]

/-- C10 (RET with an immediate, address-size override).  On `ex_state_ret`
(`ESP = 0x000F8000`, stack readable) the instruction `RET 8` under
address-size override succeeds and leaves `ESP = 0x0000800C`: the low 16 bits
are `(low16 (ESP + 4) + 8) mod 2 ^ 16 = 0x800C`, but bits 16 to 19 of ESP,
which were `0xF`, are cleared, because the merge mask in `emu_ret` is
`0xffff00000`.  The claim asks for `0x000F800C`. -/
theorem C10_ret_imm_ad16_clears_bits_16_19 :
    ex_instr_ret8_ad16.opcode = OP_RETN ∧ ex_instr_ret8_ad16.address_size = 1 ∧
    (ex_instr_ret8_ad16.arg 0).displacement = 8 ∧
    ex_state_ret.reg_val REG_ESP = 1015808 ∧
    (emu_ret ex_state_ret ex_instr_ret8_ad16).1 = 0 ∧
    (emu_ret ex_state_ret ex_instr_ret8_ad16).2.reg_val REG_ESP = 32780 ∧
    (emu_ret ex_state_ret ex_instr_ret8_ad16).2.reg_val REG_ESP % 65536
      = ((1015808 + 4) % 65536 + 8) % 65536 ∧
    (emu_ret ex_state_ret ex_instr_ret8_ad16).2.reg_val REG_ESP >>> 16 = 0 ∧
    ex_state_ret.reg_val REG_ESP >>> 16 = 15 ∧
    (cli_emulator_step ex_dec_ret8_ad16 ex_state_ret).2.reg_val REG_ESP = 32780 := by
  refine ⟨?_, ?_, ?_, ?_, ?_, ?_, ?_, ?_, ?_, ?_⟩ <;> decide

/-! ## Conditional jumps (C8) -/

/-- C8 (conditional-jump table).  For each of the sixteen conditional jump
opcodes with a RELATIVE operand of signed displacement `D`, length `L` and no
operand-size override, and for every value of `eflags`: after
`cli_emulator_step` the new `eip` is `eip + L + D` (modulo `2 ^ 32`) if the
condition the specification lists for the opcode holds on the flags before
the step, and `eip + L` otherwise; the step returns 0 and the registers,
`eflags`, `eflags_def` and the memory are unchanged. -/
theorem C8_conditional_jumps (dec : List Nat → DISASM_RESULT × Nat) (emu emu1 : cli_emu_t)
    (instr : dis_instr) (cond : Bool) (hend : emu.eip ≠ MAPPING_END)
    (himp : cli_emu_vmm_get_import emu.mem emu.eip = none)
    (hdec : disasm dec emu = (some instr, emu1))
    (hcond : spec_jcc_condition instr.opcode (emu_flags emu bit_of) (emu_flags emu bit_cf)
      (emu_flags emu bit_zf) (emu_flags emu bit_sf) (emu_flags emu bit_pf) = some cond)
    (hrel : (instr.arg 0).access_size = SIZE_REL) (hsz : instr.operation_size = 0) :
    (cli_emulator_step dec emu).1 = 0 ∧
    ((cli_emulator_step dec emu).2.eip : Int) =
      (if cond then
        ((emu.eip : Int) + (instr.len : Int) + s32 (instr.arg 0).displacement) % 4294967296
       else ((emu.eip : Int) + (instr.len : Int)) % 4294967296) ∧
    (cli_emulator_step dec emu).2.reg_val = emu.reg_val ∧
    (cli_emulator_step dec emu).2.eflags = emu.eflags ∧
    (cli_emulator_step dec emu).2.eflags_def = emu.eflags_def ∧
    (cli_emulator_step dec emu).2.mem = emu.mem := by
  obtain ⟨hm, hr, hf, hfd, he, -, -⟩ := disasm_frame dec emu
  rw [hdec] at hm hr hf hfd he
  simp only at hm hr hf hfd he
  have hfl : ∀ b, emu_flags (step_entry emu1 instr) b = emu_flags emu b := by
    intro b; simp [emu_flags, step_entry, hf]
  have key : ∀ c : Bool, c = cond →
      (jcc c (step_entry emu1 instr) instr).2.reg_val = emu.reg_val ∧
      (jcc c (step_entry emu1 instr) instr).2.eflags = emu.eflags ∧
      (jcc c (step_entry emu1 instr) instr).2.eflags_def = emu.eflags_def ∧
      (jcc c (step_entry emu1 instr) instr).2.mem = emu.mem ∧
      ((jcc c (step_entry emu1 instr) instr).2.eip : Int) =
        (if cond then
          ((emu.eip : Int) + (instr.len : Int) + s32 (instr.arg 0).displacement) % 4294967296
         else ((emu.eip : Int) + (instr.len : Int)) % 4294967296) := by
    intro c hc
    subst hc
    cases c
    · simp only [jcc, Bool.false_eq_true, if_false, step_entry, hr, hf, hfd, hm, he, u32]
      refine ⟨trivial, trivial, trivial, trivial, ?_⟩
      push_cast; rfl
    · simp only [jcc, if_true, emu_jmp, jmp_target, hrel, hsz, ne_eq, not_true_eq_false,
        if_false, step_entry, hr, hf, hfd, hm, he]
      refine ⟨trivial, trivial, trivial, trivial, ?_⟩
      unfold s32 u32
      split_ifs <;> push_cast <;> omega
  have hstep : cli_emulator_step dec emu =
      (0, { (jcc cond (step_entry emu1 instr) instr).2 with
            prefix_repe := 0, prefix_repne := 0 }) := by
    rw [step_decoded dec emu emu1 instr hend himp hdec]
    cases hop : instr.opcode <;> rw [hop] at hcond <;>
      simp only [spec_jcc_condition, Option.some.injEq, reduceCtorEq] at hcond <;>
      simp only [emu_dispatch, hop, hfl, hcond]
  obtain ⟨k1, k2, k3, k4, k5⟩ := key cond rfl
  rw [hstep]
  exact ⟨rfl, k5, k1, k2, k3, k4⟩

/-- Instances of the table: on `ex_state_sf` (SF = 1, OF = 0, ZF = 0) a
`JLE +0x10` of length 2 at `0x1000` is taken; on `ex_state_code` (all flags
clear) it is not. -/
theorem C8_conditional_jumps_witness :
    ((cli_emulator_step ex_dec_jle ex_state_sf).2.eip : Int)
      = ((4096 : Int) + 2 + s32 16) % 4294967296 ∧
    ((cli_emulator_step ex_dec_jle ex_state_code).2.eip : Int)
      = ((4096 : Int) + 2) % 4294967296 ∧
    (cli_emulator_step ex_dec_jle ex_state_sf).2.eflags = 128 :=
  ⟨(C8_conditional_jumps ex_dec_jle ex_state_sf (disasm ex_dec_jle ex_state_sf).2
      (((disasm ex_dec_jle ex_state_sf).1).getD ex_instr0) true (by decide) rfl rfl rfl rfl
      rfl).2.1,
   (C8_conditional_jumps ex_dec_jle ex_state_code (disasm ex_dec_jle ex_state_code).2
      (((disasm ex_dec_jle ex_state_code).1).getD ex_instr0) false (by decide) rfl rfl rfl rfl
      rfl).2.1,
   (C8_conditional_jumps ex_dec_jle ex_state_sf (disasm ex_dec_jle ex_state_sf).2
      (((disasm ex_dec_jle ex_state_sf).1).getD ex_instr0) true (by decide) rfl rfl rfl rfl
      rfl).2.2.2.1⟩

/-! ## Lemmas on the memory model -/

theorem vmm_range_ok_iff (p : Nat → Bool) (va len : Nat) :
    vmm_range_ok p va len = true ↔ ∀ i, i < len → p (u32 (va + i)) = true := by
  simp [vmm_range_ok, List.all_eq_true]

/-- A successful write changes the data only. -/
theorem vmm_write_frame (v v1 : emu_vmm_t) (va : Nat) (buf : List Nat)
    (h : cli_emu_vmm_write v va buf = some v1) :
    v1.readable = v.readable ∧ v1.writable = v.writable ∧ v1.executable = v.executable ∧
    v1.imports = v.imports := by
  unfold cli_emu_vmm_write at h
  split_ifs at h
  simp only [Option.some.injEq] at h
  subst h
  exact ⟨rfl, rfl, rfl, rfl⟩

/-- The bytes a successful write stores. -/
theorem vmm_write_data_in (v v1 : emu_vmm_t) (va : Nat) (buf : List Nat) (i : Nat)
    (h : cli_emu_vmm_write v va buf = some v1) (hi : i < buf.length)
    (hlen : buf.length ≤ 4294967296) :
    v1.data (u32 (va + i)) = u8 (buf.getD i 0) := by
  unfold cli_emu_vmm_write at h
  split_ifs at h
  simp only [Option.some.injEq] at h
  subst h
  have hoff : u32 (u32 (va + i) + 4294967296 - u32 va) = i := by
    unfold u32; omega
  have hlt : u32 (va + i) < 4294967296 := u32_lt _
  simp only [hoff, hi, hlt, and_self, if_true]

/-- A successful write leaves every other byte alone. -/
theorem vmm_write_data_out (v v1 : emu_vmm_t) (va : Nat) (buf : List Nat) (y : Nat)
    (h : cli_emu_vmm_write v va buf = some v1)
    (hy : ∀ i, i < buf.length → y ≠ u32 (va + i)) :
    v1.data y = v.data y := by
  unfold cli_emu_vmm_write at h
  split_ifs at h
  simp only [Option.some.injEq] at h
  subst h
  dsimp only
  split_ifs with hc
  · exfalso
    refine hy (u32 (y + 4294967296 - u32 va)) hc.2 ?_
    have h1 := hc.1
    unfold u32
    omega
  · rfl

theorem le_value_le_bytes4 (x : Nat) : le_value (le_bytes 4 x) = x % 4294967296 := by
  simp only [le_bytes, le_value, u8]
  omega

theorem le_value_le_bytes2 (x : Nat) : le_value (le_bytes 2 x) = x % 65536 := by
  simp only [le_bytes, le_value, u8]
  omega

theorem vmm_bytes_four (v : emu_vmm_t) (a : Nat) :
    vmm_bytes v a 4 =
      [u8 (v.data (u32 (a + 0))), u8 (v.data (u32 (a + 1))), u8 (v.data (u32 (a + 2))),
       u8 (v.data (u32 (a + 3)))] := by
  rfl

/-- The dword stored at `a` (little endian), whatever the permissions. -/
theorem vmm_read32_eq (v : emu_vmm_t) (a : Nat)
    (h : ∀ i, i < 4 → v.readable (u32 (a + i)) = true) :
    cli_emu_vmm_read32 v a = some (le_value (vmm_bytes v a 4)) := by
  have hr : vmm_range_ok v.readable (u32 a) 4 = true := by
    rw [vmm_range_ok_iff]
    intro i hi
    have := h i hi
    have e : u32 (u32 a + i) = u32 (a + i) := by unfold u32; omega
    rw [e]; exact this
  have e : vmm_bytes v (u32 a) 4 = vmm_bytes v a 4 := by
    simp only [vmm_bytes_four]
    have e0 : ∀ i, u32 (u32 a + i) = u32 (a + i) := by intro i; unfold u32; omega
    simp only [e0]
  simp only [cli_emu_vmm_read32, cli_emu_vmm_read_r, hr, if_true, Option.map_some', e]

/-- Writing a dword succeeds exactly on a writable range. -/
theorem vmm_write32_some (v : emu_vmm_t) (a x : Nat)
    (h : ∀ i, i < 4 → v.writable (u32 (a + i)) = true) :
    ∃ v1, cli_emu_vmm_write32 v a x = some v1 := by
  have hr : vmm_range_ok v.writable (u32 a) (le_bytes 4 x).length = true := by
    rw [vmm_range_ok_iff]
    intro i hi
    have hi4 : i < 4 := by simpa [le_bytes] using hi
    have := h i hi4
    have e : u32 (u32 a + i) = u32 (a + i) := by unfold u32; omega
    rw [e]; exact this
  unfold cli_emu_vmm_write32 cli_emu_vmm_write
  rw [if_pos hr]
  exact ⟨_, rfl⟩

/-- Reading back the dword just written. -/
theorem vmm_bytes_write32_same (v v1 : emu_vmm_t) (a x : Nat)
    (h : cli_emu_vmm_write32 v a x = some v1) :
    le_value (vmm_bytes v1 a 4) = x % 4294967296 := by
  unfold cli_emu_vmm_write32 at h
  have hl : (le_bytes 4 x).length ≤ 4294967296 := by simp [le_bytes]
  have hb : ∀ i, i < 4 → v1.data (u32 (a + i)) = u8 ((le_bytes 4 x).getD i 0) := by
    intro i hi
    have e : u32 (u32 a + i) = u32 (a + i) := by unfold u32; omega
    rw [← e]
    exact vmm_write_data_in v v1 (u32 a) (le_bytes 4 x) i h (by simpa [le_bytes] using hi) hl
  rw [vmm_bytes_four, hb 0 (by decide), hb 1 (by decide), hb 2 (by decide), hb 3 (by decide)]
  simp only [le_bytes, le_value, u8, List.getD_cons_zero, List.getD_cons_succ]
  omega

/-! ## Stack primitives -/

/-- A 32-bit `mem_push` on a writable slot. -/
theorem mem_push4 (s : cli_emu_t) (v : Nat)
    (hw : ∀ i, i < 4 → s.mem.writable (u32 (u32 (s.reg_val REG_ESP + 4294967296 - 4) + i)) = true) :
    ∃ m, cli_emu_vmm_write32 s.mem (u32 (s.reg_val REG_ESP + 4294967296 - 4)) v = some m ∧
      mem_push s 4 v =
        (0, { set_reg_val s REG_ESP (u32 (s.reg_val REG_ESP + 4294967296 - 4)) with mem := m }) := by
  obtain ⟨m, hm⟩ := vmm_write32_some s.mem (u32 (s.reg_val REG_ESP + 4294967296 - 4)) v hw
  refine ⟨m, hm, ?_⟩
  have e4 : u32 4 = 4 := rfl
  simp only [mem_push, e4, set_reg_val_mem, hm]
  rfl

/-- A 32-bit `mem_pop` from a slot whose read succeeds. -/
theorem mem_pop4 (s : cli_emu_t) (v0 x : Nat)
    (hr : cli_emu_vmm_read32 s.mem (s.reg_val REG_ESP) = some x) :
    mem_pop s 4 v0 = (0, x, set_reg_val s REG_ESP (u32 (s.reg_val REG_ESP + 4))) := by
  simp [mem_pop, hr]

/-! ## Program termination (C7) -/

/-- C7 (program termination).  In a state that is neither halted nor on an API
trap, whose instruction decodes to a near RET with 32-bit operand size and no
immediate, and in which the dword at `[ESP]` is `MAPPING_END`:
`cli_emulator_step` returns 0 with `eip = MAPPING_END` and
`ESP = old ESP + 4` (modulo `2 ^ 32`), and the step after it returns -2. -/
theorem C7_top_level_ret (dec : List Nat → DISASM_RESULT × Nat) (emu emu1 : cli_emu_t)
    (instr : dis_instr) (hend : emu.eip ≠ MAPPING_END)
    (himp : cli_emu_vmm_get_import emu.mem emu.eip = none)
    (hdec : disasm dec emu = (some instr, emu1))
    (hop : instr.opcode = OP_RETN) (hsz : instr.operation_size = 0)
    (hd : (instr.arg 0).displacement = 0)
    (hrd : cli_emu_vmm_read32 emu.mem (emu.reg_val REG_ESP) = some MAPPING_END) :
    (cli_emulator_step dec emu).1 = 0 ∧
    (cli_emulator_step dec emu).2.eip = MAPPING_END ∧
    (cli_emulator_step dec emu).2.reg_val REG_ESP = (emu.reg_val REG_ESP + 4) % 4294967296 ∧
    (cli_emulator_step dec (cli_emulator_step dec emu).2).1 = -2 := by
  obtain ⟨hm, hr, -, -, -, -, -⟩ := disasm_frame dec emu
  rw [hdec] at hm hr
  simp only at hm hr
  have hrd1 : cli_emu_vmm_read32 (step_entry emu1 instr).mem
      ((step_entry emu1 instr).reg_val REG_ESP) = some MAPPING_END := by
    simp only [step_entry, hm, hr, hrd]
  have hret : emu_ret (step_entry emu1 instr) instr =
      (0, set_reg_val { set_reg_val (step_entry emu1 instr) REG_ESP
            (u32 ((step_entry emu1 instr).reg_val REG_ESP + 4)) with eip := MAPPING_END }
          REG_ESP (u32 (emu.reg_val REG_ESP + 4))) := by
    unfold emu_ret stack_size
    simp only [hsz, ne_eq, not_true_eq_false, if_false, mem_pop4 _ _ _ hrd1, hd]
    simp [set_reg_val, step_entry, hr]
  have hstep : cli_emulator_step dec emu =
      (0, { (emu_ret (step_entry emu1 instr) instr).2 with
            prefix_repe := 0, prefix_repne := 0 }) := by
    rw [step_decoded dec emu emu1 instr hend himp hdec]
    simp only [hop, emu_dispatch]
  rw [hstep, hret]
  refine ⟨rfl, rfl, ?_, ?_⟩
  · simp [set_reg_val, u32]
  · unfold cli_emulator_step
    simp [set_reg_val]

/-- The single-`RET` program on `ex_state_top`: the first step pops
`MAPPING_END` into `eip`, the second reports the exit. -/
theorem C7_top_level_ret_witness :
    cli_emu_vmm_read32 ex_state_top.mem (ex_state_top.reg_val REG_ESP) = some MAPPING_END ∧
    (cli_emulator_step ex_dec_ret ex_state_top).1 = 0 ∧
    (cli_emulator_step ex_dec_ret ex_state_top).2.eip = MAPPING_END ∧
    (cli_emulator_step ex_dec_ret ex_state_top).2.reg_val REG_ESP = (32768 + 4) % 4294967296 ∧
    (cli_emulator_step ex_dec_ret (cli_emulator_step ex_dec_ret ex_state_top).2).1 = -2 :=
  ⟨by decide,
   C7_top_level_ret ex_dec_ret ex_state_top (disasm ex_dec_ret ex_state_top).2
     (((disasm ex_dec_ret ex_state_top).1).getD ex_instr0) (by decide) rfl rfl rfl rfl rfl
     (by decide)⟩

/-! ## The 32-bit register views -/

theorem get_reg_32 (d : desc_t) (reg : Nat) (h : reg < 8) :
    get_reg d reg = (0, ⟨4294967295, 0, reg, 32, 32⟩) := by
  have h1 : ¬ reg ≥ MAXREG := by unfold MAXREG; omega
  simp [get_reg, h1, reg_masks, h]

theorem mask32_merge (x v : Nat) :
    (x &&& not32 4294967295) ||| (u32 v &&& 4294967295) = u32 v := by
  apply Nat.eq_of_testBit_eq
  intro i
  simp only [Nat.testBit_or, Nat.testBit_and, testBit_not32, testBit_mask32, testBit_u32]
  by_cases h : i < 32 <;> simp [h]

/-- Writing through a 32-bit view stores the value truncated to 32 bits. -/
theorem writereg_32 (s : cli_emu_t) (r c sg v : Nat) (h : r ≠ REGIDX_INVALID) :
    writereg s ⟨4294967295, 0, r, c, sg⟩ v = (0, set_reg_val s r (u32 v)) := by
  simp only [writereg, h, if_false, Nat.shiftLeft_zero, mask32_merge]

theorem write_reg_32 (s : cli_emu_t) (reg v : Nat) (h : reg < 8) :
    write_reg s reg v = (0, set_reg_val s reg (u32 v)) := by
  have hr : reg ≠ REGIDX_INVALID := by unfold REGIDX_INVALID; omega
  simp only [write_reg, get_reg_32 _ reg h, writereg_32 s reg 32 32 v hr]

theorem read_reg_32 (s : cli_emu_t) (reg : Nat) (h : reg < 8) :
    read_reg s reg = some (u32 (s.reg_val reg)) := by
  have hr : reg ≠ REGIDX_INVALID := by unfold REGIDX_INVALID; omega
  simp only [read_reg, get_reg_32 _ reg h, readreg, hr, ne_eq, not_false_eq_true, if_true,
    if_false, and_mask32, Nat.shiftRight_zero]

/-! ## CALL (C9) -/

/-- C9 (CALL pushes the return address).  For a 32-bit CALL of length `L` at
address `A` with a RELATIVE operand of signed displacement `D`, the stack slot
below ESP being writable: `cli_emulator_step` returns 0, ESP becomes
`ESP - 4`, the dword stored at the new `[ESP]` is `A + L`, and `eip` becomes
`A + L + D` (all modulo `2 ^ 32`).  Consequently, when `D = 0` and the next
instruction decodes to a 32-bit `POP EAX`, the step after the CALL leaves
`A + L` in EAX and ESP at its value before the CALL. -/
theorem C9_call_pushes_return (dec : List Nat → DISASM_RESULT × Nat) (emu emu1 : cli_emu_t)
    (instr : dis_instr) (hend : emu.eip ≠ MAPPING_END)
    (himp : cli_emu_vmm_get_import emu.mem emu.eip = none)
    (hdec : disasm dec emu = (some instr, emu1))
    (hop : instr.opcode = OP_CALL) (hsz : instr.operation_size = 0)
    (hrel : (instr.arg 0).access_size = SIZE_REL)
    (hw : ∀ i, i < 4 →
      emu.mem.writable (u32 (u32 (emu.reg_val REG_ESP + 4294967296 - 4) + i)) = true) :
    (cli_emulator_step dec emu).1 = 0 ∧
    (cli_emulator_step dec emu).2.reg_val REG_ESP
      = (emu.reg_val REG_ESP + 4294967296 - 4) % 4294967296 ∧
    le_value (vmm_bytes (cli_emulator_step dec emu).2.mem
      ((cli_emulator_step dec emu).2.reg_val REG_ESP) 4) = (emu.eip + instr.len) % 4294967296 ∧
    ((cli_emulator_step dec emu).2.eip : Int)
      = ((emu.eip : Int) + (instr.len : Int) + s32 (instr.arg 0).displacement) % 4294967296 ∧
    (∀ (emu3 : cli_emu_t) (instr2 : dis_instr) (d : desc_t),
      (instr.arg 0).displacement = 0 → emu.reg_val REG_ESP < 4294967296 →
      (cli_emulator_step dec emu).2.eip ≠ MAPPING_END →
      cli_emu_vmm_get_import (cli_emulator_step dec emu).2.mem
        (cli_emulator_step dec emu).2.eip = none →
      disasm dec (cli_emulator_step dec emu).2 = (some instr2, emu3) →
      instr2.opcode = OP_POP → instr2.operation_size = 0 →
      (instr2.arg 0).access_size = SIZE_INVALID →
      (instr2.arg 0).add_reg = (get_reg d REG_EAX).2 →
      (∀ i, i < 4 → (cli_emulator_step dec emu).2.mem.readable
        (u32 ((cli_emulator_step dec emu).2.reg_val REG_ESP + i)) = true) →
      (cli_emulator_step dec (cli_emulator_step dec emu).2).1 = 0 ∧
      (cli_emulator_step dec (cli_emulator_step dec emu).2).2.reg_val REG_EAX
        = (emu.eip + instr.len) % 4294967296 ∧
      (cli_emulator_step dec (cli_emulator_step dec emu).2).2.reg_val REG_ESP
        = emu.reg_val REG_ESP) := by
  obtain ⟨hm, hr, -, -, he, -, -⟩ := disasm_frame dec emu
  rw [hdec] at hm hr he
  simp only at hm hr he
  have hw1 : ∀ i, i < 4 → (step_entry emu1 instr).mem.writable
      (u32 (u32 ((step_entry emu1 instr).reg_val REG_ESP + 4294967296 - 4) + i)) = true := by
    simpa only [step_entry, hm, hr] using hw
  obtain ⟨m, hwm, hpush⟩ := mem_push4 (step_entry emu1 instr) (step_entry emu1 instr).eip hw1
  have hstep : cli_emulator_step dec emu =
      (0, { (emu_call (step_entry emu1 instr) instr).2 with
            prefix_repe := 0, prefix_repne := 0 }) := by
    rw [step_decoded dec emu emu1 instr hend himp hdec]
    simp only [hop, emu_dispatch]
  have hcall : emu_call (step_entry emu1 instr) instr =
      (0, { ({ set_reg_val (step_entry emu1 instr) REG_ESP
                (u32 ((step_entry emu1 instr).reg_val REG_ESP + 4294967296 - 4)) with
              mem := m } : cli_emu_t) with
            eip := u32 ((step_entry emu1 instr).eip + (instr.arg 0).displacement) }) := by
    unfold emu_call stack_size jmp_target
    simp only [hsz, ne_eq, not_true_eq_false, if_false, hpush, hrel, if_true]
    rfl
  have hword : le_value (vmm_bytes m (u32 (emu.reg_val REG_ESP + 4294967296 - 4)) 4)
      = (emu.eip + instr.len) % 4294967296 := by
    have h1 := vmm_bytes_write32_same _ _ _ _ hwm
    simp only [step_entry, hr, he, u32] at h1 ⊢
    rw [h1]; omega
  rw [hstep, hcall]
  refine ⟨rfl, ?_, ?_, ?_, ?_⟩
  · simp [set_reg_val, step_entry, hr, u32]
  · simpa [set_reg_val, step_entry, hr] using hword
  · simp only [step_entry, he]
    unfold s32 u32
    split_ifs <;> push_cast <;> omega
  · intro emu3 instr2 d hD hesp hend2 himp2 hdec2 hop2 hsz2 hacc2 hreg2 hrd2
    obtain ⟨hm2, hr2, -, -, -, -, -⟩ := disasm_frame dec
      (0, ({ ({ ({ set_reg_val (step_entry emu1 instr) REG_ESP
                (u32 ((step_entry emu1 instr).reg_val REG_ESP + 4294967296 - 4)) with
              mem := m } : cli_emu_t) with
            eip := u32 ((step_entry emu1 instr).eip + (instr.arg 0).displacement) } : cli_emu_t) with
            prefix_repe := 0, prefix_repne := 0 } : cli_emu_t)).2
    rw [hdec2] at hm2 hr2
    simp only at hm2 hr2
    have hespv : emu3.reg_val REG_ESP = u32 (emu.reg_val REG_ESP + 4294967296 - 4) := by
      rw [hr2]; simp [set_reg_val, step_entry, hr]
    have hread : cli_emu_vmm_read32 (step_entry emu3 instr2).mem
        ((step_entry emu3 instr2).reg_val REG_ESP) = some ((emu.eip + instr.len) % 4294967296) := by
      have hrd3 : ∀ i, i < 4 → m.readable (u32 (u32 (emu.reg_val REG_ESP + 4294967296 - 4) + i))
          = true := by
        simpa [set_reg_val, step_entry, hr] using hrd2
      have h2 := vmm_read32_eq m (u32 (emu.reg_val REG_ESP + 4294967296 - 4)) hrd3
      rw [hword] at h2
      simpa only [step_entry, hm2, hespv] using h2
    have hstep2 := step_decoded dec _ emu3 instr2 hend2 himp2 hdec2
    rw [hstep2]
    have hEAX : (get_reg d REG_EAX).2 = ⟨4294967295, 0, REG_EAX, 32, 32⟩ := by
      rw [get_reg_32 d REG_EAX (by decide)]
    have hpop : emu_pop (step_entry emu3 instr2) instr2 =
        (0, set_reg_val (set_reg_val (step_entry emu3 instr2) REG_ESP
              (u32 ((step_entry emu3 instr2).reg_val REG_ESP + 4))) REG_EAX
              (u32 ((emu.eip + instr.len) % 4294967296))) := by
      unfold emu_pop stack_size
      simp only [hsz2, ne_eq, not_true_eq_false, if_false, mem_pop4 _ _ _ hread, write_operand,
        hacc2, if_true, hreg2, hEAX]
      rw [writereg_32 _ REG_EAX 32 32 _ (by decide)]
      rfl
    simp only [hop2, emu_dispatch, hpop]
    refine ⟨trivial, ?_, ?_⟩
    · simp [set_reg_val, u32]
    · have e1 : (step_entry emu3 instr2).reg_val REG_ESP
          = u32 (emu.reg_val REG_ESP + 4294967296 - 4) := hespv
      have e2 : ¬ REG_ESP = REG_EAX := by decide
      simp only [set_reg_val, e1, e2, if_false, if_true]
      unfold u32
      omega

/-- The scenario `CALL +0; POP EAX` on `ex_state_call`: the CALL at `0x1000`
(five bytes) pushes `0x1005`, and the POP that follows leaves `EAX = 0x1005`
with ESP back at `0x8000`. -/
theorem C9_call_pushes_return_witness :
    (cli_emulator_step ex_dec_call_pop ex_state_call).2.reg_val REG_ESP
      = (32768 + 4294967296 - 4) % 4294967296 ∧
    le_value (vmm_bytes (cli_emulator_step ex_dec_call_pop ex_state_call).2.mem
      ((cli_emulator_step ex_dec_call_pop ex_state_call).2.reg_val REG_ESP) 4)
      = (4096 + 5) % 4294967296 ∧
    (cli_emulator_step ex_dec_call_pop
      (cli_emulator_step ex_dec_call_pop ex_state_call).2).2.reg_val REG_EAX
      = (4096 + 5) % 4294967296 ∧
    (cli_emulator_step ex_dec_call_pop
      (cli_emulator_step ex_dec_call_pop ex_state_call).2).2.reg_val REG_ESP = 32768 :=
  have h := C9_call_pushes_return ex_dec_call_pop ex_state_call
    (disasm ex_dec_call_pop ex_state_call).2
    (((disasm ex_dec_call_pop ex_state_call).1).getD ex_instr0)
    (by decide) rfl rfl rfl rfl rfl (by decide)
  have h2 := h.2.2.2.2
    (disasm ex_dec_call_pop (cli_emulator_step ex_dec_call_pop ex_state_call).2).2
    (((disasm ex_dec_call_pop (cli_emulator_step ex_dec_call_pop ex_state_call).2).1).getD
      ex_instr0)
    ex_desc0 rfl (by decide) (by decide) rfl rfl rfl rfl rfl rfl (by decide)
  ⟨h.2.1, h.2.2.1, h2.2.1, h2.2.2⟩

/-! ## Stack balance (C5) -/

theorem emu_push_imm32 (s : cli_emu_t) (v : Nat) (hv : v < 4294967296)
    (hw : ∀ i, i < 4 → s.mem.writable (u32 (u32 (s.reg_val REG_ESP + 4294967296 - 4) + i)) = true) :
    ∃ m, cli_emu_vmm_write32 s.mem (u32 (s.reg_val REG_ESP + 4294967296 - 4)) v = some m ∧
      emu_push s (push_imm32 v) =
        (0, { set_reg_val s REG_ESP (u32 (s.reg_val REG_ESP + 4294967296 - 4)) with mem := m }) := by
  obtain ⟨m, hm, hp⟩ := mem_push4 s v hw
  refine ⟨m, hm, ?_⟩
  have hro : read_operand s ((push_imm32 v).arg 0) = (0, v) := by
    simp [read_operand, push_imm32, calcreg, readreg, mem_read, u32_of_lt hv]
  unfold emu_push
  simp only [hro]
  have hs : stack_size (push_imm32 v) = 4 := rfl
  rw [hs, hp]
  rfl

theorem emu_pop_reg32 (s : cli_emu_t) (r x : Nat) (hr : r < 8)
    (hrd : cli_emu_vmm_read32 s.mem (s.reg_val REG_ESP) = some x) :
    emu_pop s (pop_reg32 r) =
      (0, set_reg_val (set_reg_val s REG_ESP (u32 (s.reg_val REG_ESP + 4))) r (u32 x)) := by
  have hri : r ≠ REGIDX_INVALID := by unfold REGIDX_INVALID; omega
  have hs : stack_size (pop_reg32 r) = 4 := rfl
  have ha : (pop_reg32 r).arg 0
      = ⟨SIZE_INVALID, ⟨0, 0, REGIDX_INVALID, 0, 0⟩, ⟨4294967295, 0, r, 32, 32⟩, 0, 0⟩ := by
    simp [pop_reg32, get_reg_32 ex_desc0 r hr]
  unfold emu_pop
  simp only [hs, mem_pop4 s 0 x hrd, ha, write_operand, if_true, writereg_32 _ r 32 32 _ hri]
  rfl

theorem run_pops_append (s : cli_emu_t) (l1 l2 : List dis_instr) (out : List Nat) (s1 : cli_emu_t)
    (h : run_pops s l1 = (0, out, s1)) :
    run_pops s (l1 ++ l2) =
      ((run_pops s1 l2).1, out ++ (run_pops s1 l2).2.1, (run_pops s1 l2).2.2) := by
  induction l1 generalizing s out with
  | nil =>
    simp only [run_pops, Prod.mk.injEq] at h
    obtain ⟨-, h1, h2⟩ := h
    subst h1; subst h2
    rfl
  | cons i rest ih =>
    simp only [List.cons_append, run_pops] at h ⊢
    split_ifs at h ⊢ with hneg
    · simp at h
    · simp only [Prod.mk.injEq] at h
      obtain ⟨h0, h1, h2⟩ := h
      have hrest : run_pops (emu_pop s i).2 rest
          = (0, (run_pops (emu_pop s i).2 rest).2.1, s1) := by
        rw [← h0, ← h2]
      have ih1 := ih _ _ hrest
      show ((run_pops (emu_pop s i).2 (rest ++ l2)).1,
        readreg (emu_pop s i).2 (i.arg 0).add_reg :: (run_pops (emu_pop s i).2 (rest ++ l2)).2.1,
        (run_pops (emu_pop s i).2 (rest ++ l2)).2.2) = _
      rw [ih1, ← h1]
      rfl

theorem vmm_write32_frame (v v1 : emu_vmm_t) (a x : Nat) (h : cli_emu_vmm_write32 v a x = some v1) :
    v1.readable = v.readable ∧ v1.writable = v.writable ∧ v1.executable = v.executable ∧
    v1.imports = v.imports :=
  vmm_write_frame v v1 (u32 a) (le_bytes 4 x) h

theorem vmm_write32_data_out (v v1 : emu_vmm_t) (a x y : Nat)
    (h : cli_emu_vmm_write32 v a x = some v1) (hy : ∀ i, i < 4 → y ≠ u32 (a + i)) :
    v1.data y = v.data y := by
  refine vmm_write_data_out v v1 (u32 a) (le_bytes 4 x) y h ?_
  intro i hi
  have hi4 : i < 4 := by simpa [le_bytes] using hi
  have e : u32 (u32 a + i) = u32 (a + i) := by unfold u32; omega
  rw [e]
  exact hy i hi4

theorem readreg_32 (s : cli_emu_t) (r c sg : Nat) (h : r ≠ REGIDX_INVALID) :
    readreg s ⟨4294967295, 0, r, c, sg⟩ = u32 (s.reg_val r) := by
  simp only [readreg, h, ne_eq, not_false_eq_true, if_true, and_mask32, Nat.shiftRight_zero]

/-- The invariant behind C5: `n` pushes followed by `n` pops succeed, deliver
the values in reverse order, restore ESP and touch no byte outside the `4 n`
bytes below the initial ESP. -/
theorem stack_core (vs : List Nat) :
    ∀ (s : cli_emu_t) (rs : List Nat), rs.length = vs.length →
      (∀ v, v ∈ vs → v < 4294967296) → (∀ r, r ∈ rs → r < 8 ∧ r ≠ REG_ESP) →
      s.reg_val REG_ESP < 4294967296 → 4 * vs.length ≤ 4294967296 →
      (∀ j, 1 ≤ j → j ≤ 4 * vs.length →
        s.mem.writable (u32 (s.reg_val REG_ESP + 4294967296 - j)) = true ∧
        s.mem.readable (u32 (s.reg_val REG_ESP + 4294967296 - j)) = true) →
      ∃ s1 s2, run_pushes s (vs.map push_imm32) = (0, s1) ∧
        run_pops s1 (rs.map pop_reg32) = (0, vs.reverse, s2) ∧
        s2.reg_val REG_ESP = s.reg_val REG_ESP ∧
        s2.mem.readable = s.mem.readable ∧ s2.mem.writable = s.mem.writable ∧
        (∀ y, (∀ j, 1 ≤ j → j ≤ 4 * vs.length →
            y ≠ u32 (s.reg_val REG_ESP + 4294967296 - j)) →
          s2.mem.data y = s.mem.data y) := by
  induction vs with
  | nil =>
    intro s rs hlen _ _ _ _ _
    have hrs : rs = [] := List.length_eq_zero.mp (by simpa using hlen)
    subst hrs
    exact ⟨s, s, rfl, rfl, rfl, rfl, rfl, fun _ _ => rfl⟩
  | cons v vs ih =>
    intro s rs hlen hv hr hesp hN hmap
    have hN1 : 4 * vs.length + 4 ≤ 4294967296 := by
      simp only [List.length_cons] at hN; omega
    rcases List.eq_nil_or_concat rs with hnil | ⟨rs1, r, hrs⟩
    · subst hnil; simp at hlen
    rw [List.concat_eq_append] at hrs
    subst hrs
    have hlen1 : rs1.length = vs.length := by simpa using hlen
    have hw : ∀ i, i < 4 →
        s.mem.writable (u32 (u32 (s.reg_val REG_ESP + 4294967296 - 4) + i)) = true := by
      intro i hi
      have h1 := (hmap (4 - i) (by omega) (by simp only [List.length_cons]; omega)).1
      have e : u32 (u32 (s.reg_val REG_ESP + 4294967296 - 4) + i)
          = u32 (s.reg_val REG_ESP + 4294967296 - (4 - i)) := by unfold u32; omega
      rw [e]; exact h1
    obtain ⟨m, hm, hpush⟩ := emu_push_imm32 s v (hv v (List.mem_cons_self _ _)) hw
    obtain ⟨fr, fw, -, -⟩ := vmm_write32_frame _ _ _ _ hm
    obtain ⟨s1, s2, h1, h2, h3, h4, h5, h6⟩ := ih
      ({ set_reg_val s REG_ESP (u32 (s.reg_val REG_ESP + 4294967296 - 4)) with mem := m })
      rs1 hlen1 (fun w hw1 => hv w (List.mem_cons_of_mem _ hw1))
      (fun q hq => hr q (List.mem_append_left _ hq))
      (by simp only [set_reg_val, if_true]; exact u32_lt _)
      (by omega)
      (by
        intro j hj1 hj2
        have h0 := hmap (j + 4) (by omega) (by simp only [List.length_cons]; omega)
        have e : u32 (u32 (s.reg_val REG_ESP + 4294967296 - 4) + 4294967296 - j)
            = u32 (s.reg_val REG_ESP + 4294967296 - (j + 4)) := by unfold u32; omega
        simp only [set_reg_val, if_true, fw, fr, e]
        exact h0)
    simp only [set_reg_val, if_true] at h3 h4 h5 h6
    have hrr := hr r (List.mem_append_right _ (List.mem_singleton_self r))
    have hbytes : ∀ i, i < 4 →
        s2.mem.data (u32 (u32 (s.reg_val REG_ESP + 4294967296 - 4) + i))
          = m.data (u32 (u32 (s.reg_val REG_ESP + 4294967296 - 4) + i)) := by
      intro i hi
      apply h6
      intro j hj1 hj2
      unfold u32; omega
    have hword : le_value (vmm_bytes s2.mem (s2.reg_val REG_ESP) 4) = v := by
      have h7 := vmm_bytes_write32_same _ _ _ _ hm
      rw [vmm_bytes_four] at h7
      rw [h3, vmm_bytes_four, hbytes 0 (by decide), hbytes 1 (by decide), hbytes 2 (by decide),
        hbytes 3 (by decide), h7]
      exact Nat.mod_eq_of_lt (hv v (List.mem_cons_self _ _))
    have hread : cli_emu_vmm_read32 s2.mem (s2.reg_val REG_ESP) = some v := by
      rw [vmm_read32_eq, hword]
      intro i hi
      have h0 := (hmap (4 - i) (by omega) (by simp only [List.length_cons]; omega)).2
      have e : u32 (s2.reg_val REG_ESP + i)
          = u32 (s.reg_val REG_ESP + 4294967296 - (4 - i)) := by rw [h3]; unfold u32; omega
      rw [h4, fr, e]; exact h0
    have hpop := emu_pop_reg32 s2 r v hrr.1 hread
    have hri : r ≠ REGIDX_INVALID := by unfold REGIDX_INVALID; omega
    have hlast : run_pops s2 [pop_reg32 r] =
        (0, [v], set_reg_val (set_reg_val s2 REG_ESP (u32 (s2.reg_val REG_ESP + 4))) r (u32 v)) := by
      have ha : ((pop_reg32 r).arg 0).add_reg = ⟨4294967295, 0, r, 32, 32⟩ := by
        simp [pop_reg32, get_reg_32 ex_desc0 r hrr.1]
      simp only [run_pops, hpop, ha, readreg_32 _ r 32 32 hri]
      simp [set_reg_val, u32, Nat.mod_eq_of_lt (hv v (List.mem_cons_self _ _))]
    refine ⟨s1, set_reg_val (set_reg_val s2 REG_ESP (u32 (s2.reg_val REG_ESP + 4))) r (u32 v),
      ?_, ?_, ?_, ?_, ?_, ?_⟩
    · simp only [List.map_cons, run_pushes, hpush]
      simpa using h1
    · rw [List.map_append, List.map_cons, List.map_nil, run_pops_append _ _ _ _ _ h2, hlast]
      simp
    · have hne : ¬ REG_ESP = r := fun h => hrr.2 h.symm
      simp only [set_reg_val, hne, if_false, if_true, h3]
      unfold u32; omega
    · simp only [set_reg_val_mem, h4, fr]
    · simp only [set_reg_val_mem, h5, fw]
    · intro y hy
      simp only [set_reg_val_mem]
      rw [h6 y ?_, vmm_write32_data_out _ _ _ _ y hm ?_]
      · intro i hi
        have h0 := hy (4 - i) (by omega) (by simp only [List.length_cons]; omega)
        intro hc
        apply h0
        rw [hc]; unfold u32; omega
      · intro j hj1 hj2
        have h0 := hy (j + 4) (by omega) (by simp only [List.length_cons]; omega)
        intro hc
        apply h0
        rw [hc]; unfold u32; omega

/-- C5 (stack balance).  For every `N` and every list of `N` 32-bit values:
executing the `N` instructions `PUSH imm32` of these values and then `N`
32-bit POPs into registers other than ESP, every byte of the `N` stack slots
below ESP being readable and writable, succeeds, leaves ESP at its initial
value and delivers the pushed values in LIFO order: the list of delivered
values is the reverse of the list of pushed values, so the `i`-th POP yields
the `(N + 1 - i)`-th pushed value.  The `N` slots have to be distinct
addresses: either `N ≤ 2 ^ 30`, or some byte of the 32-bit space is not
writable (then the accesses cannot all succeed once the stack wraps around
the whole address space). -/
theorem C5_stack_balance (s : cli_emu_t) (vs rs : List Nat)
    (hlen : rs.length = vs.length)
    (hv : ∀ v, v ∈ vs → v < 4294967296)
    (hr : ∀ r, r ∈ rs → r < 8 ∧ r ≠ REG_ESP)
    (hesp : s.reg_val REG_ESP < 4294967296)
    (hacc : ∀ k i, k < vs.length → i < 4 →
      s.mem.writable (slot_addr (s.reg_val REG_ESP) k i) = true ∧
      s.mem.readable (slot_addr (s.reg_val REG_ESP) k i) = true)
    (hfit : 4 * vs.length ≤ 4294967296 ∨ ∃ a, a < 4294967296 ∧ s.mem.writable a = false) :
    (run_pushes s (vs.map push_imm32)).1 = 0 ∧
    (run_pops (run_pushes s (vs.map push_imm32)).2 (rs.map pop_reg32)).1 = 0 ∧
    (run_pops (run_pushes s (vs.map push_imm32)).2 (rs.map pop_reg32)).2.1 = vs.reverse ∧
    (∀ i, i < vs.length →
      (run_pops (run_pushes s (vs.map push_imm32)).2 (rs.map pop_reg32)).2.1.getD i 0
        = vs.getD (vs.length - 1 - i) 0) ∧
    (run_pops (run_pushes s (vs.map push_imm32)).2 (rs.map pop_reg32)).2.2.reg_val REG_ESP
      = s.reg_val REG_ESP := by
  have hN : 4 * vs.length ≤ 4294967296 := by
    rcases hfit with h | ⟨a, ha, hna⟩
    · exact h
    · by_contra hc
      have hd : 1 ≤ (if (s.reg_val REG_ESP + 4294967296 - a) % 4294967296 = 0 then 4294967296
          else (s.reg_val REG_ESP + 4294967296 - a) % 4294967296) := by split_ifs <;> omega
      have hd2 : (if (s.reg_val REG_ESP + 4294967296 - a) % 4294967296 = 0 then 4294967296
          else (s.reg_val REG_ESP + 4294967296 - a) % 4294967296) ≤ 4294967296 := by
        split_ifs <;> omega
      generalize hdd : (if (s.reg_val REG_ESP + 4294967296 - a) % 4294967296 = 0 then 4294967296
          else (s.reg_val REG_ESP + 4294967296 - a) % 4294967296) = d at hd hd2
      have hw := (hacc ((d - 1) / 4) (4 * ((d - 1) / 4 + 1) - d) (by omega) (by omega)).1
      have e : slot_addr (s.reg_val REG_ESP) ((d - 1) / 4) (4 * ((d - 1) / 4 + 1) - d) = a := by
        unfold slot_addr u32
        split_ifs at hdd <;> omega
      rw [e, hna] at hw
      exact absurd hw (by decide)
  have hmap : ∀ j, 1 ≤ j → j ≤ 4 * vs.length →
      s.mem.writable (u32 (s.reg_val REG_ESP + 4294967296 - j)) = true ∧
      s.mem.readable (u32 (s.reg_val REG_ESP + 4294967296 - j)) = true := by
    intro j hj1 hj2
    have h0 := hacc ((j - 1) / 4) (4 * ((j - 1) / 4 + 1) - j) (by omega) (by omega)
    have e : slot_addr (s.reg_val REG_ESP) ((j - 1) / 4) (4 * ((j - 1) / 4 + 1) - j)
        = u32 (s.reg_val REG_ESP + 4294967296 - j) := by
      unfold slot_addr u32
      omega
    rw [e] at h0
    exact h0
  obtain ⟨s1, s2, h1, h2, h3, -, -, -⟩ := stack_core vs s rs hlen hv hr hesp hN hmap
  rw [h1, h2]
  refine ⟨rfl, rfl, rfl, ?_, h3⟩
  intro i hi
  simp only [List.getD_eq_getElem?_getD]
  rw [List.getElem?_reverse hi]

/-- Scenario S5 on `ex_state_stack`: `PUSH 0xAABBCCDD; POP EBX` delivers
`0xAABBCCDD`, which is then the content of EBX, and ESP is back at `0x8000`. -/
theorem C5_stack_balance_witness :
    (run_pops (run_pushes ex_state_stack ([2864434397].map push_imm32)).2
      ([REG_EBX].map pop_reg32)).2.1 = [2864434397].reverse ∧
    (run_pops (run_pushes ex_state_stack ([2864434397].map push_imm32)).2
      ([REG_EBX].map pop_reg32)).2.2.reg_val REG_ESP = 32768 ∧
    (run_pops (run_pushes ex_state_stack ([2864434397].map push_imm32)).2
      ([REG_EBX].map pop_reg32)).2.2.reg_val REG_EBX = 2864434397 :=
  have h := C5_stack_balance ex_state_stack [2864434397] [REG_EBX] rfl
    (by decide) (by decide) (by decide)
    (by
      intro k i hk hi
      have hk0 : k = 0 := by simpa using hk
      subst hk0
      interval_cases i <;> exact ⟨by decide, by decide⟩)
    (Or.inl (by decide))
  ⟨h.2.2.1, h.2.2.2.2, by decide⟩

/-! ## REP MOVSD (C6) -/

theorem set_reg_val_same (s : cli_emu_t) (i v : Nat) : (set_reg_val s i v).reg_val i = v := by
  simp [set_reg_val]

theorem set_reg_val_other (s : cli_emu_t) (i v j : Nat) (h : j ≠ i) :
    (set_reg_val s i v).reg_val j = s.reg_val j := by
  simp [set_reg_val, h]

/-- The post-check `emu_prefix_post` of a REP-terminated string operation (`repe_is_rep = 1`)
under the REP latch, with the REPNE latch clear or ZF clear, no address-size override and ECX
at least 1. -/
theorem prefix_post_rep (t : cli_emu_t) (ad c : Nat) (had : ad = 0)
    (hrepe : t.prefix_repe ≠ 0)
    (hrepne : t.prefix_repne = 0 ∨ t.eflags &&& (1 <<< bit_zf) = 0)
    (hecx : t.reg_val REG_ECX = c) (hc1 : 1 ≤ c) (hc2 : c < 4294967296) :
    emu_prefix_post t ad 1 = (if c = 1 then 0 else 1, set_reg_val t REG_ECX (c - 1)) := by
  have hcnt : u32 (u32 c + 4294967295) = c - 1 := by unfold u32; omega
  have hc0 : c - 1 < 4294967296 := by omega
  have hn : ¬ (t.prefix_repne ≠ 0 ∧ t.eflags &&& (1 <<< bit_zf) ≠ 0) := by
    rintro ⟨h1, h2⟩
    rcases hrepne with h | h
    · exact h1 h
    · exact h2 h
  unfold emu_prefix_post
  simp only [hrepe, ne_eq, not_false_eq_true, true_or, if_true, had, cnt_reg,
    not_true_eq_false, if_false, read_reg_32 _ REG_ECX (by decide), hecx, Option.getD_some, hcnt,
    write_reg_32 _ REG_ECX _ (by decide), u32_of_lt hc0, set_reg_val_repne, set_reg_val_eflags,
    one_ne_zero, false_and, and_false]
  rw [if_neg hn]
  by_cases h1 : c = 1
  · simp [h1]
  · have h2 : c - 1 ≠ 0 := by omega
    simp [h1, h2]

/-- One turn of the loop of `emu_movsx` for MOVSD under the REP latch (the
REPNE latch clear or ZF clear) with `DF = 0`: the dword at `[ESI]` is stored
at `[EDI]`, ESI and EDI advance by 4, ECX is decremented, and the loop goes on
unless ECX has reached zero. -/
theorem movsd_iter (instr : dis_instr) (fuel : Nat) (s : cli_emu_t) (c : Nat)
    (had : instr.address_size = 0) (hrepe : s.prefix_repe ≠ 0)
    (hrepne : s.prefix_repne = 0 ∨ s.eflags &&& (1 <<< bit_zf) = 0)
    (hdf : s.eflags &&& (1 <<< bit_df) = 0)
    (hc1 : 1 ≤ c) (hc2 : c < 4294967296) (hecx : s.reg_val REG_ECX = c)
    (hrd : ∀ i, i < 4 → s.mem.readable (u32 (u32 (s.reg_val REG_ESI) + i)) = true)
    (hwr : ∀ i, i < 4 → s.mem.writable (u32 (u32 (s.reg_val REG_EDI) + i)) = true) :
    ∃ m, cli_emu_vmm_write32 s.mem (u32 (s.reg_val REG_EDI))
        (le_value (vmm_bytes s.mem (u32 (s.reg_val REG_ESI)) 4)) = some m ∧
      emu_movsx_loop instr SIZED 4 (fuel + 1) s =
        if c = 1 then
          (0, set_reg_val (set_reg_val (set_reg_val { s with mem := m } REG_ESI
            (u32 (u32 (s.reg_val REG_ESI) + 4))) REG_EDI (u32 (u32 (s.reg_val REG_EDI) + 4)))
            REG_ECX (c - 1))
        else
          emu_movsx_loop instr SIZED 4 fuel
            (set_reg_val (set_reg_val (set_reg_val { s with mem := m } REG_ESI
              (u32 (u32 (s.reg_val REG_ESI) + 4))) REG_EDI (u32 (u32 (s.reg_val REG_EDI) + 4)))
              REG_ECX (c - 1)) := by
  obtain ⟨m, hm⟩ := vmm_write32_some s.mem (u32 (s.reg_val REG_EDI))
    (le_value (vmm_bytes s.mem (u32 (s.reg_val REG_ESI)) 4)) hwr
  refine ⟨m, hm, ?_⟩
  have hread := vmm_read32_eq s.mem (u32 (s.reg_val REG_ESI)) hrd
  have hmr : mem_read s (u32 (s.reg_val REG_ESI)) SIZED 0
      = (0, le_value (vmm_bytes s.mem (u32 (s.reg_val REG_ESI)) 4)) := by
    simp only [mem_read, hread]
  have hmw : mem_write s (u32 (s.reg_val REG_EDI)) SIZED
      (le_value (vmm_bytes s.mem (u32 (s.reg_val REG_ESI)) 4)) = (0, { s with mem := m }) := by
    simp only [mem_write, hm]
  have hdf1 : ∀ x, df_step { s with mem := m } x 4 = u32 (x + 4) := by
    intro x
    simp [df_step, hdf]
  have hcnt : u32 (u32 c + 4294967295) = c - 1 := by unfold u32; omega
  have hpost : emu_prefix_post
      (set_reg_val (set_reg_val { s with mem := m } REG_ESI (u32 (u32 (s.reg_val REG_ESI) + 4)))
        REG_EDI (u32 (u32 (s.reg_val REG_EDI) + 4))) instr.address_size 1 =
      (if c = 1 then 0 else 1,
        set_reg_val (set_reg_val (set_reg_val { s with mem := m } REG_ESI
          (u32 (u32 (s.reg_val REG_ESI) + 4))) REG_EDI (u32 (u32 (s.reg_val REG_EDI) + 4)))
          REG_ECX (c - 1)) := by
    exact prefix_post_rep _ instr.address_size c had hrepe hrepne
      (by simp only [set_reg_val]; rw [if_neg (by decide), if_neg (by decide)]; exact hecx)
      hc1 hc2
  have hu : ∀ x, u32 (u32 x) = u32 x := by intro x; unfold u32; omega
  rw [emu_movsx_loop]
  simp only [read_reg_32 _ REG_ESI (by decide), read_reg_32 _ REG_EDI (by decide), hmr, hmw, hdf1,
    write_reg_32 _ REG_ESI _ (by decide), write_reg_32 _ REG_EDI _ (by decide), hu, hpost]
  by_cases h1 : c = 1
  · simp [h1]
  · simp [h1]

/-- Copying a dword: the bytes stored are the bytes read. -/
theorem copy32_bytes (v v1 : emu_vmm_t) (a b : Nat)
    (h : cli_emu_vmm_write32 v a (le_value (vmm_bytes v b 4)) = some v1) :
    ∀ i, i < 4 → v1.data (u32 (a + i)) = u8 (v.data (u32 (b + i))) := by
  intro i hi
  unfold cli_emu_vmm_write32 at h
  have hl : (le_bytes 4 (le_value (vmm_bytes v b 4))).length ≤ 4294967296 := by simp [le_bytes]
  have e : u32 (u32 a + i) = u32 (a + i) := by unfold u32; omega
  rw [← e, vmm_write_data_in v v1 (u32 a) _ i h (by simpa [le_bytes] using hi) hl]
  rw [vmm_bytes_four]
  simp only [le_bytes, le_value, u8]
  interval_cases i <;> simp only [List.getD_cons_zero, List.getD_cons_succ] <;> omega

/-- The loop of `emu_movsx` for MOVSD under the REP latch (the REPNE latch
clear or ZF clear) with `DF = 0` and `ECX = n + 1`: it ends after `n + 1` turns
with the source range copied to the destination range. -/
theorem movsd_run (instr : dis_instr) (had : instr.address_size = 0) (n : Nat) :
    ∀ (fuel : Nat) (s : cli_emu_t), n + 1 ≤ fuel →
      s.prefix_repe ≠ 0 → (s.prefix_repne = 0 ∨ s.eflags &&& (1 <<< bit_zf) = 0) →
      s.eflags &&& (1 <<< bit_df) = 0 →
      s.reg_val REG_ECX = n + 1 → 4 * (n + 1) ≤ 4294967296 →
      (∀ i, i < 4 * (n + 1) → s.mem.readable (u32 (s.reg_val REG_ESI + i)) = true) →
      (∀ i, i < 4 * (n + 1) → s.mem.writable (u32 (s.reg_val REG_EDI + i)) = true) →
      (∀ i j, i < 4 * (n + 1) → j < 4 * (n + 1) →
        u32 (s.reg_val REG_ESI + i) ≠ u32 (s.reg_val REG_EDI + j)) →
      ∃ t, emu_movsx_loop instr SIZED 4 fuel s = (0, t) ∧
        (∀ i, i < 4 * (n + 1) →
          t.mem.data (u32 (s.reg_val REG_EDI + i)) = u8 (s.mem.data (u32 (s.reg_val REG_ESI + i)))) ∧
        (∀ y, (∀ i, i < 4 * (n + 1) → y ≠ u32 (s.reg_val REG_EDI + i)) →
          t.mem.data y = s.mem.data y) ∧
        t.mem.readable = s.mem.readable ∧ t.mem.writable = s.mem.writable ∧
        t.mem.executable = s.mem.executable ∧ t.mem.imports = s.mem.imports ∧
        t.reg_val REG_ECX = 0 ∧
        t.reg_val REG_ESI = u32 (s.reg_val REG_ESI + 4 * (n + 1)) ∧
        t.reg_val REG_EDI = u32 (s.reg_val REG_EDI + 4 * (n + 1)) ∧
        (∀ r, r ≠ REG_ECX → r ≠ REG_ESI → r ≠ REG_EDI → t.reg_val r = s.reg_val r) ∧
        t.eflags = s.eflags := by
  induction n with
  | zero =>
    intro fuel s hfuel hrepe hrepne hdf hecx _ hsrc hdst _
    obtain ⟨f, rfl⟩ : ∃ f, fuel = f + 1 := ⟨fuel - 1, by omega⟩
    have hrd : ∀ i, i < 4 → s.mem.readable (u32 (u32 (s.reg_val REG_ESI) + i)) = true := by
      intro i hi
      have e : u32 (u32 (s.reg_val REG_ESI) + i) = u32 (s.reg_val REG_ESI + i) := by
        unfold u32; omega
      rw [e]; exact hsrc i (by omega)
    have hwr : ∀ i, i < 4 → s.mem.writable (u32 (u32 (s.reg_val REG_EDI) + i)) = true := by
      intro i hi
      have e : u32 (u32 (s.reg_val REG_EDI) + i) = u32 (s.reg_val REG_EDI + i) := by
        unfold u32; omega
      rw [e]; exact hdst i (by omega)
    obtain ⟨m, hm, hloop⟩ := movsd_iter instr f s 1 had hrepe hrepne hdf (by omega) (by omega)
      hecx hrd hwr
    obtain ⟨fr, fw, fx, fi⟩ := vmm_write32_frame _ _ _ _ hm
    rw [if_pos rfl] at hloop
    refine ⟨_, hloop, ?_, ?_, fr, fw, fx, fi, ?_, ?_, ?_, ?_, rfl⟩
    · intro i hi
      have h1 := copy32_bytes _ _ _ _ hm i (by omega)
      have e1 : u32 (u32 (s.reg_val REG_EDI) + i) = u32 (s.reg_val REG_EDI + i) := by
        unfold u32; omega
      have e2 : u32 (u32 (s.reg_val REG_ESI) + i) = u32 (s.reg_val REG_ESI + i) := by
        unfold u32; omega
      rw [e1, e2] at h1
      simpa only [set_reg_val_mem] using h1
    · intro y hy
      simp only [set_reg_val_mem]
      apply vmm_write32_data_out _ _ _ _ y hm
      intro i hi
      have e1 : u32 (u32 (s.reg_val REG_EDI) + i) = u32 (s.reg_val REG_EDI + i) := by
        unfold u32; omega
      rw [e1]; exact hy i (by omega)
    · simp [set_reg_val]
    · rw [set_reg_val_other _ _ _ _ (by decide), set_reg_val_other _ _ _ _ (by decide),
        set_reg_val_same]
      unfold u32; omega
    · rw [set_reg_val_other _ _ _ _ (by decide), set_reg_val_same]
      unfold u32; omega
    · intro r h1 h2 h3
      simp only [set_reg_val, h1, h2, h3, if_false]
  | succ n ih =>
    intro fuel s hfuel hrepe hrepne hdf hecx hfit hsrc hdst hdisj
    obtain ⟨f, rfl⟩ : ∃ f, fuel = f + 1 := ⟨fuel - 1, by omega⟩
    have hrd : ∀ i, i < 4 → s.mem.readable (u32 (u32 (s.reg_val REG_ESI) + i)) = true := by
      intro i hi
      have e : u32 (u32 (s.reg_val REG_ESI) + i) = u32 (s.reg_val REG_ESI + i) := by
        unfold u32; omega
      rw [e]; exact hsrc i (by omega)
    have hwr : ∀ i, i < 4 → s.mem.writable (u32 (u32 (s.reg_val REG_EDI) + i)) = true := by
      intro i hi
      have e : u32 (u32 (s.reg_val REG_EDI) + i) = u32 (s.reg_val REG_EDI + i) := by
        unfold u32; omega
      rw [e]; exact hdst i (by omega)
    obtain ⟨m, hm, hloop⟩ := movsd_iter instr f s (n + 1 + 1) had hrepe hrepne hdf (by omega)
      (by omega) hecx hrd hwr
    obtain ⟨fr, fw, fx, fi⟩ := vmm_write32_frame _ _ _ _ hm
    rw [if_neg (by omega)] at hloop
    have hsi : (set_reg_val (set_reg_val (set_reg_val { s with mem := m } REG_ESI
        (u32 (u32 (s.reg_val REG_ESI) + 4))) REG_EDI (u32 (u32 (s.reg_val REG_EDI) + 4)))
        REG_ECX (n + 1 + 1 - 1)).reg_val REG_ESI = u32 (u32 (s.reg_val REG_ESI) + 4) := by
      rw [set_reg_val_other _ _ _ _ (by decide), set_reg_val_other _ _ _ _ (by decide),
        set_reg_val_same]
    have hdi : (set_reg_val (set_reg_val (set_reg_val { s with mem := m } REG_ESI
        (u32 (u32 (s.reg_val REG_ESI) + 4))) REG_EDI (u32 (u32 (s.reg_val REG_EDI) + 4)))
        REG_ECX (n + 1 + 1 - 1)).reg_val REG_EDI = u32 (u32 (s.reg_val REG_EDI) + 4) := by
      rw [set_reg_val_other _ _ _ _ (by decide), set_reg_val_same]
    have hcx : (set_reg_val (set_reg_val (set_reg_val { s with mem := m } REG_ESI
        (u32 (u32 (s.reg_val REG_ESI) + 4))) REG_EDI (u32 (u32 (s.reg_val REG_EDI) + 4)))
        REG_ECX (n + 1 + 1 - 1)).reg_val REG_ECX = n + 1 := by
      simp [set_reg_val]
    have esrc : ∀ i, u32 (u32 (u32 (s.reg_val REG_ESI) + 4) + i)
        = u32 (s.reg_val REG_ESI + (4 + i)) := by intro i; unfold u32; omega
    have edst : ∀ i, u32 (u32 (u32 (s.reg_val REG_EDI) + 4) + i)
        = u32 (s.reg_val REG_EDI + (4 + i)) := by intro i; unfold u32; omega
    obtain ⟨t, ht, hd1, hd2, hp1, hp2, hp3, hp4, hr1, hr2, hr3, hr4, hfl⟩ := ih f
      (set_reg_val (set_reg_val (set_reg_val { s with mem := m } REG_ESI
        (u32 (u32 (s.reg_val REG_ESI) + 4))) REG_EDI (u32 (u32 (s.reg_val REG_EDI) + 4)))
        REG_ECX (n + 1 + 1 - 1))
      (by omega) hrepe hrepne hdf hcx (by omega)
      (by
        intro i hi
        rw [hsi, esrc]
        simp only [set_reg_val_mem, fr]
        exact hsrc (4 + i) (by omega))
      (by
        intro i hi
        rw [hdi, edst]
        simp only [set_reg_val_mem, fw]
        exact hdst (4 + i) (by omega))
      (by
        intro i j hi hj
        rw [hsi, hdi, esrc, edst]
        exact hdisj (4 + i) (4 + j) (by omega) (by omega))
    rw [hsi, hdi] at *
    simp only [set_reg_val_mem, set_reg_val_eflags] at hd1 hd2 hp1 hp2 hp3 hp4 hfl
    refine ⟨t, by rw [hloop, ht], ?_, ?_, by rw [hp1, fr], by rw [hp2, fw], by rw [hp3, fx],
      by rw [hp4, fi], hr1, ?_, ?_, ?_, hfl⟩
    · intro i hi
      by_cases h4 : i < 4
      · have h1 := copy32_bytes _ _ _ _ hm i h4
        have e1 : u32 (u32 (s.reg_val REG_EDI) + i) = u32 (s.reg_val REG_EDI + i) := by
          unfold u32; omega
        have e2 : u32 (u32 (s.reg_val REG_ESI) + i) = u32 (s.reg_val REG_ESI + i) := by
          unfold u32; omega
        rw [e1, e2] at h1
        rw [← h1]
        apply hd2
        intro j hj
        rw [edst]
        unfold u32; omega
      · have h1 := hd1 (i - 4) (by omega)
        rw [esrc, edst] at h1
        have e4 : 4 + (i - 4) = i := by omega
        rw [e4] at h1
        rw [h1]
        congr 1
        apply vmm_write32_data_out _ _ _ _ _ hm
        intro j hj
        have e1 : u32 (u32 (s.reg_val REG_EDI) + j) = u32 (s.reg_val REG_EDI + j) := by
          unfold u32; omega
        rw [e1]
        exact hdisj i j hi (by omega)
    · intro y hy
      rw [hd2 y ?_, vmm_write32_data_out _ _ _ _ y hm ?_]
      · intro j hj
        have e1 : u32 (u32 (s.reg_val REG_EDI) + j) = u32 (s.reg_val REG_EDI + j) := by
          unfold u32; omega
        rw [e1]
        exact hy j (by omega)
      · intro j hj
        rw [edst]
        exact hy (4 + j) (by omega)
    · rw [hr2]; unfold u32; omega
    · rw [hr3]; unfold u32; omega
    · intro r h1 h2 h3
      rw [hr4 r h1 h2 h3]
      simp only [set_reg_val, h1, h2, h3, if_false]

theorem prefix_pre_zero (s : cli_emu_t) (ad rr : Nat) (had : ad = 0)
    (hrepe : s.prefix_repe ≠ 0) (h0 : s.reg_val REG_ECX = 0) : emu_prefix_pre s ad rr = 1 := by
  simp [emu_prefix_pre, hrepe, had, cnt_reg, read_reg_32 _ REG_ECX (by decide), h0, u32]

theorem prefix_pre_pos (s : cli_emu_t) (ad rr : Nat) (had : ad = 0)
    (h1 : 1 ≤ s.reg_val REG_ECX) (h2 : s.reg_val REG_ECX < 4294967296) :
    emu_prefix_pre s ad rr = 0 := by
  have hne : u32 (s.reg_val REG_ECX) ≠ 0 := by unfold u32; omega
  unfold emu_prefix_pre
  simp only [had, cnt_reg, ne_eq, not_true_eq_false, if_false]
  rw [read_reg_32 _ REG_ECX (by decide)]
  simp [hne]

/-- REP iteration of MOVSD where the REPNE test of the post-check cannot fire.
For every `k ≥ 0`: MOVSD (`emu_movsx` with size DWORD and step 4) under the
REP latch `prefix_repe`, with the REPNE latch clear or ZF clear, without
address-size override, with `ECX = k`, `DF = 0`, the `4 k` source bytes at ESI
readable, the `4 k` destination bytes at EDI writable and the two ranges
disjoint, returns 0, copies the `k` source dwords to the destination in
order (byte `i` of the destination range receives byte `i` of the source
range), changes no other byte and no permission, and ends with `ECX = 0`,
`ESI = old ESI + 4 k` and `EDI = old EDI + 4 k` (modulo `2 ^ 32`), the other
registers unchanged.  For `k = 0` the state is returned as it was. -/
theorem movsd_rep_copies (s : cli_emu_t) (instr : dis_instr) (k : Nat)
    (had : instr.address_size = 0) (hrepe : s.prefix_repe ≠ 0)
    (hrepne : s.prefix_repne = 0 ∨ s.eflags &&& (1 <<< bit_zf) = 0)
    (hdf : s.eflags &&& (1 <<< bit_df) = 0)
    (hecx : s.reg_val REG_ECX = k) (hk : k < 4294967296)
    (hesi : s.reg_val REG_ESI < 4294967296) (hedi : s.reg_val REG_EDI < 4294967296)
    (hsrc : ∀ i, i < 4 * k → s.mem.readable (u32 (s.reg_val REG_ESI + i)) = true)
    (hdst : ∀ i, i < 4 * k → s.mem.writable (u32 (s.reg_val REG_EDI + i)) = true)
    (hdisj : ∀ i j, i < 4 * k → j < 4 * k →
      u32 (s.reg_val REG_ESI + i) ≠ u32 (s.reg_val REG_EDI + j)) :
    (emu_movsx s instr SIZED 4).1 = 0 ∧
    (∀ i, i < 4 * k →
      (emu_movsx s instr SIZED 4).2.mem.data (u32 (s.reg_val REG_EDI + i))
        = u8 (s.mem.data (u32 (s.reg_val REG_ESI + i)))) ∧
    (∀ y, (∀ i, i < 4 * k → y ≠ u32 (s.reg_val REG_EDI + i)) →
      (emu_movsx s instr SIZED 4).2.mem.data y = s.mem.data y) ∧
    (emu_movsx s instr SIZED 4).2.mem.readable = s.mem.readable ∧
    (emu_movsx s instr SIZED 4).2.mem.writable = s.mem.writable ∧
    (emu_movsx s instr SIZED 4).2.mem.executable = s.mem.executable ∧
    (emu_movsx s instr SIZED 4).2.reg_val REG_ECX = 0 ∧
    (emu_movsx s instr SIZED 4).2.reg_val REG_ESI = (s.reg_val REG_ESI + 4 * k) % 4294967296 ∧
    (emu_movsx s instr SIZED 4).2.reg_val REG_EDI = (s.reg_val REG_EDI + 4 * k) % 4294967296 ∧
    (∀ r, r ≠ REG_ECX → r ≠ REG_ESI → r ≠ REG_EDI →
      (emu_movsx s instr SIZED 4).2.reg_val r = s.reg_val r) ∧
    (k = 0 → (emu_movsx s instr SIZED 4).2 = s) := by
  rcases Nat.eq_zero_or_pos k with hk0 | hkpos
  · subst hk0
    have hpre := prefix_pre_zero s instr.address_size 1 had hrepe hecx
    have hrun : emu_movsx s instr SIZED 4 = (0, s) := by
      simp [emu_movsx, hpre]
    rw [hrun]
    refine ⟨rfl, ?_, fun _ _ => rfl, rfl, rfl, rfl, hecx, ?_, ?_, fun _ _ _ _ => rfl,
      fun _ => rfl⟩
    · intro i hi; omega
    · simp only [Nat.mul_zero, Nat.add_zero]; omega
    · simp only [Nat.mul_zero, Nat.add_zero]; omega
  · have hfit : 4 * k ≤ 4294967296 := by
      by_contra hc
      refine hdisj 0 ((s.reg_val REG_ESI + 4294967296 - s.reg_val REG_EDI) % 4294967296)
        (by omega) (by omega) ?_
      unfold u32; omega
    have hpre := prefix_pre_pos s instr.address_size 1 had (by omega) (by omega)
    obtain ⟨n, rfl⟩ : ∃ n, k = n + 1 := ⟨k - 1, by omega⟩
    obtain ⟨t, ht, hd1, hd2, hp1, hp2, hp3, -, hr1, hr2, hr3, hr4, -⟩ :=
      movsd_run instr had n rep_fuel s (by unfold rep_fuel; omega) hrepe hrepne hdf hecx hfit
        hsrc hdst hdisj
    have hrun : emu_movsx s instr SIZED 4 = (0, t) := by
      simp [emu_movsx, hpre, ht]
    rw [hrun]
    exact ⟨rfl, hd1, hd2, hp1, hp2, hp3, hr1, hr2, hr3, hr4, fun h => absurd h (by omega)⟩

/-- The copy at `k = 2` on `ex_state_movs` (REP latch alone, ZF set): the eight
bytes at `0x100` are copied to `0x200`; ECX ends at 0, ESI at `0x108`, EDI at
`0x208`. -/
theorem movsd_rep_copies_example :
    (emu_movsx ex_state_movs ex_instr0 SIZED 4).1 = 0 ∧
    (∀ i, i < 4 * 2 →
      (emu_movsx ex_state_movs ex_instr0 SIZED 4).2.mem.data (u32 (512 + i))
        = u8 (u32 (256 + i) % 251)) ∧
    (emu_movsx ex_state_movs ex_instr0 SIZED 4).2.reg_val REG_ECX = 0 ∧
    (emu_movsx ex_state_movs ex_instr0 SIZED 4).2.reg_val REG_ESI = (256 + 4 * 2) % 4294967296 ∧
    (emu_movsx ex_state_movs ex_instr0 SIZED 4).2.reg_val REG_EDI = (512 + 4 * 2) % 4294967296 ∧
    ex_state_movs.eflags &&& (1 <<< bit_zf) ≠ 0 :=
  have h := movsd_rep_copies ex_state_movs ex_instr0 2 rfl (by decide) (Or.inl rfl) (by decide)
    rfl
    (by decide) (by decide) (by decide) (by decide) (by decide)
    (by
      intro i j hi hj
      show u32 (256 + i) ≠ u32 (512 + j)
      unfold u32; omega)
  ⟨h.1, h.2.1, h.2.2.2.2.2.2.1, h.2.2.2.2.2.2.2.1, h.2.2.2.2.2.2.2.2.1, by decide⟩

/-- C6 (REP iteration), failing input. From a state with both latches clear, `ECX = 2`,
`ESI = 0x100`, `EDI = 0x200`, `DF = 0` and ZF set, whose code is the bytes `F2 F3 A5`, two
steps return 0 and leave both latches set with the registers and flags as they were. On that
state MOVSD (`emu_movsx` with size DWORD and step 4, and the third step alike) returns 0 after
one dword: `ECX = 1`, `ESI = 0x104`, `EDI = 0x204`, the first destination dword holds the
first source dword and the byte at `0x204` keeps its old value 14 where the source byte at
`0x104` is 9. From the same state with ZF clear, or with the REPNE latch clear, both dwords
are copied and `ECX` ends at 0. -/
theorem C6_rep_movsd_stops_under_both_latches :
    (cli_emulator_step ex_dec_rep_movsd (ex_state_f2f3 64)).1 = 0 ∧
    (cli_emulator_step ex_dec_rep_movsd
      (cli_emulator_step ex_dec_rep_movsd (ex_state_f2f3 64)).2).1 = 0 ∧
    (ex_state_both 64).prefix_repe = 1 ∧
    (ex_state_both 64).prefix_repne = 1 ∧
    (ex_state_both 64).eip = 4098 ∧
    (ex_state_both 64).reg_val REG_ECX = 2 ∧
    (ex_state_both 64).reg_val REG_ESI = 256 ∧
    (ex_state_both 64).reg_val REG_EDI = 512 ∧
    (ex_state_both 64).eflags &&& (1 <<< bit_df) = 0 ∧
    (ex_state_both 64).eflags &&& (1 <<< bit_zf) ≠ 0 ∧
    (emu_movsx (ex_state_both 64) ex_instr0 SIZED 4).1 = 0 ∧
    (emu_movsx (ex_state_both 64) ex_instr0 SIZED 4).2.reg_val REG_ECX = 1 ∧
    (emu_movsx (ex_state_both 64) ex_instr0 SIZED 4).2.reg_val REG_ESI = 260 ∧
    (emu_movsx (ex_state_both 64) ex_instr0 SIZED 4).2.reg_val REG_EDI = 516 ∧
    (emu_movsx (ex_state_both 64) ex_instr0 SIZED 4).2.mem.data 512 = 5 ∧
    (ex_state_both 64).mem.data 256 = 5 ∧
    (ex_state_both 64).mem.data 260 = 9 ∧
    (emu_movsx (ex_state_both 64) ex_instr0 SIZED 4).2.mem.data 516 = 14 ∧
    (cli_emulator_step ex_dec_rep_movsd (ex_state_both 64)).1 = 0 ∧
    (cli_emulator_step ex_dec_rep_movsd (ex_state_both 64)).2.reg_val REG_ECX = 1 ∧
    (cli_emulator_step ex_dec_rep_movsd (ex_state_both 64)).2.mem.data 516 = 14 ∧
    (emu_movsx (ex_state_both 0) ex_instr0 SIZED 4).2.reg_val REG_ECX = 0 ∧
    (emu_movsx (ex_state_both 0) ex_instr0 SIZED 4).2.mem.data 516 = 9 ∧
    (emu_movsx { ex_state_both 64 with prefix_repne := 0 } ex_instr0 SIZED 4).2.reg_val REG_ECX
      = 0 ∧
    (emu_movsx { ex_state_both 64 with prefix_repne := 0 } ex_instr0 SIZED 4).2.mem.data 516
      = 9 := by
  refine ⟨?_, ?_, ?_, ?_, ?_, ?_, ?_, ?_, ?_, ?_, ?_, ?_, ?_, ?_, ?_, ?_, ?_, ?_, ?_, ?_, ?_,
    ?_, ?_, ?_, ?_⟩ <;> decide

/-! ## The 16-bit register views -/

theorem get_reg_16 (d : desc_t) (reg : Nat) (h1 : 8 ≤ reg) (h2 : reg < 16) :
    get_reg d reg = (0, ⟨65535, 0, reg - 8, 16, 16⟩) := by
  have h3 : ¬ reg ≥ MAXREG := by unfold MAXREG; omega
  have h4 : ¬ reg < 8 := by omega
  simp [get_reg, h3, reg_masks, h4, h2]

/-- The low half of a cell after a write through a 16-bit view. -/
theorem merge16_low (x y : Nat) :
    ((x &&& not32 65535) ||| (u32 y &&& 65535)) % 65536 = y % 65536 := by
  have e : ∀ z, z % 65536 = z &&& 65535 := by
    intro z
    have h := @Nat.and_pow_two_sub_one_eq_mod z 16
    simpa using h.symm
  rw [e, e y]
  apply Nat.eq_of_testBit_eq
  intro i
  simp only [Nat.testBit_and, Nat.testBit_or, testBit_65535, testBit_not32, testBit_u32]
  by_cases h : i < 16
  · have h32 : i < 32 := by omega
    simp [h, h32]
  · simp [h]

/-- The high half of a cell after a write through a 16-bit view. -/
theorem merge16_high (x y : Nat) (hx : x < 4294967296) :
    ((x &&& not32 65535) ||| (u32 y &&& 65535)) / 65536 = x / 65536 := by
  have e : ∀ z, z / 65536 = z >>> 16 := by
    intro z
    rw [Nat.shiftRight_eq_div_pow]
  rw [e, e x]
  apply Nat.eq_of_testBit_eq
  intro i
  simp only [Nat.testBit_shiftRight, Nat.testBit_and, Nat.testBit_or, testBit_65535,
    testBit_not32, testBit_u32]
  have h16 : ¬ (16 + i < 16) := by omega
  by_cases h32 : 16 + i < 32
  · simp [h16, h32]
  · have hz : x.testBit (16 + i) = false := by
      apply Nat.testBit_lt_two_pow
      have hp : (4294967296 : Nat) ≤ 2 ^ (16 + i) := by
        have h1 : (2 : Nat) ^ 32 ≤ 2 ^ (16 + i) := Nat.pow_le_pow_right (by decide) (by omega)
        simpa using h1
      omega
    simp [h16, h32, hz]

theorem read_reg_16 (s : cli_emu_t) (reg : Nat) (h1 : 8 ≤ reg) (h2 : reg < 16) :
    read_reg s reg = some (s.reg_val (reg - 8) % 65536) := by
  have hr : reg - 8 ≠ REGIDX_INVALID := by unfold REGIDX_INVALID; omega
  have h := @Nat.and_pow_two_sub_one_eq_mod (s.reg_val (reg - 8)) 16
  simp only [read_reg, get_reg_16 _ reg h1 h2, readreg, hr, ne_eq, not_false_eq_true, if_true,
    if_false, Nat.shiftRight_zero]
  simpa using h

theorem write_reg_16 (s : cli_emu_t) (reg v : Nat) (h1 : 8 ≤ reg) (h2 : reg < 16) :
    write_reg s reg v = (0, set_reg_val s (reg - 8)
      ((s.reg_val (reg - 8) &&& not32 65535) ||| (u32 v &&& 65535))) := by
  have hr : reg - 8 ≠ REGIDX_INVALID := by unfold REGIDX_INVALID; omega
  simp only [write_reg, get_reg_16 _ reg h1 h2, writereg, hr, if_false, Nat.shiftLeft_zero]

/-! ## LOOP (C11) -/

/-- C11 (LOOP), as amended: for every state and every LOOP instruction with
8-bit relative displacement `d` and no operand-size override, `emu_loop`
returns 0 and decrements the count register by one modulo its width: ECX
without address-size override; CX under address-size override, the upper 16
bits of ECX staying as they were.  If the decremented count is nonzero, `eip`
becomes `eip + sign_extend_8 d` (modulo `2 ^ 32`), otherwise `eip` is
unchanged.  The flags, the defined mask, the memory and the other registers
are not modified. -/
theorem C11_loop (state : cli_emu_t) (instr : dis_instr)
    (hop : instr.operation_size = 0) (hcell : state.reg_val REG_ECX < 4294967296) :
    (emu_loop state instr).1 = 0 ∧
    (emu_loop state instr).2.eflags = state.eflags ∧
    (emu_loop state instr).2.eflags_def = state.eflags_def ∧
    (emu_loop state instr).2.mem = state.mem ∧
    (∀ r, r ≠ REG_ECX → (emu_loop state instr).2.reg_val r = state.reg_val r) ∧
    (instr.address_size = 0 →
      (emu_loop state instr).2.reg_val REG_ECX
        = (state.reg_val REG_ECX + 4294967295) % 4294967296 ∧
      (emu_loop state instr).2.eip =
        if (state.reg_val REG_ECX + 4294967295) % 4294967296 ≠ 0 then
          (state.eip + sext8 (instr.arg 0).displacement) % 4294967296
        else state.eip) ∧
    (instr.address_size ≠ 0 →
      (emu_loop state instr).2.reg_val REG_ECX % 65536
        = (state.reg_val REG_ECX % 65536 + 65535) % 65536 ∧
      (emu_loop state instr).2.reg_val REG_ECX / 65536 = state.reg_val REG_ECX / 65536 ∧
      (emu_loop state instr).2.eip =
        if (state.reg_val REG_ECX % 65536 + 65535) % 65536 ≠ 0 then
          (state.eip + sext8 (instr.arg 0).displacement) % 4294967296
        else state.eip) := by
  by_cases had : instr.address_size = 0
  · have hrd := read_reg_32 state REG_ECX (by decide)
    have hc : cnt_reg instr.address_size = REG_ECX := by simp [cnt_reg, had]
    simp only [emu_loop, hc, hrd, hop, if_true, write_reg_32 _ REG_ECX _ (by decide)]
    have e1 : u32 (u32 (u32 (state.reg_val REG_ECX) + 4294967295))
        = (state.reg_val REG_ECX + 4294967295) % 4294967296 := by unfold u32; omega
    have e2 : u32 (u32 (state.reg_val REG_ECX) + 4294967295)
        = (state.reg_val REG_ECX + 4294967295) % 4294967296 := by unfold u32; omega
    rw [e1, e2]
    generalize (state.reg_val REG_ECX + 4294967295) % 4294967296 = cnt
    refine ⟨trivial, ?_, ?_, ?_, ?_, ?_, fun h => absurd had h⟩
    · by_cases hz : cnt = 0 <;> simp [hz]
    · by_cases hz : cnt = 0 <;> simp [hz]
    · by_cases hz : cnt = 0 <;> simp [hz]
    · intro r hr
      rw [set_reg_val_other _ _ _ _ hr]
      by_cases hz : cnt = 0 <;> simp [hz]
    · intro _
      refine ⟨set_reg_val_same _ _ _, ?_⟩
      by_cases hz : cnt = 0 <;> simp [hz, u32]
  · have hrd := read_reg_16 state REG_CX (by decide) (by decide)
    have hc : cnt_reg instr.address_size = REG_CX := by simp [cnt_reg, had]
    have h98 : REG_CX - 8 = REG_ECX := by decide
    simp only [emu_loop, hc, hrd, hop, if_true, write_reg_16 _ REG_CX _ (by decide) (by decide),
      h98]
    have ez : (u32 (state.reg_val REG_ECX % 65536 + 4294967295) = 0)
        ↔ ((state.reg_val REG_ECX % 65536 + 65535) % 65536 = 0) := by unfold u32; omega
    have em : u32 (state.reg_val REG_ECX % 65536 + 4294967295) % 65536
        = (state.reg_val REG_ECX % 65536 + 65535) % 65536 := by unfold u32; omega
    generalize u32 (state.reg_val REG_ECX % 65536 + 4294967295) = cnt at ez em ⊢
    generalize (state.reg_val REG_ECX % 65536 + 65535) % 65536 = c16 at ez em ⊢
    refine ⟨trivial, ?_, ?_, ?_, ?_, fun h => absurd h had, ?_⟩
    · by_cases hz : cnt = 0 <;> simp [hz]
    · by_cases hz : cnt = 0 <;> simp [hz]
    · by_cases hz : cnt = 0 <;> simp [hz]
    · intro r hr
      rw [set_reg_val_other _ _ _ _ hr]
      by_cases hz : cnt = 0 <;> simp [hz]
    · intro _
      rw [set_reg_val_same]
      have hreg : (if cnt ≠ 0 then
          ({ state with eip := u32 (state.eip + sext8 (instr.arg 0).displacement) } : cli_emu_t)
          else state).reg_val REG_ECX = state.reg_val REG_ECX := by
        by_cases hz : cnt = 0 <;> simp [hz]
      rw [hreg]
      refine ⟨?_, ?_, ?_⟩
      · rw [merge16_low, em]
      · exact merge16_high _ _ hcell
      · by_cases hz : cnt = 0
        · have hz2 : c16 = 0 := ez.mp hz
          simp [hz, hz2]
        · have hz2 : ¬ c16 = 0 := fun h => hz (ez.mpr h)
          simp [hz, hz2, u32]

/-- C11 fails as stated under operand-size override: with `ECX = 2`,
`eip = 0x1002` and `LOOP +0x10` decoded with `operation_size = 1`, the count
becomes 1 (nonzero) and `emu_loop` leaves `eip = 0x1002` (it only masks `eip`
to 16 bits) instead of `eip + 0x10`. -/
theorem C11_loop_opsize_counterexample :
    (ex_instr_loop 1 0 16).opcode = OP_LOOP ∧
    ((ex_instr_loop 1 0 16).arg 0).displacement = 16 ∧
    ex_state_loop.reg_val REG_ECX = 2 ∧ ex_state_loop.eip = 4098 ∧
    (emu_loop ex_state_loop (ex_instr_loop 1 0 16)).2.reg_val REG_ECX = 1 ∧
    (emu_loop ex_state_loop (ex_instr_loop 1 0 16)).2.eip = 4098 ∧
    (emu_loop ex_state_loop (ex_instr_loop 1 0 16)).2.eip ≠ u32 (4098 + sext8 16) := by
  refine ⟨?_, ?_, ?_, ?_, ?_, ?_, ?_⟩ <;> decide

/-- The amended C11 on `ex_state_loop`: `LOOP +0x10` with `ECX = 2` leaves
`ECX = 1` and `eip = 0x1012`; under address-size override the upper half of
ECX is kept. -/
theorem C11_loop_witness :
    (emu_loop ex_state_loop (ex_instr_loop 0 0 16)).2.reg_val REG_ECX
      = (2 + 4294967295) % 4294967296 ∧
    (emu_loop ex_state_loop (ex_instr_loop 0 0 16)).2.eip = 4114 ∧
    (emu_loop ex_state_loop (ex_instr_loop 0 1 16)).2.reg_val REG_ECX / 65536 = 2 / 65536 :=
  ⟨((C11_loop ex_state_loop (ex_instr_loop 0 0 16) rfl (by decide)).2.2.2.2.2.1 rfl).1,
   ((C11_loop ex_state_loop (ex_instr_loop 0 0 16) rfl (by decide)).2.2.2.2.2.1 rfl).2,
   ((C11_loop ex_state_loop (ex_instr_loop 0 1 16) rfl (by decide)).2.2.2.2.2.2 (by decide)).2.1⟩

/-! ## PUSHAD and POPAD (C12, C13) -/

theorem vmm_bytes_two (v : emu_vmm_t) (a : Nat) :
    vmm_bytes v a 2 = [u8 (v.data (u32 (a + 0))), u8 (v.data (u32 (a + 1)))] := by
  rfl

theorem u8_u8 (x : Nat) : u8 (u8 x) = u8 x := by unfold u8; omega

theorem vmm_dword_after_write (v m : emu_vmm_t) (va : Nat) (buf : List Nat) (k : Nat)
    (h : cli_emu_vmm_write v va buf = some m) (hk : k + 4 ≤ buf.length)
    (hl : buf.length ≤ 4294967296) :
    le_value (vmm_bytes m (va + k) 4)
      = le_value [buf.getD (k + 0) 0, buf.getD (k + 1) 0, buf.getD (k + 2) 0,
          buf.getD (k + 3) 0] := by
  have hb : ∀ j, j < 4 → m.data (u32 (va + k + j)) = u8 (buf.getD (k + j) 0) := by
    intro j hj
    rw [Nat.add_assoc]
    exact vmm_write_data_in v m va buf (k + j) h (by omega) hl
  rw [vmm_bytes_four, hb 0 (by decide), hb 1 (by decide), hb 2 (by decide), hb 3 (by decide)]
  simp only [le_value, u8_u8]

theorem vmm_word_after_write (v m : emu_vmm_t) (va : Nat) (buf : List Nat) (k : Nat)
    (h : cli_emu_vmm_write v va buf = some m) (hk : k + 2 ≤ buf.length)
    (hl : buf.length ≤ 4294967296) :
    le_value (vmm_bytes m (va + k) 2)
      = le_value [buf.getD (k + 0) 0, buf.getD (k + 1) 0] := by
  have hb : ∀ j, j < 2 → m.data (u32 (va + k + j)) = u8 (buf.getD (k + j) 0) := by
    intro j hj
    rw [Nat.add_assoc]
    exact vmm_write_data_in v m va buf (k + j) h (by omega) hl
  rw [vmm_bytes_two, hb 0 (by decide), hb 1 (by decide)]
  simp only [le_value, u8_u8]

theorem vmm_write_none (v : emu_vmm_t) (va : Nat) (buf : List Nat)
    (h : vmm_range_ok v.writable va buf.length = false) : cli_emu_vmm_write v va buf = none := by
  simp [cli_emu_vmm_write, h]

theorem vmm_write_some (v : emu_vmm_t) (va : Nat) (buf : List Nat)
    (h : vmm_range_ok v.writable va buf.length = true) :
    ∃ m, cli_emu_vmm_write v va buf = some m := by
  unfold cli_emu_vmm_write
  rw [if_pos h]
  exact ⟨_, rfl⟩

theorem and_65535 (x : Nat) : x &&& 65535 = x % 65536 := by
  have h := @Nat.and_pow_two_sub_one_eq_mod x 16
  simpa using h

theorem pusha_dword (f : Nat → Nat) (k j : Nat) (hk : k < 8) (hj : j < 4) :
    (pusha_order.flatMap (fun r => le_bytes 4 (f r))).getD (4 * k + j) 0
      = (f (pusha_order.getD k 0) / 256 ^ j) % 256 := by
  interval_cases k <;> interval_cases j <;> simp [pusha_order, List.flatMap, le_bytes, Nat.div_div_eq_div_mul]

theorem pusha_word (f : Nat → Nat) (k j : Nat) (hk : k < 8) (hj : j < 2) :
    (pusha_order.flatMap (fun r => le_bytes 2 (f r))).getD (2 * k + j) 0
      = (f (pusha_order.getD k 0) / 256 ^ j) % 256 := by
  interval_cases k <;> interval_cases j <;> simp [pusha_order, List.flatMap, le_bytes, Nat.div_div_eq_div_mul]

/-- C12 (PUSHAD layout). With no operand-size override and a writable 32-byte range below ESP,
emu_pusha returns 0, sets ESP to old ESP - 32 (mod 2^32), and the dword at [ESP + 4*i] for
i = 0..7 is the old value of EDI, ESI, EBP, ESP, EBX, EDX, ECX, EAX (pusha_order); the seven
other registers, eflags and eflags_def are unchanged. If the range is not writable it returns
-1 and the state (so ESP) is unchanged. Under operand-size override the same holds with 16-byte
decrement, 16-bit slots at [ESP + 2*i] and the low 16 bits of each register. -/
theorem C12_pushad_layout (state : cli_emu_t) (instr : dis_instr) :
    (instr.operation_size = 0 →
      (vmm_range_ok state.mem.writable (u32 (state.reg_val REG_ESP + 4294967296 - 32)) 32 = true →
        (emu_pusha state instr).1 = 0 ∧
        (emu_pusha state instr).2.reg_val REG_ESP
          = (state.reg_val REG_ESP + 4294967296 - 32) % 4294967296 ∧
        (∀ i, i < 8 →
          le_value (vmm_bytes (emu_pusha state instr).2.mem
            ((emu_pusha state instr).2.reg_val REG_ESP + 4 * i) 4)
            = state.reg_val (pusha_order.getD i 0) % 4294967296) ∧
        (∀ r, r ≠ REG_ESP → (emu_pusha state instr).2.reg_val r = state.reg_val r) ∧
        (emu_pusha state instr).2.eflags = state.eflags ∧
        (emu_pusha state instr).2.eflags_def = state.eflags_def) ∧
      (vmm_range_ok state.mem.writable (u32 (state.reg_val REG_ESP + 4294967296 - 32)) 32 = false →
        emu_pusha state instr = (-1, state))) ∧
    (instr.operation_size ≠ 0 →
      (vmm_range_ok state.mem.writable (u32 (state.reg_val REG_ESP + 4294967296 - 16)) 16 = true →
        (emu_pusha state instr).1 = 0 ∧
        (emu_pusha state instr).2.reg_val REG_ESP
          = (state.reg_val REG_ESP + 4294967296 - 16) % 4294967296 ∧
        (∀ i, i < 8 →
          le_value (vmm_bytes (emu_pusha state instr).2.mem
            ((emu_pusha state instr).2.reg_val REG_ESP + 2 * i) 2)
            = state.reg_val (pusha_order.getD i 0) % 65536) ∧
        (∀ r, r ≠ REG_ESP → (emu_pusha state instr).2.reg_val r = state.reg_val r) ∧
        (emu_pusha state instr).2.eflags = state.eflags ∧
        (emu_pusha state instr).2.eflags_def = state.eflags_def) ∧
      (vmm_range_ok state.mem.writable (u32 (state.reg_val REG_ESP + 4294967296 - 16)) 16 = false →
        emu_pusha state instr = (-1, state))) := by
  constructor
  · intro hop
    constructor
    · intro hw
      obtain ⟨m, hm⟩ := vmm_write_some state.mem (u32 (state.reg_val REG_ESP + 4294967296 - 32))
        ([REG_EDI, REG_ESI, REG_EBP, REG_ESP, REG_EBX, REG_EDX, REG_ECX, REG_EAX].flatMap
          (fun r => le_bytes 4 (state.reg_val r))) (by simpa [le_bytes] using hw)
      have hrun : emu_pusha state instr
          = (0, set_reg_val { state with mem := m } REG_ESP
              (u32 (state.reg_val REG_ESP + 4294967296 - 32))) := by
        simp only [emu_pusha, hop, ne_eq, not_true_eq_false, if_false, hm]
      rw [hrun]
      refine ⟨rfl, set_reg_val_same _ _ _, ?_, fun r hr => set_reg_val_other _ _ _ _ hr, rfl, rfl⟩
      intro i hi
      rw [set_reg_val_same, set_reg_val_mem]
      rw [vmm_dword_after_write _ _ _ _ (4 * i) hm (by simp [le_bytes]; omega)
        (by simp [le_bytes])]
      have hbuf : [REG_EDI, REG_ESI, REG_EBP, REG_ESP, REG_EBX, REG_EDX, REG_ECX, REG_EAX].flatMap
          (fun r => le_bytes 4 (state.reg_val r))
          = pusha_order.flatMap (fun r => le_bytes 4 (state.reg_val r)) := rfl
      rw [hbuf]
      rw [pusha_dword _ i 0 hi (by decide), pusha_dword _ i 1 hi (by decide),
        pusha_dword _ i 2 hi (by decide), pusha_dword _ i 3 hi (by decide)]
      simp only [le_value, u8]
      norm_num
      omega
    · intro hw
      simp only [emu_pusha, hop, ne_eq, not_true_eq_false, if_false]
      rw [vmm_write_none _ _ _ (by simpa [le_bytes] using hw)]
  · intro hop
    constructor
    · intro hw
      obtain ⟨m, hm⟩ := vmm_write_some state.mem (u32 (state.reg_val REG_ESP + 4294967296 - 16))
        ([REG_EDI, REG_ESI, REG_EBP, REG_ESP, REG_EBX, REG_EDX, REG_ECX, REG_EAX].flatMap
          (fun r => le_bytes 2 (state.reg_val r &&& 65535))) (by simpa [le_bytes] using hw)
      have hrun : emu_pusha state instr
          = (0, set_reg_val { state with mem := m } REG_ESP
              (u32 (state.reg_val REG_ESP + 4294967296 - 16))) := by
        simp only [emu_pusha, hop, ne_eq, not_false_eq_true, if_true, hm]
      rw [hrun]
      refine ⟨rfl, set_reg_val_same _ _ _, ?_, fun r hr => set_reg_val_other _ _ _ _ hr, rfl, rfl⟩
      intro i hi
      rw [set_reg_val_same, set_reg_val_mem]
      rw [vmm_word_after_write _ _ _ _ (2 * i) hm (by simp [le_bytes]; omega)
        (by simp [le_bytes])]
      have hbuf : [REG_EDI, REG_ESI, REG_EBP, REG_ESP, REG_EBX, REG_EDX, REG_ECX, REG_EAX].flatMap
          (fun r => le_bytes 2 (state.reg_val r &&& 65535))
          = pusha_order.flatMap (fun r => le_bytes 2 (state.reg_val r &&& 65535)) := rfl
      rw [hbuf]
      rw [pusha_word _ i 0 hi (by decide), pusha_word _ i 1 hi (by decide)]
      simp only [le_value, u8, and_65535]
      norm_num
      omega
    · intro hw
      simp only [emu_pusha, hop, ne_eq, not_false_eq_true, if_true]
      rw [vmm_write_none _ _ _ (by simpa [le_bytes] using hw)]

/-- Witness for C12: PUSHAD on the example register state, 32-bit and 16-bit. -/
theorem C12_pushad_layout_witness :
    (emu_pusha ex_state_regs (ex_instr_op OP_PUSHAD 0)).1 = 0 ∧
    (emu_pusha ex_state_regs (ex_instr_op OP_PUSHAD 0)).2.reg_val REG_ESP
      = (32768 + 4294967296 - 32) % 4294967296 ∧
    le_value (vmm_bytes (emu_pusha ex_state_regs (ex_instr_op OP_PUSHAD 0)).2.mem
      ((emu_pusha ex_state_regs (ex_instr_op OP_PUSHAD 0)).2.reg_val REG_ESP + 4 * 3) 4)
      = 32768 % 4294967296 ∧
    le_value (vmm_bytes (emu_pusha ex_state_regs (ex_instr_op OP_PUSHAD 1)).2.mem
      ((emu_pusha ex_state_regs (ex_instr_op OP_PUSHAD 1)).2.reg_val REG_ESP + 2 * 7) 2)
      = 286331153 % 65536 :=
  have h := ((C12_pushad_layout ex_state_regs (ex_instr_op OP_PUSHAD 0)).1 rfl).1 (by decide)
  have h16 := ((C12_pushad_layout ex_state_regs (ex_instr_op OP_PUSHAD 1)).2 (by decide)).1
    (by decide)
  ⟨h.1, h.2.1, h.2.2.1 3 (by decide), h16.2.2.1 7 (by decide)⟩

/-- C13 (PUSHAD/POPAD round trip), failing input. On the example register state
(ESI = 0x77777777, EBP = 0x66666666, ESP = 0x8000) 32-bit PUSHAD followed by 32-bit POPAD both
return 0, yet ESI ends as the old EBP and EBP ends as the old ESP: emu_popa stores the third
slot into ESI and the fourth (ESP) slot into EBP instead of discarding it. ESP, EDI and EDX are
restored. -/
theorem C13_popad_misplaces_esi_ebp :
    ex_state_regs.reg_val REG_ESI = 2004318071 ∧ ex_state_regs.reg_val REG_EBP = 1717986918 ∧
    ex_state_regs.reg_val REG_ESP = 32768 ∧
    (emu_pusha ex_state_regs (ex_instr_op OP_PUSHAD 0)).1 = 0 ∧
    (emu_popa (emu_pusha ex_state_regs (ex_instr_op OP_PUSHAD 0)).2 (ex_instr_op OP_POPAD 0)).1
      = 0 ∧
    (emu_popa (emu_pusha ex_state_regs (ex_instr_op OP_PUSHAD 0)).2
      (ex_instr_op OP_POPAD 0)).2.reg_val REG_ESI = 1717986918 ∧
    (emu_popa (emu_pusha ex_state_regs (ex_instr_op OP_PUSHAD 0)).2
      (ex_instr_op OP_POPAD 0)).2.reg_val REG_EBP = 32768 ∧
    (emu_popa (emu_pusha ex_state_regs (ex_instr_op OP_PUSHAD 0)).2
      (ex_instr_op OP_POPAD 0)).2.reg_val REG_ESP = 32768 ∧
    (emu_popa (emu_pusha ex_state_regs (ex_instr_op OP_PUSHAD 0)).2
      (ex_instr_op OP_POPAD 0)).2.reg_val REG_EDI = ex_state_regs.reg_val REG_EDI ∧
    (emu_popa (emu_pusha ex_state_regs (ex_instr_op OP_PUSHAD 0)).2
      (ex_instr_op OP_POPAD 0)).2.reg_val REG_EDX = ex_state_regs.reg_val REG_EDX := by
  refine ⟨?_, ?_, ?_, ?_, ?_, ?_, ?_, ?_, ?_, ?_⟩ <;> decide

/-- Register assignment made by 32-bit emu_popa from the 32 bytes read at ESP: slot 0 goes to
EDI, slot 2 to ESI, slot 3 to EBP, slot 4 to EBX, slot 5 to EDX, slot 6 to ECX, slot 7 to EAX;
slot 1 is not used. -/
theorem emu_popa_32 (state : cli_emu_t) (instr : dis_instr) (data : List Nat)
    (hop : instr.operation_size = 0)
    (hrd : cli_emu_vmm_read_r state.mem (state.reg_val REG_ESP) 32 = some data) :
    (emu_popa state instr).1 = 0 ∧
    (emu_popa state instr).2.reg_val REG_EDI = le_slot data 4 0 ∧
    (emu_popa state instr).2.reg_val REG_ESI = le_slot data 4 2 ∧
    (emu_popa state instr).2.reg_val REG_EBP = le_slot data 4 3 ∧
    (emu_popa state instr).2.reg_val REG_EBX = le_slot data 4 4 ∧
    (emu_popa state instr).2.reg_val REG_EDX = le_slot data 4 5 ∧
    (emu_popa state instr).2.reg_val REG_ECX = le_slot data 4 6 ∧
    (emu_popa state instr).2.reg_val REG_EAX = le_slot data 4 7 ∧
    (emu_popa state instr).2.reg_val REG_ESP = u32 (state.reg_val REG_ESP + 32) := by
  simp only [emu_popa, hop, ne_eq, not_true_eq_false, if_false, hrd]
  refine ⟨trivial, ?_, ?_, ?_, ?_, ?_, ?_, ?_, ?_⟩ <;>
    simp [set_reg_val, REG_EAX, REG_ECX, REG_EDX, REG_EBX, REG_ESP, REG_EBP, REG_ESI, REG_EDI]

/-! ## Generic stdcall trap (C14) -/

/-- C14 (generic stdcall trap). For every state and argument byte count b other than 254: if
the 32-bit read at [ESP] succeeds with the word w, hook_generic_stdcall returns 0 with eip = w,
ESP = old ESP + 4 + b (mod 2^32), EAX = 0 and every other register, eflags, eflags_def and
memory unchanged; if the read fails it returns -1. For b = 254 it returns -1 and the state is
unchanged, and cli_emulator_step on a trap address whose record declares 254 bytes returns -1
with the state unchanged. -/
theorem C14_generic_stdcall (emu : cli_emu_t) (b : Nat) :
    (b ≠ 254 → ∀ w, cli_emu_vmm_read32 emu.mem (emu.reg_val REG_ESP) = some w →
      (hook_generic_stdcall emu b).1 = 0 ∧
      (hook_generic_stdcall emu b).2.eip = w ∧
      (hook_generic_stdcall emu b).2.reg_val REG_ESP
        = (emu.reg_val REG_ESP + 4 + b) % 4294967296 ∧
      (hook_generic_stdcall emu b).2.reg_val REG_EAX = 0 ∧
      (∀ r, r ≠ REG_ESP → r ≠ REG_EAX →
        (hook_generic_stdcall emu b).2.reg_val r = emu.reg_val r) ∧
      (hook_generic_stdcall emu b).2.eflags = emu.eflags ∧
      (hook_generic_stdcall emu b).2.eflags_def = emu.eflags_def ∧
      (hook_generic_stdcall emu b).2.mem = emu.mem) ∧
    (b ≠ 254 → cli_emu_vmm_read32 emu.mem (emu.reg_val REG_ESP) = none →
      (hook_generic_stdcall emu b).1 = -1) ∧
    hook_generic_stdcall emu 254 = (-1, emu) ∧
    (∀ (dec : List Nat → DISASM_RESULT × Nat) (imp : import_description),
      emu.eip ≠ MAPPING_END → cli_emu_vmm_get_import emu.mem emu.eip = some imp →
      imp.bytes = 254 → cli_emulator_step dec emu = (-1, emu)) := by
  refine ⟨?_, ?_, ?_, ?_⟩
  · intro hb w hr
    have hrun : hook_generic_stdcall emu b
        = (0, set_reg_val (set_reg_val
            { set_reg_val emu REG_ESP (u32 (emu.reg_val REG_ESP + 4)) with eip := w } REG_ESP
            (u32 (u32 (emu.reg_val REG_ESP + 4) + b))) REG_EAX 0) := by
      simp [hook_generic_stdcall, hb, mem_pop4 emu emu.eip w hr, set_reg_val]
    rw [hrun]
    refine ⟨rfl, rfl, ?_, ?_, ?_, rfl, rfl, rfl⟩
    · simp [set_reg_val, REG_ESP, REG_EAX]
      unfold u32; omega
    · simp [set_reg_val]
    · intro r h1 h2
      simp [set_reg_val, h1, h2]
  · intro hb hr
    simp [hook_generic_stdcall, hb, mem_pop, hr]
  · simp [hook_generic_stdcall]
  · intro dec imp hend himp hbytes
    unfold cli_emulator_step
    rw [if_neg hend, himp]
    cases hh : imp.handler
    simp [call_handler, hh, hbytes, hook_generic_stdcall]

/-- Witness for C14: the trap with 8 argument bytes, and the varargs trap through the step. -/
theorem C14_generic_stdcall_witness :
    (hook_generic_stdcall (ex_state_trap 8) 8).1 = 0 ∧
    (hook_generic_stdcall (ex_state_trap 8) 8).2.eip = 4660 ∧
    (hook_generic_stdcall (ex_state_trap 8) 8).2.reg_val REG_ESP
      = (32768 + 4 + 8) % 4294967296 ∧
    (hook_generic_stdcall (ex_state_trap 8) 8).2.reg_val REG_EAX = 0 ∧
    cli_emulator_step ex_dec_nop (ex_state_trap 254) = (-1, ex_state_trap 254) :=
  have h := (C14_generic_stdcall (ex_state_trap 8) 8).1 (by decide) 4660 (by decide)
  ⟨h.1, h.2.1, h.2.2.1, h.2.2.2.1,
   (C14_generic_stdcall (ex_state_trap 254) 254).2.2.2 ex_dec_nop ⟨hook_t.generic_stdcall, 254⟩
     (by decide) rfl rfl⟩

/-! ## Effective address and LEA (C15) -/

/-- Frame of `writereg`: flags and memory are not touched. -/
theorem writereg_flags (s : cli_emu_t) (d : desc_t) (v : Nat) :
    (writereg s d v).2.eflags = s.eflags ∧ (writereg s d v).2.eflags_def = s.eflags_def ∧
    (writereg s d v).2.mem = s.mem := by
  unfold writereg
  split_ifs <;> exact ⟨rfl, rfl, rfl⟩

/-- Frame of `mem_write`: flags and registers are not touched. -/
theorem mem_write_flags (s : cli_emu_t) (a : Nat) (sz : DIS_SIZE) (v : Nat) :
    (mem_write s a sz v).2.eflags = s.eflags ∧ (mem_write s a sz v).2.eflags_def = s.eflags_def ∧
    (mem_write s a sz v).2.reg_val = s.reg_val := by
  unfold mem_write
  cases sz <;> dsimp only <;> split <;> exact ⟨rfl, rfl, rfl⟩

/-- Frame of `write_operand`: `eflags` and `eflags_def` are not touched. -/
theorem write_operand_flags (s : cli_emu_t) (a : dis_arg) (v : Nat) :
    (write_operand s a v).2.eflags = s.eflags ∧
    (write_operand s a v).2.eflags_def = s.eflags_def := by
  unfold write_operand
  split_ifs
  · exact ⟨(writereg_flags _ _ _).1, (writereg_flags _ _ _).2.1⟩
  · exact ⟨(mem_write_flags _ _ _ _).1, (mem_write_flags _ _ _ _).2.1⟩

/-- The sentinel view reads as zero. -/
theorem readreg_sentinel (emu : cli_emu_t) (d : desc_t) (h : d.idx = REGIDX_INVALID) :
    readreg emu d = 0 := by
  simp [readreg, h]

/-- Closed form of `calcreg`. -/
theorem calcreg_eq (emu : cli_emu_t) (arg : dis_arg) :
    calcreg emu arg
      = (arg.displacement + readreg emu arg.add_reg + arg.scale * readreg emu arg.scale_reg)
          % 4294967296 := by
  unfold calcreg
  by_cases h : arg.scale_reg.idx = REGIDX_INVALID
  · simp only [h, ne_eq, not_true_eq_false, if_false, readreg_sentinel emu arg.scale_reg h]
    unfold u32; omega
  · simp only [h, ne_eq, not_false_eq_true, if_true]
    unfold u32; omega

/-- C15 (effective address). For every state and operand, calcreg returns
(displacement + readreg add_reg + scale * readreg scale_reg) mod 2^32, where readreg of a
sentinel view is 0 (calcreg is a function of the state and returns no state). emu_lea hands
exactly this value of operand 1 to write_operand on operand 0 and returns its status; with a
32-bit register destination the register holds the value and nothing else changes; eflags and
eflags_def are unchanged for every destination. -/
theorem C15_effective_address (state : cli_emu_t) (arg : dis_arg) (instr : dis_instr) :
    calcreg state arg
      = (arg.displacement + readreg state arg.add_reg + arg.scale * readreg state arg.scale_reg)
          % 4294967296 ∧
    (∀ d : desc_t, d.idx = REGIDX_INVALID → readreg state d = 0) ∧
    emu_lea state instr
      = (if (write_operand state (instr.arg 0)
              (((instr.arg 1).displacement + readreg state (instr.arg 1).add_reg
                + (instr.arg 1).scale * readreg state (instr.arg 1).scale_reg) % 4294967296)).1 < 0
          then -1 else 0,
         (write_operand state (instr.arg 0)
              (((instr.arg 1).displacement + readreg state (instr.arg 1).add_reg
                + (instr.arg 1).scale * readreg state (instr.arg 1).scale_reg)
                  % 4294967296)).2) ∧
    (∀ r, r < 8 → (instr.arg 0).access_size = SIZE_INVALID →
      (instr.arg 0).add_reg = (get_reg (instr.arg 0).add_reg r).2 →
      (emu_lea state instr).1 = 0 ∧
      (emu_lea state instr).2.reg_val r
        = ((instr.arg 1).displacement + readreg state (instr.arg 1).add_reg
            + (instr.arg 1).scale * readreg state (instr.arg 1).scale_reg) % 4294967296 ∧
      (∀ j, j ≠ r → (emu_lea state instr).2.reg_val j = state.reg_val j) ∧
      (emu_lea state instr).2.mem = state.mem) ∧
    (emu_lea state instr).2.eflags = state.eflags ∧
    (emu_lea state instr).2.eflags_def = state.eflags_def := by
  have hl : emu_lea state instr
      = (if (write_operand state (instr.arg 0)
              (((instr.arg 1).displacement + readreg state (instr.arg 1).add_reg
                + (instr.arg 1).scale * readreg state (instr.arg 1).scale_reg) % 4294967296)).1 < 0
          then -1 else 0,
         (write_operand state (instr.arg 0)
              (((instr.arg 1).displacement + readreg state (instr.arg 1).add_reg
                + (instr.arg 1).scale * readreg state (instr.arg 1).scale_reg)
                  % 4294967296)).2) := by
    rw [← calcreg_eq]
    unfold emu_lea
    dsimp only
    split_ifs <;> rfl
  refine ⟨calcreg_eq state arg, fun d hd => readreg_sentinel state d hd, hl, ?_, ?_, ?_⟩
  · intro r hr hsz hreg
    rw [hl]
    rw [get_reg_32 _ r hr] at hreg
    have hne : r ≠ REGIDX_INVALID := by unfold REGIDX_INVALID; omega
    have hw : ∀ v, write_operand state (instr.arg 0) v = (0, set_reg_val state r (u32 v)) := by
      intro v
      unfold write_operand
      rw [if_pos hsz, hreg]
      exact writereg_32 state r 32 32 v hne
    rw [hw]
    refine ⟨by simp, ?_, ?_, rfl⟩
    · simp only [set_reg_val_same]
      unfold u32; omega
    · intro j hj
      exact set_reg_val_other _ _ _ _ hj
  · rw [hl]; exact (write_operand_flags _ _ _).1
  · rw [hl]; exact (write_operand_flags _ _ _).2

/-- Witness for C15: `LEA EAX, [EBX + 4*ECX + 16]` on the example register state. -/
theorem C15_effective_address_witness :
    (emu_lea ex_state_regs ex_instr_lea).1 = 0 ∧
    (emu_lea ex_state_regs ex_instr_lea).2.reg_val REG_EAX
      = (16 + 1145324612 + 4 * 572662306) % 4294967296 :=
  have h := (C15_effective_address ex_state_regs ex_arg0 ex_instr_lea).2.2.2.1 REG_EAX
    (by decide) rfl rfl
  ⟨h.1, h.2.1⟩

/-! ## Relative operands (C16) -/

/-- C16, counterexample. On relative operands as the decoder produces them, read_operand reads
memory at the displacement: with displacement 0x20000 (unmapped) it fails with -1, and with
displacement 16 (mapped, holding 0x5678) it returns 0x5678, not 16. -/
theorem C16_read_operand_rel_counterexample :
    (DisassembleAt_arg (ex_raw_rel32 0 0 2 0) ex_arg0).access_size = SIZE_REL ∧
    (DisassembleAt_arg (ex_raw_rel32 0 0 2 0) ex_arg0).displacement = 131072 ∧
    read_operand ex_state_data (DisassembleAt_arg (ex_raw_rel32 0 0 2 0) ex_arg0)
      = (-1, 131072) ∧
    (DisassembleAt_arg (ex_raw_rel8 16) ex_arg0).access_size = SIZE_REL ∧
    (DisassembleAt_arg (ex_raw_rel8 16) ex_arg0).displacement = 16 ∧
    read_operand ex_state_data (DisassembleAt_arg (ex_raw_rel8 16) ex_arg0) = (0, 22136) := by
  refine ⟨?_, ?_, ?_, ?_, ?_, ?_⟩ <;> decide

/-- C16 (read_operand on a relative operand), amended. For every state and every operand with
access_size REL and sentinel add_reg and scale_reg, calcreg yields the displacement D (mod 2^32)
and read_operand performs the 32-bit VMM read at address D: it returns 0 with the dword read
there, or -1 when the read fails. -/
theorem C16_read_operand_rel (state : cli_emu_t) (arg : dis_arg)
    (hsz : arg.access_size = SIZE_REL)
    (hadd : arg.add_reg.idx = REGIDX_INVALID) (hscale : arg.scale_reg.idx = REGIDX_INVALID) :
    calcreg state arg = arg.displacement % 4294967296 ∧
    read_operand state arg
      = (match cli_emu_vmm_read32 state.mem (arg.displacement % 4294967296) with
         | some x => (0, x)
         | none => (-1, arg.displacement % 4294967296)) := by
  have hc : calcreg state arg = arg.displacement % 4294967296 := by
    simp [calcreg, hscale, readreg, hadd, u32]
  refine ⟨hc, ?_⟩
  unfold read_operand
  simp only [hc, hsz, mem_read]

/-- Witness for C16: the decoded rel8 operand with displacement 16. -/
theorem C16_read_operand_rel_witness :
    calcreg ex_state_data (DisassembleAt_arg (ex_raw_rel8 16) ex_arg0) = 16 % 4294967296 ∧
    read_operand ex_state_data (DisassembleAt_arg (ex_raw_rel8 16) ex_arg0)
      = (match cli_emu_vmm_read32 ex_state_data.mem (16 % 4294967296) with
         | some x => (0, x)
         | none => (-1, 16 % 4294967296)) :=
  C16_read_operand_rel ex_state_data (DisassembleAt_arg (ex_raw_rel8 16) ex_arg0) rfl rfl rfl

/-! ## Writes through register views (C17) -/

/-- The merge of `writereg` keeps the bits outside the mask. -/
theorem merge_keeps_unmasked (old x m : Nat) :
    ((old &&& not32 m) ||| (x &&& m)) &&& not32 m = old &&& not32 m := by
  apply Nat.eq_of_testBit_eq
  intro i
  simp only [Nat.testBit_and, Nat.testBit_or, testBit_not32]
  by_cases h : i < 32 <;> cases m.testBit i <;> simp [h]

/-- The merge of `writereg` sets the bits inside the mask from the new value. -/
theorem merge_sets_masked (old x m : Nat) :
    ((old &&& not32 m) ||| (x &&& m)) &&& m = x &&& m := by
  apply Nat.eq_of_testBit_eq
  intro i
  simp only [Nat.testBit_and, Nat.testBit_or, testBit_not32]
  by_cases h : i < 32 <;> cases m.testBit i <;> simp [h]

/-- C17 (write to a sentinel register). For every state and value and every operand with
access_size INVALID: if the add_reg view has the sentinel cell index, write_operand returns -1 and
the state is unchanged; otherwise it returns 0, the bits of the aliased cell outside the mask are
unchanged, the bits inside the mask are those of the shifted value, and the other cells, eflags,
eflags_def, memory and eip are unchanged. -/
theorem C17_write_sentinel_register (state : cli_emu_t) (arg : dis_arg) (value : Nat)
    (hsz : arg.access_size = SIZE_INVALID) :
    (arg.add_reg.idx = REGIDX_INVALID → write_operand state arg value = (-1, state)) ∧
    (arg.add_reg.idx ≠ REGIDX_INVALID →
      (write_operand state arg value).1 = 0 ∧
      (write_operand state arg value).2.reg_val arg.add_reg.idx &&& not32 arg.add_reg.mask
        = state.reg_val arg.add_reg.idx &&& not32 arg.add_reg.mask ∧
      (write_operand state arg value).2.reg_val arg.add_reg.idx &&& arg.add_reg.mask
        = u32 (value <<< arg.add_reg.shift) &&& arg.add_reg.mask ∧
      (∀ j, j ≠ arg.add_reg.idx →
        (write_operand state arg value).2.reg_val j = state.reg_val j) ∧
      (write_operand state arg value).2.eflags = state.eflags ∧
      (write_operand state arg value).2.eflags_def = state.eflags_def ∧
      (write_operand state arg value).2.mem = state.mem ∧
      (write_operand state arg value).2.eip = state.eip) := by
  constructor
  · intro h
    simp [write_operand, hsz, writereg, h]
  · intro h
    have hw : write_operand state arg value
        = (0, set_reg_val state arg.add_reg.idx
            ((state.reg_val arg.add_reg.idx &&& not32 arg.add_reg.mask) |||
              (u32 (value <<< arg.add_reg.shift) &&& arg.add_reg.mask))) := by
      simp [write_operand, hsz, writereg, h]
    rw [hw]
    refine ⟨rfl, ?_, ?_, fun j hj => set_reg_val_other _ _ _ _ hj, rfl, rfl, rfl, rfl⟩
    · rw [set_reg_val_same]; exact merge_keeps_unmasked _ _ _
    · rw [set_reg_val_same]; exact merge_sets_masked _ _ _

/-- Witness for C17: a write to an absent operand, and a write to AH. -/
theorem C17_write_sentinel_register_witness :
    write_operand ex_state_regs (DisassembleAt_arg ex_raw_none ex_arg0) 7
      = (-1, ex_state_regs) ∧
    (write_operand ex_state_regs (DisassembleAt_arg (ex_raw_reg REG_AH) ex_arg0) 171).1 = 0 ∧
    (write_operand ex_state_regs (DisassembleAt_arg (ex_raw_reg REG_AH) ex_arg0) 171).2.reg_val
        (DisassembleAt_arg (ex_raw_reg REG_AH) ex_arg0).add_reg.idx
      &&& not32 (DisassembleAt_arg (ex_raw_reg REG_AH) ex_arg0).add_reg.mask
      = ex_state_regs.reg_val (DisassembleAt_arg (ex_raw_reg REG_AH) ex_arg0).add_reg.idx
        &&& not32 (DisassembleAt_arg (ex_raw_reg REG_AH) ex_arg0).add_reg.mask :=
  ⟨(C17_write_sentinel_register ex_state_regs (DisassembleAt_arg ex_raw_none ex_arg0) 7 rfl).1
      (by decide),
   ((C17_write_sentinel_register ex_state_regs (DisassembleAt_arg (ex_raw_reg REG_AH) ex_arg0)
      171 rfl).2 (by decide)).1,
   ((C17_write_sentinel_register ex_state_regs (DisassembleAt_arg (ex_raw_reg REG_AH) ex_arg0)
      171 rfl).2 (by decide)).2.1⟩

/-! ## Prefix latches (C18) -/

/-- C19 (SHL by one), failing input. SHL AL, 1 with AL = 0x80, the AL view being the one get_reg
builds: emu_shl returns 0 with AL = 0, CF = 1 and both CF and OF marked defined, but OF = 0
where MSB(dst) XOR CF = 1. The same instruction on the byte at [0x100] = 0x80 (descriptor from
mem_desc) gives OF = 1. -/
theorem C19_shl_al_overflow_flag :
    ((ex_instr_shift OP_SHL (ex_raw_reg REG_AL) (ex_raw_imm8 1)).arg 0).add_reg
      = (get_reg ex_desc0 REG_AL).2 ∧
    read_operand ex_state_al80 ((ex_instr_shift OP_SHL (ex_raw_reg REG_AL) (ex_raw_imm8 1)).arg 0)
      = (0, 128) ∧
    read_operand ex_state_al80 ((ex_instr_shift OP_SHL (ex_raw_reg REG_AL) (ex_raw_imm8 1)).arg 1)
      = (0, 1) ∧
    (emu_shl ex_state_al80 (ex_instr_shift OP_SHL (ex_raw_reg REG_AL) (ex_raw_imm8 1))).1 = 0 ∧
    (emu_shl ex_state_al80 (ex_instr_shift OP_SHL (ex_raw_reg REG_AL) (ex_raw_imm8 1))).2.reg_val
      REG_EAX = 0 ∧
    emu_flags (emu_shl ex_state_al80
      (ex_instr_shift OP_SHL (ex_raw_reg REG_AL) (ex_raw_imm8 1))).2 bit_cf = 1 ∧
    emu_flags (emu_shl ex_state_al80
      (ex_instr_shift OP_SHL (ex_raw_reg REG_AL) (ex_raw_imm8 1))).2 bit_of = 0 ∧
    (emu_shl ex_state_al80 (ex_instr_shift OP_SHL (ex_raw_reg REG_AL) (ex_raw_imm8 1))).2.eflags_def
      &&& ((1 <<< bit_cf) ||| (1 <<< bit_of)) = (1 <<< bit_cf) ||| (1 <<< bit_of) ∧
    (emu_shl ex_state_al80 (ex_instr_shift OP_SHL ex_raw_mem8_256 (ex_raw_imm8 1))).1 = 0 ∧
    cli_emu_vmm_read8 (emu_shl ex_state_al80
      (ex_instr_shift OP_SHL ex_raw_mem8_256 (ex_raw_imm8 1))).2.mem 256 = some 0 ∧
    emu_flags (emu_shl ex_state_al80
      (ex_instr_shift OP_SHL ex_raw_mem8_256 (ex_raw_imm8 1))).2 bit_cf = 1 ∧
    emu_flags (emu_shl ex_state_al80
      (ex_instr_shift OP_SHL ex_raw_mem8_256 (ex_raw_imm8 1))).2 bit_of = 1 := by
  refine ⟨?_, ?_, ?_, ?_, ?_, ?_, ?_, ?_, ?_, ?_, ?_, ?_⟩ <;> decide

/-- C20 (SHR), failing input. SHR AL, 1 with AL = 0x80, the AL view being the one get_reg
builds: emu_shr returns 0 with AL = 0x40, CF = 0 and OF marked defined, but OF = 0 where the old
MSB is 1. The same instruction on the byte at [0x100] = 0x80 (descriptor from mem_desc) gives
OF = 1. -/
theorem C20_shr_al_overflow_flag :
    ((ex_instr_shift OP_SHR (ex_raw_reg REG_AL) (ex_raw_imm8 1)).arg 0).add_reg
      = (get_reg ex_desc0 REG_AL).2 ∧
    read_operand ex_state_al80 ((ex_instr_shift OP_SHR (ex_raw_reg REG_AL) (ex_raw_imm8 1)).arg 0)
      = (0, 128) ∧
    read_operand ex_state_al80 ((ex_instr_shift OP_SHR (ex_raw_reg REG_AL) (ex_raw_imm8 1)).arg 1)
      = (0, 1) ∧
    (emu_shr ex_state_al80 (ex_instr_shift OP_SHR (ex_raw_reg REG_AL) (ex_raw_imm8 1))).1 = 0 ∧
    (emu_shr ex_state_al80 (ex_instr_shift OP_SHR (ex_raw_reg REG_AL) (ex_raw_imm8 1))).2.reg_val
      REG_EAX = 64 ∧
    emu_flags (emu_shr ex_state_al80
      (ex_instr_shift OP_SHR (ex_raw_reg REG_AL) (ex_raw_imm8 1))).2 bit_cf = 0 ∧
    emu_flags (emu_shr ex_state_al80
      (ex_instr_shift OP_SHR (ex_raw_reg REG_AL) (ex_raw_imm8 1))).2 bit_of = 0 ∧
    (emu_shr ex_state_al80 (ex_instr_shift OP_SHR (ex_raw_reg REG_AL) (ex_raw_imm8 1))).2.eflags_def
      &&& (1 <<< bit_of) = 1 <<< bit_of ∧
    (emu_shr ex_state_al80 (ex_instr_shift OP_SHR ex_raw_mem8_256 (ex_raw_imm8 1))).1 = 0 ∧
    cli_emu_vmm_read8 (emu_shr ex_state_al80
      (ex_instr_shift OP_SHR ex_raw_mem8_256 (ex_raw_imm8 1))).2.mem 256 = some 64 ∧
    emu_flags (emu_shr ex_state_al80
      (ex_instr_shift OP_SHR ex_raw_mem8_256 (ex_raw_imm8 1))).2 bit_of = 1 := by
  refine ⟨?_, ?_, ?_, ?_, ?_, ?_, ?_, ?_, ?_, ?_, ?_⟩ <;> decide

/-- Bit 11 of the flag word `emu_shl` builds when the computed OF is 0. -/
theorem of_bit_clear (fl cf : Nat) :
    ((((fl &&& not32 ((1 <<< bit_cf) ||| (1 <<< bit_of))) ||| ((cf &&& 1) <<< bit_cf))
      ||| (0 <<< bit_of)) >>> bit_of) &&& 1 = 0 := by
  apply Nat.eq_of_testBit_eq
  intro i
  simp only [Nat.testBit_and, Nat.testBit_shiftRight, Nat.testBit_or, testBit_not32,
    Nat.zero_shiftLeft, Nat.zero_testBit, Nat.testBit_shiftLeft, bit_cf, bit_of]
  rcases i with _ | i
  · simp
    intro _
    decide
  · simp [Nat.testBit_one_eq_true_iff_self_eq_zero]

/-- With a register destination whose view has sign_bit = carry_bit (every view get_reg
builds) and a count of one, emu_shl leaves OF = 0 whatever the operand. -/
theorem emu_shl_reg_of_clear (state : cli_emu_t) (instr : dis_instr)
    (hsz : (instr.arg 0).access_size = SIZE_INVALID)
    (hsign : (instr.arg 0).add_reg.sign_bit = (instr.arg 0).add_reg.carry_bit)
    (h2 : (read_operand state (instr.arg 1)).1 = 0)
    (hc : (read_operand state (instr.arg 1)).2 &&& 31 = 1) :
    emu_flags (emu_shl state instr).2 bit_of = 0 := by
  have h1 : ¬ (read_operand state (instr.arg 0)).1 < 0 := by
    simp [read_operand, mem_read, hsz]
  have h2n : ¬ (read_operand state (instr.arg 1)).1 < 0 := by rw [h2]; decide
  unfold emu_shl
  simp only [h1, h2n, if_false, hc, dst_desc, hsz, if_true, hsign, Nat.xor_self,
    one_ne_zero]
  split_ifs <;>
  · unfold emu_flags
    simp only [(write_operand_flags _ _ _).1, shift_flags, if_true]
    split_ifs <;> exact of_bit_clear _ _

/-! ## Bits of the flag words -/

/-- The C expression `(x >> k) & 1` is the bit `k` of `x`. -/
theorem shr_and_one (x k : Nat) : (x >>> k) &&& 1 = if x.testBit k then 1 else 0 := by
  rw [Nat.and_one_is_mod, Nat.shiftRight_eq_div_pow]
  by_cases h : x.testBit k
  · rw [if_pos h]
    rw [Nat.testBit_to_div_mod] at h
    simpa using h
  · rw [if_neg h]
    rw [Nat.testBit_to_div_mod] at h
    have := Nat.mod_two_eq_zero_or_one (x / 2 ^ k)
    rcases this with h0 | h1
    · exact h0
    · exfalso; apply h; simp [h1]

/-- Bits of `1 << k`. -/
theorem testBit_one_shl (k i : Nat) : (1 <<< k).testBit i = decide (i = k) := by
  rw [Nat.one_shiftLeft, Nat.testBit_two_pow]
  by_cases h : i = k
  · simp [h]
  · have : ¬ k = i := fun e => h e.symm
    simp [h, this]

/-- Bits of a flag word after `put_flag`. -/
theorem testBit_put_flag (w bit b i : Nat) :
    (put_flag w bit b).testBit i
      = if i = bit then b.testBit 0 else (decide (i < 32) && w.testBit i) := by
  unfold put_flag
  rw [Nat.testBit_or, Nat.testBit_and, testBit_not32, testBit_one_shl, Nat.testBit_shiftLeft,
    Nat.testBit_and]
  by_cases h : i = bit
  · subst h
    simp
  · simp only [h, decide_False, Bool.not_false, Bool.and_true, if_false]
    by_cases hb : bit ≤ i
    · have hne : i - bit ≠ 0 := by omega
      have h1 : Nat.testBit 1 (i - bit) = false := by
        cases hh : Nat.testBit 1 (i - bit)
        · rfl
        · exact absurd (Nat.testBit_one_eq_true_iff_self_eq_zero.mp hh) hne
      simp [hb, h1, Bool.and_comm]
    · simp [hb, Bool.and_comm]

/-- Function `emu_flags` reads one bit. -/
theorem emu_flags_eq (s : cli_emu_t) (bit : Nat) :
    emu_flags s bit = if s.eflags.testBit bit then 1 else 0 := by
  unfold emu_flags
  exact shr_and_one _ _

/-! ## Rotates, register descriptors, INC and DEC (C21, C27, C28, C30) -/

/-- C21 (ROL/ROR result), failing input. ROL AX, 1 with AX = 0x8000 leaves AX = 0x0002 and
CF = 0 where the 16-bit rotation is 0x0001 with CF = 1; ROR AX, 1 with AX = 0x0001 leaves
AX = 0x4000 and CF = 0 where the rotation is 0x8000 with CF = 1; the same values appear for the
word at [EBX]. The value rotated in the 16-bit arm is rotated again by the 32-bit arm. The 8-bit
and 32-bit rotations of 0x80 and 0x80000000 by one give 1 with CF = 1. -/
theorem C21_rotate_word_runs_into_dword_arm :
    (emu_rol (ex_state_eax 32768) (ex_instr_shift OP_ROL (ex_raw_reg REG_AX) (ex_raw_imm8 1))).1 = 0 ∧
    (emu_rol (ex_state_eax 32768)
      (ex_instr_shift OP_ROL (ex_raw_reg REG_AX) (ex_raw_imm8 1))).2.reg_val REG_EAX = 2 ∧
    emu_flags (emu_rol (ex_state_eax 32768)
      (ex_instr_shift OP_ROL (ex_raw_reg REG_AX) (ex_raw_imm8 1))).2 bit_cf = 0 ∧
    (emu_ror (ex_state_eax 1) (ex_instr_shift OP_ROR (ex_raw_reg REG_AX) (ex_raw_imm8 1))).1 = 0 ∧
    (emu_ror (ex_state_eax 1)
      (ex_instr_shift OP_ROR (ex_raw_reg REG_AX) (ex_raw_imm8 1))).2.reg_val REG_EAX = 16384 ∧
    emu_flags (emu_ror (ex_state_eax 1)
      (ex_instr_shift OP_ROR (ex_raw_reg REG_AX) (ex_raw_imm8 1))).2 bit_cf = 0 ∧
    cli_emu_vmm_read16 (ex_state_eax 32768).mem 256 = some 32768 ∧
    cli_emu_vmm_read16 (emu_rol (ex_state_eax 32768)
      (ex_instr_shift OP_ROL (ex_raw_mem 1 REG_EBX 0) (ex_raw_imm8 1))).2.mem 256 = some 2 ∧
    cli_emu_vmm_read16 (emu_ror (ex_state_eax 1)
      (ex_instr_shift OP_ROR (ex_raw_mem 1 REG_EBX 0) (ex_raw_imm8 1))).2.mem 256 = some 16384 ∧
    (emu_rol (ex_state_eax 128)
      (ex_instr_shift OP_ROL (ex_raw_reg REG_AL) (ex_raw_imm8 1))).2.reg_val REG_EAX = 1 ∧
    emu_flags (emu_rol (ex_state_eax 128)
      (ex_instr_shift OP_ROL (ex_raw_reg REG_AL) (ex_raw_imm8 1))).2 bit_cf = 1 ∧
    (emu_rol (ex_state_eax 2147483648)
      (ex_instr_shift OP_ROL (ex_raw_reg REG_EAX) (ex_raw_imm8 1))).2.reg_val REG_EAX = 1 ∧
    emu_flags (emu_rol (ex_state_eax 2147483648)
      (ex_instr_shift OP_ROL (ex_raw_reg REG_EAX) (ex_raw_imm8 1))).2 bit_cf = 1 := by
  refine ⟨?_, ?_, ?_, ?_, ?_, ?_, ?_, ?_, ?_, ?_, ?_, ?_, ?_⟩ <;> decide

/-- C30 (OF defined bit after rotates), failing input. ROL EAX, 33 and ROR EAX, 33 with
EAX = 1 rotate by one (masked count 1) yet leave the OF bit of eflags_def clear: the test for a
count of one is made on the count before it is masked. ROL EAX, 1 sets the bit, and so does
SHL EAX, 33, where the test follows the mask. -/
theorem C30_rotate_count_33_of_undefined :
    read_operand (ex_state_eax 1)
      ((ex_instr_shift OP_ROL (ex_raw_reg REG_EAX) (ex_raw_imm8 33)).arg 1) = (0, 33) ∧
    (emu_rol (ex_state_eax 1) (ex_instr_shift OP_ROL (ex_raw_reg REG_EAX) (ex_raw_imm8 33))).1 = 0 ∧
    (emu_rol (ex_state_eax 1)
      (ex_instr_shift OP_ROL (ex_raw_reg REG_EAX) (ex_raw_imm8 33))).2.reg_val REG_EAX = 2 ∧
    ((emu_rol (ex_state_eax 1)
      (ex_instr_shift OP_ROL (ex_raw_reg REG_EAX) (ex_raw_imm8 33))).2.eflags_def >>> bit_of)
        &&& 1 = 0 ∧
    ((emu_ror (ex_state_eax 1)
      (ex_instr_shift OP_ROR (ex_raw_reg REG_EAX) (ex_raw_imm8 33))).2.eflags_def >>> bit_of)
        &&& 1 = 0 ∧
    (emu_ror (ex_state_eax 1)
      (ex_instr_shift OP_ROR (ex_raw_reg REG_EAX) (ex_raw_imm8 33))).2.reg_val REG_EAX
        = 2147483648 ∧
    ((emu_rol (ex_state_eax 1)
      (ex_instr_shift OP_ROL (ex_raw_reg REG_EAX) (ex_raw_imm8 1))).2.eflags_def >>> bit_of)
        &&& 1 = 1 ∧
    ((emu_shl (ex_state_eax 1)
      (ex_instr_shift OP_SHL (ex_raw_reg REG_EAX) (ex_raw_imm8 33))).2.eflags_def >>> bit_of)
        &&& 1 = 1 := by
  refine ⟨?_, ?_, ?_, ?_, ?_, ?_, ?_, ?_⟩ <;> decide

/-- For every register of the table, `get_reg` makes `sign_bit` equal to `carry_bit`. -/
theorem get_reg_sign_is_carry (d : desc_t) (reg : Nat) (h : reg < MAXREG) :
    (get_reg d reg).2.sign_bit = (get_reg d reg).2.carry_bit := by
  have h1 : ¬ reg ≥ MAXREG := by omega
  simp [get_reg, h1]

/-- C27 (register view descriptor), failing input. The views get_reg builds for EAX, AX, AH
and AL have mask, shift, cell index and carry_bit as in reg_masks, but sign_bit 32, 16, 8 and 8:
the carry_bit itself, not carry_bit - 1 as in mem_desc. For REG_INVALID get_reg returns 0 with
the sentinel cell index. -/
theorem C27_get_reg_sign_bit :
    get_reg ex_desc0 REG_EAX = (0, ⟨4294967295, 0, 0, 32, 32⟩) ∧
    get_reg ex_desc0 REG_AX = (0, ⟨65535, 0, 0, 16, 16⟩) ∧
    get_reg ex_desc0 REG_AH = (0, ⟨65280, 8, 0, 8, 8⟩) ∧
    get_reg ex_desc0 REG_AL = (0, ⟨255, 0, 0, 8, 8⟩) ∧
    (get_reg ex_desc0 REG_EAX).2.sign_bit ≠ (get_reg ex_desc0 REG_EAX).2.carry_bit - 1 ∧
    (mem_desc SIZED).sign_bit = (mem_desc SIZED).carry_bit - 1 ∧
    (get_reg ex_desc0 REG_INVALID).1 = 0 ∧
    (get_reg ex_desc0 REG_INVALID).2.idx = REGIDX_INVALID := by
  refine ⟨?_, ?_, ?_, ?_, ?_, ?_, ?_, ?_⟩ <;> decide

/-- C28 (flag descriptor of INC/DEC on memory), failing input. INC byte [EBX] on the byte
0xFF stores 0x00 and leaves ZF = 0, where calc_flags_inc under mem_desc of SIZEB gives ZF = 1;
DEC byte [EBX + 1] on the byte 0x80 stores 0x7F and leaves OF = 0, where calc_flags_dec under
mem_desc of SIZEB gives OF = 1. The flags are those of the calculator under the view of the
base register EBX. -/
theorem C28_inc_dec_memory_descriptor :
    ((ex_instr_unary OP_INC (ex_raw_mem 0 REG_EBX 0)).arg 0).access_size = SIZEB ∧
    ((ex_instr_unary OP_INC (ex_raw_mem 0 REG_EBX 0)).arg 0).add_reg
      = (get_reg ex_desc0 REG_EBX).2 ∧
    (emu_inc ex_state_bytes (ex_instr_unary OP_INC (ex_raw_mem 0 REG_EBX 0))).1 = 0 ∧
    cli_emu_vmm_read8 (emu_inc ex_state_bytes
      (ex_instr_unary OP_INC (ex_raw_mem 0 REG_EBX 0))).2.mem 256 = some 0 ∧
    emu_flags (emu_inc ex_state_bytes (ex_instr_unary OP_INC (ex_raw_mem 0 REG_EBX 0))).2 bit_zf
      = 0 ∧
    emu_flags (calc_flags_inc ex_state_bytes 256 (mem_desc SIZEB)) bit_zf = 1 ∧
    (emu_dec ex_state_bytes (ex_instr_unary OP_DEC (ex_raw_mem 0 REG_EBX 1))).1 = 0 ∧
    cli_emu_vmm_read8 (emu_dec ex_state_bytes
      (ex_instr_unary OP_DEC (ex_raw_mem 0 REG_EBX 1))).2.mem 257 = some 127 ∧
    emu_flags (emu_dec ex_state_bytes (ex_instr_unary OP_DEC (ex_raw_mem 0 REG_EBX 1))).2 bit_of
      = 0 ∧
    emu_flags (calc_flags_dec ex_state_bytes 127 (mem_desc SIZEB)) bit_of = 1 ∧
    (emu_inc ex_state_bytes (ex_instr_unary OP_INC (ex_raw_mem 0 REG_EBX 0))).2.eflags
      = (calc_flags_inc ex_state_bytes 256 (get_reg ex_desc0 REG_EBX).2).eflags := by
  refine ⟨?_, ?_, ?_, ?_, ?_, ?_, ?_, ?_, ?_, ?_, ?_⟩ <;> decide

/-! ## REPNE on LODS, STOS and MOVS (C25) -/

/-- C25 (no ZF short-circuit for LODS/STOS/MOVS), failing input. With the REPNE latch set and
ECX = 2, MOVSB, STOSB and LODSB run one iteration and leave ECX = 1 when ZF = 1, and run two
iterations and leave ECX = 0 when ZF = 0. With the REPE latch set instead, MOVSB runs two
iterations whatever ZF is. -/
theorem C25_repne_stops_on_zf :
    (emu_movsx (ex_state_repne 64) ex_instr0 SIZEB 1).1 = 0 ∧
    (emu_movsx (ex_state_repne 64) ex_instr0 SIZEB 1).2.reg_val REG_ECX = 1 ∧
    (emu_movsx (ex_state_repne 64) ex_instr0 SIZEB 1).2.reg_val REG_ESI = 257 ∧
    (emu_movsx (ex_state_repne 0) ex_instr0 SIZEB 1).1 = 0 ∧
    (emu_movsx (ex_state_repne 0) ex_instr0 SIZEB 1).2.reg_val REG_ECX = 0 ∧
    (emu_movsx (ex_state_repne 0) ex_instr0 SIZEB 1).2.reg_val REG_ESI = 258 ∧
    (emu_stosx (ex_state_repne 64) ex_instr0 SIZEB REG_AL 1).2.reg_val REG_ECX = 1 ∧
    (emu_stosx (ex_state_repne 0) ex_instr0 SIZEB REG_AL 1).2.reg_val REG_ECX = 0 ∧
    (emu_lodsx (ex_state_repne 64) ex_instr0 SIZEB REG_AL 1).2.reg_val REG_ECX = 1 ∧
    (emu_lodsx (ex_state_repne 0) ex_instr0 SIZEB REG_AL 1).2.reg_val REG_ECX = 0 ∧
    (emu_movsx { ex_state_repne 64 with prefix_repe := 1, prefix_repne := 0 }
      ex_instr0 SIZEB 1).2.reg_val REG_ECX = 0 ∧
    (emu_movsx { ex_state_repne 0 with prefix_repe := 1, prefix_repne := 0 }
      ex_instr0 SIZEB 1).2.reg_val REG_ECX = 0 := by
  refine ⟨?_, ?_, ?_, ?_, ?_, ?_, ?_, ?_, ?_, ?_, ?_, ?_⟩ <;> decide

/-! ## CMP against SUB (C24) -/

/-- C24 (CMP discards the result). For every state and operand pair whose reads succeed,
emu_cmp returns 0 and leaves the registers and the memory unchanged; its eflags and eflags_def
are those emu_sub produces from the same state and operands; and the state emu_sub leaves is the
state of emu_cmp with the difference (first operand minus second, modulo 2^32) written to
operand 0 by write_operand. -/
theorem C24_cmp_discards_result (state : cli_emu_t) (instr : dis_instr)
    (h1 : (read_operand state (instr.arg 0)).1 = 0)
    (h2 : (read_operand state (instr.arg 1)).1 = 0) :
    (emu_cmp state instr).1 = 0 ∧
    (emu_cmp state instr).2.reg_val = state.reg_val ∧
    (emu_cmp state instr).2.mem = state.mem ∧
    (emu_cmp state instr).2.eflags = (emu_sub state instr).2.eflags ∧
    (emu_cmp state instr).2.eflags_def = (emu_sub state instr).2.eflags_def ∧
    (emu_sub state instr).2
      = (write_operand (emu_cmp state instr).2 (instr.arg 0)
          (((read_operand state (instr.arg 0)).2 + 4294967296
            - (read_operand state (instr.arg 1)).2 % 4294967296) % 4294967296)).2 := by
  have n1 : ¬ (read_operand state (instr.arg 0)).1 < 0 := by rw [h1]; decide
  have n2 : ¬ (read_operand state (instr.arg 1)).1 < 0 := by rw [h2]; decide
  have hc : emu_cmp state instr
      = (0, calc_flags_addsub state (read_operand state (instr.arg 0)).2
          (read_operand state (instr.arg 1)).2 (dst_desc instr) 1) := by
    simp only [emu_cmp, n1, n2, if_false]
  have hs : (emu_sub state instr).2
      = (write_operand (calc_flags_addsub state (read_operand state (instr.arg 0)).2
          (read_operand state (instr.arg 1)).2 (dst_desc instr) 1) (instr.arg 0)
          (((read_operand state (instr.arg 0)).2 + 4294967296
            - (read_operand state (instr.arg 1)).2 % 4294967296) % 4294967296)).2 := by
    simp only [emu_sub, n1, n2, if_false, u32]
    split_ifs <;> rfl
  rw [hc, hs]
  refine ⟨rfl, rfl, rfl, ?_, ?_, rfl⟩
  · exact ((write_operand_flags _ _ _).1).symm
  · exact ((write_operand_flags _ _ _).2).symm

/-- Witness for C24: CMP EAX, EBX against SUB EAX, EBX on the example register state. -/
theorem C24_cmp_discards_result_witness :
    (emu_cmp ex_state_regs (ex_instr_shift OP_CMP (ex_raw_reg REG_EAX) (ex_raw_reg REG_EBX))).1
      = 0 ∧
    (emu_cmp ex_state_regs
      (ex_instr_shift OP_CMP (ex_raw_reg REG_EAX) (ex_raw_reg REG_EBX))).2.reg_val
      = ex_state_regs.reg_val ∧
    (emu_cmp ex_state_regs
      (ex_instr_shift OP_CMP (ex_raw_reg REG_EAX) (ex_raw_reg REG_EBX))).2.eflags
      = (emu_sub ex_state_regs
          (ex_instr_shift OP_CMP (ex_raw_reg REG_EAX) (ex_raw_reg REG_EBX))).2.eflags :=
  have h := C24_cmp_discards_result ex_state_regs
    (ex_instr_shift OP_CMP (ex_raw_reg REG_EAX) (ex_raw_reg REG_EBX)) (by decide) (by decide)
  ⟨h.1, h.2.1, h.2.2.2.1⟩

/-! ## XOR of a register with itself (C23) -/

/-- The defined mask `calc_flags_test` leaves has ZF, SF, PF, CF and OF set. -/
theorem defined_after_test (d : Nat) (i : Nat)
    (hi : i = bit_zf ∨ i = bit_sf ∨ i = bit_pf ∨ i = bit_cf ∨ i = bit_of) :
    (((d ||| ((1 <<< bit_zf) ||| (1 <<< bit_sf) ||| (1 <<< bit_pf) ||| (1 <<< bit_cf)
        ||| (1 <<< bit_of))) &&& not32 (1 <<< bit_af)) >>> i) &&& 1 = 1 := by
  rw [shr_and_one]
  simp only [Nat.testBit_and, Nat.testBit_or, testBit_not32, testBit_one_shl]
  rcases hi with h | h | h | h | h <;> subst h <;> simp [bit_zf, bit_sf, bit_pf, bit_cf, bit_of, bit_af]

/-- Reading the flag `put_flag` has just stored. -/
theorem flag_put_same (w bit b : Nat) : ((put_flag w bit b) >>> bit) &&& 1 = b &&& 1 := by
  rw [shr_and_one, testBit_put_flag, if_pos rfl]
  have h := shr_and_one b 0
  rw [Nat.shiftRight_zero] at h
  exact h.symm

/-- Reading another flag after `put_flag`. -/
theorem flag_put_other (w bit b k : Nat) (h : k ≠ bit) (hk : k < 32) :
    ((put_flag w bit b) >>> k) &&& 1 = (w >>> k) &&& 1 := by
  rw [shr_and_one, shr_and_one, testBit_put_flag, if_neg h]
  simp [hk]

/-- Reading a 32-bit register operand as the decoder builds it. -/
theorem read_operand_reg32 (state : cli_emu_t) (a : dis_arg) (d : desc_t) (r : Nat) (hr : r < 8)
    (hsz : a.access_size = SIZE_INVALID) (hreg : a.add_reg = (get_reg d r).2)
    (hsc : a.scale_reg.idx = REGIDX_INVALID) (hd : a.displacement = 0) :
    read_operand state a = (0, u32 (state.reg_val r)) := by
  have hne : r ≠ REGIDX_INVALID := by unfold REGIDX_INVALID; omega
  rw [get_reg_32 _ r hr] at hreg
  simp only [read_operand, calcreg, hsc, hd, hreg, mem_read, hsz, readreg, hne, ne_eq,
    not_true_eq_false, not_false_eq_true, if_true, if_false, and_mask32, Nat.shiftRight_zero,
    Nat.zero_add]
  congr 1
  unfold u32; omega

/-- C23 (XOR r, r). For every state and every 32-bit register r, with both operands the
register operand r as the decoder builds it, emu_xor returns 0, sets r to 0, leaves the other
registers and the memory unchanged, and yields ZF = 1, SF = 0, PF = 1, CF = 0, OF = 0 with the
ZF, SF, PF, CF and OF bits of eflags_def set: the flags calc_flags_test computes on the result 0
under the view of r. -/
theorem C23_xor_self (state : cli_emu_t) (instr : dis_instr) (r : Nat) (d0 d1 : desc_t)
    (hr : r < 8)
    (h0 : (instr.arg 0).access_size = SIZE_INVALID)
    (h0r : (instr.arg 0).add_reg = (get_reg d0 r).2)
    (h0s : (instr.arg 0).scale_reg.idx = REGIDX_INVALID)
    (h0d : (instr.arg 0).displacement = 0)
    (h1 : (instr.arg 1).access_size = SIZE_INVALID)
    (h1r : (instr.arg 1).add_reg = (get_reg d1 r).2)
    (h1s : (instr.arg 1).scale_reg.idx = REGIDX_INVALID)
    (h1d : (instr.arg 1).displacement = 0) :
    (emu_xor state instr).1 = 0 ∧
    (emu_xor state instr).2.reg_val r = 0 ∧
    (∀ j, j ≠ r → (emu_xor state instr).2.reg_val j = state.reg_val j) ∧
    (emu_xor state instr).2.mem = state.mem ∧
    emu_flags (emu_xor state instr).2 bit_zf = 1 ∧
    emu_flags (emu_xor state instr).2 bit_sf = 0 ∧
    emu_flags (emu_xor state instr).2 bit_pf = 1 ∧
    emu_flags (emu_xor state instr).2 bit_cf = 0 ∧
    emu_flags (emu_xor state instr).2 bit_of = 0 ∧
    (∀ i, i = bit_zf ∨ i = bit_sf ∨ i = bit_pf ∨ i = bit_cf ∨ i = bit_of →
      ((emu_xor state instr).2.eflags_def >>> i) &&& 1 = 1) ∧
    (emu_xor state instr).2.eflags
      = (calc_flags_test state 0 (get_reg d0 r).2).eflags ∧
    (emu_xor state instr).2.eflags_def
      = (calc_flags_test state 0 (get_reg d0 r).2).eflags_def := by
  have hne : r ≠ REGIDX_INVALID := by unfold REGIDX_INVALID; omega
  have e0 := read_operand_reg32 state (instr.arg 0) d0 r hr h0 h0r h0s h0d
  have e1 := read_operand_reg32 state (instr.arg 1) d1 r hr h1 h1r h1s h1d
  have hd : dst_desc instr = (get_reg d0 r).2 := by simp [dst_desc, h0, h0r]
  have hw : ∀ s v, write_operand s (instr.arg 0) v = (0, set_reg_val s r (u32 v)) := by
    intro s v
    unfold write_operand
    rw [if_pos h0, h0r, get_reg_32 _ r hr]
    exact writereg_32 s r 32 32 v hne
  have hx : emu_xor state instr
      = (0, set_reg_val (calc_flags_test state 0 (get_reg d0 r).2) r 0) := by
    simp only [emu_xor, e0, e1, hd, Nat.xor_self, hw]
    rfl
  rw [hx]
  have hpar : parity_even 0 = 1 := by decide
  refine ⟨rfl, set_reg_val_same _ _ _, fun j hj => set_reg_val_other _ _ _ _ hj, rfl,
    ?_, ?_, ?_, ?_, ?_, ?_, rfl, rfl⟩
  · show ((calc_flags_test state 0 (get_reg d0 r).2).eflags >>> bit_zf) &&& 1 = 1
    unfold calc_flags_test
    dsimp only
    rw [flag_put_other _ _ _ _ (by decide) (by decide),
      flag_put_other _ _ _ _ (by decide) (by decide),
      flag_put_other _ _ _ _ (by decide) (by decide),
      flag_put_other _ _ _ _ (by decide) (by decide), flag_put_same]
    simp [b2n]
  · show ((calc_flags_test state 0 (get_reg d0 r).2).eflags >>> bit_sf) &&& 1 = 0
    unfold calc_flags_test
    dsimp only
    rw [flag_put_other _ _ _ _ (by decide) (by decide),
      flag_put_other _ _ _ _ (by decide) (by decide),
      flag_put_other _ _ _ _ (by decide) (by decide), flag_put_same]
    simp
  · show ((calc_flags_test state 0 (get_reg d0 r).2).eflags >>> bit_pf) &&& 1 = 1
    unfold calc_flags_test
    dsimp only
    rw [flag_put_other _ _ _ _ (by decide) (by decide),
      flag_put_other _ _ _ _ (by decide) (by decide), flag_put_same, hpar]
    rfl
  · show ((calc_flags_test state 0 (get_reg d0 r).2).eflags >>> bit_cf) &&& 1 = 0
    unfold calc_flags_test
    dsimp only
    rw [flag_put_other _ _ _ _ (by decide) (by decide), flag_put_same]
    rfl
  · show ((calc_flags_test state 0 (get_reg d0 r).2).eflags >>> bit_of) &&& 1 = 0
    unfold calc_flags_test
    dsimp only
    rw [flag_put_same]
    rfl
  · intro i hi
    exact defined_after_test state.eflags_def i hi

/-- Witness for C23: XOR EAX, EAX on the example register state. -/
theorem C23_xor_self_witness :
    (emu_xor ex_state_regs (ex_instr_shift OP_XOR (ex_raw_reg REG_EAX) (ex_raw_reg REG_EAX))).1
      = 0 ∧
    (emu_xor ex_state_regs
      (ex_instr_shift OP_XOR (ex_raw_reg REG_EAX) (ex_raw_reg REG_EAX))).2.reg_val REG_EAX = 0 ∧
    emu_flags (emu_xor ex_state_regs
      (ex_instr_shift OP_XOR (ex_raw_reg REG_EAX) (ex_raw_reg REG_EAX))).2 bit_zf = 1 ∧
    emu_flags (emu_xor ex_state_regs
      (ex_instr_shift OP_XOR (ex_raw_reg REG_EAX) (ex_raw_reg REG_EAX))).2 bit_pf = 1 :=
  have h := C23_xor_self ex_state_regs
    (ex_instr_shift OP_XOR (ex_raw_reg REG_EAX) (ex_raw_reg REG_EAX)) REG_EAX ex_desc0 ex_desc0
    (by decide) rfl rfl rfl rfl rfl rfl rfl rfl
  ⟨h.1, h.2.1, h.2.2.2.2.1, h.2.2.2.2.2.2.1⟩

/-! ## Defined mask after SHL (C22) -/

/-- Bits of the defined mask after the flag update of the shift handlers. -/
theorem testBit_shift_flags_def (state : cli_emu_t) (reg2 cf o : Nat) (ls : Bool) (i : Nat) :
    (shift_flags state reg2 cf o ls).eflags_def.testBit i
      = if i = bit_cf then !ls
        else if i = bit_of then decide (reg2 = 1)
        else if reg2 = 1 ∧ ls = false then state.eflags_def.testBit i
        else (decide (i < 32) && state.eflags_def.testBit i) := by
  have key : ∀ b : Bool, decide (i < 32) = b →
      (shift_flags state reg2 cf o ls).eflags_def.testBit i
        = if i = bit_cf then !ls
          else if i = bit_of then decide (reg2 = 1)
          else if reg2 = 1 ∧ ls = false then state.eflags_def.testBit i
          else (b && state.eflags_def.testBit i) := by
    intro b hb
    have e1 : bit_cf < 32 := by decide
    have e2 : bit_of < 32 := by decide
    have e3 : bit_cf ≠ bit_of := by decide
    have e4 : bit_of ≠ bit_cf := by decide
    unfold shift_flags
    by_cases h1 : reg2 = 1 <;> cases ls <;>
      simp only [h1, if_true, if_false, Bool.false_eq_true, Nat.testBit_and, Nat.testBit_or,
        testBit_not32, testBit_one_shl, true_and, and_true, and_false, Bool.not_false,
        Bool.not_true, hb] <;>
      by_cases hc : i = bit_cf <;>
      by_cases ho : i = bit_of <;>
      cases b <;>
      simp_all
  exact key _ rfl

/-- The defined mask after a shift does not depend on the flag values stored. -/
theorem shift_flags_def_indep (state : cli_emu_t) (reg2 cf o : Nat) (ls : Bool) :
    (shift_flags state reg2 cf o ls).eflags_def = (shift_flags state reg2 0 0 ls).eflags_def := by
  unfold shift_flags
  by_cases h1 : reg2 = 1 <;> cases ls <;> simp [h1]

/-- The defined mask `emu_shl` leaves when both reads succeed and the masked count is not 0. -/
theorem emu_shl_def (state : cli_emu_t) (instr : dis_instr)
    (h1 : (read_operand state (instr.arg 0)).1 = 0)
    (h2 : (read_operand state (instr.arg 1)).1 = 0)
    (hc : (read_operand state (instr.arg 1)).2 &&& 31 ≠ 0) :
    (emu_shl state instr).2.eflags_def
      = (shift_flags state ((read_operand state (instr.arg 1)).2 &&& 31) 0 0
          (decide (s32 (read_operand state (instr.arg 1)).2
            ≥ ((dst_desc instr).carry_bit : Int)))).eflags_def := by
  have n1 : ¬ (read_operand state (instr.arg 0)).1 < 0 := by rw [h1]; decide
  have n2 : ¬ (read_operand state (instr.arg 1)).1 < 0 := by rw [h2]; decide
  unfold emu_shl
  simp only [n1, n2, if_false, hc]
  split_ifs <;>
  · show (write_operand _ _ _).2.eflags_def = _
    rw [(write_operand_flags _ _ _).2]
    exact shift_flags_def_indep _ _ _ _ _

/-- Defined mask after SHL, on the count as the handler compares it. For every state whose
eflags_def is a 32-bit word and every SHL whose operand reads succeed, with c the count
masked to 5 bits and w the carry_bit of the destination descriptor: if c = 0 the state is
unchanged; if c >= 2 the OF bit of eflags_def is clear (if c = 1 it is set); if c is not 0,
the CF bit of eflags_def is set when the count, as the signed 32-bit value the handler
compares, is below w and clear when it is at least w; and every bit of eflags_def other than
CF and OF is as before. -/
theorem shl_defined_mask (state : cli_emu_t) (instr : dis_instr)
    (h1 : (read_operand state (instr.arg 0)).1 = 0)
    (h2 : (read_operand state (instr.arg 1)).1 = 0)
    (hdef : state.eflags_def < 4294967296) :
    ((read_operand state (instr.arg 1)).2 &&& 31 = 0 → emu_shl state instr = (0, state)) ∧
    (2 ≤ (read_operand state (instr.arg 1)).2 &&& 31 →
      ((emu_shl state instr).2.eflags_def >>> bit_of) &&& 1 = 0) ∧
    ((read_operand state (instr.arg 1)).2 &&& 31 = 1 →
      ((emu_shl state instr).2.eflags_def >>> bit_of) &&& 1 = 1) ∧
    ((read_operand state (instr.arg 1)).2 &&& 31 ≠ 0 →
      s32 (read_operand state (instr.arg 1)).2 < ((dst_desc instr).carry_bit : Int) →
      ((emu_shl state instr).2.eflags_def >>> bit_cf) &&& 1 = 1) ∧
    ((read_operand state (instr.arg 1)).2 &&& 31 ≠ 0 →
      s32 (read_operand state (instr.arg 1)).2 ≥ ((dst_desc instr).carry_bit : Int) →
      ((emu_shl state instr).2.eflags_def >>> bit_cf) &&& 1 = 0) ∧
    (∀ i, i ≠ bit_cf → i ≠ bit_of →
      (emu_shl state instr).2.eflags_def.testBit i = state.eflags_def.testBit i) := by
  have n1 : ¬ (read_operand state (instr.arg 0)).1 < 0 := by rw [h1]; decide
  have n2 : ¬ (read_operand state (instr.arg 1)).1 < 0 := by rw [h2]; decide
  have hz : (read_operand state (instr.arg 1)).2 &&& 31 = 0 → emu_shl state instr = (0, state) := by
    intro hc
    unfold emu_shl
    simp only [n1, n2, if_false, hc, if_true]
  have hhigh : ∀ i, 32 ≤ i → state.eflags_def.testBit i = false := by
    intro i hi
    apply Nat.testBit_lt_two_pow
    have hp : (4294967296 : Nat) ≤ 2 ^ i := by
      have h1 : (2 : Nat) ^ 32 ≤ 2 ^ i := Nat.pow_le_pow_right (by decide) hi
      simpa using h1
    omega
  refine ⟨hz, ?_, ?_, ?_, ?_, ?_⟩
  · intro hc
    have he := emu_shl_def state instr h1 h2 (by omega)
    rw [he, shr_and_one, testBit_shift_flags_def]
    have hne : ¬ ((read_operand state (instr.arg 1)).2 &&& 31 = 1) := by omega
    simp [bit_cf, bit_of, hne]
  · intro hc
    have he := emu_shl_def state instr h1 h2 (by omega)
    rw [he, shr_and_one, testBit_shift_flags_def]
    simp [bit_cf, bit_of, hc]
  · intro hc hlt
    have he := emu_shl_def state instr h1 h2 hc
    rw [he, shr_and_one, testBit_shift_flags_def]
    have hd : decide (s32 (read_operand state (instr.arg 1)).2
        ≥ ((dst_desc instr).carry_bit : Int)) = false := by
      simp only [decide_eq_false_iff_not]; omega
    simp [hd]
  · intro hc hge
    have he := emu_shl_def state instr h1 h2 hc
    rw [he, shr_and_one, testBit_shift_flags_def]
    have hd : decide (s32 (read_operand state (instr.arg 1)).2
        ≥ ((dst_desc instr).carry_bit : Int)) = true := by
      simp only [decide_eq_true_eq]; omega
    simp [hd]
  · intro i hcf hof
    by_cases hc : (read_operand state (instr.arg 1)).2 &&& 31 = 0
    · rw [hz hc]
    · have he := emu_shl_def state instr h1 h2 hc
      rw [he, testBit_shift_flags_def, if_neg hcf, if_neg hof]
      split_ifs
      · rfl
      · by_cases hi : i < 32
        · simp [hi]
        · simp [hi, hhigh i (by omega)]

/-- The defined mask after SHL AL by 9, by 3 and by 32. -/
theorem shl_defined_mask_example :
    ((emu_shl ex_state_al80
      (ex_instr_shift OP_SHL (ex_raw_reg REG_AL) (ex_raw_imm8 9))).2.eflags_def >>> bit_of)
        &&& 1 = 0 ∧
    ((emu_shl ex_state_al80
      (ex_instr_shift OP_SHL (ex_raw_reg REG_AL) (ex_raw_imm8 9))).2.eflags_def >>> bit_cf)
        &&& 1 = 0 ∧
    ((emu_shl ex_state_al80
      (ex_instr_shift OP_SHL (ex_raw_reg REG_AL) (ex_raw_imm8 3))).2.eflags_def >>> bit_cf)
        &&& 1 = 1 ∧
    emu_shl ex_state_al80 (ex_instr_shift OP_SHL (ex_raw_reg REG_AL) (ex_raw_imm8 32))
      = (0, ex_state_al80) :=
  have h9 := shl_defined_mask ex_state_al80
    (ex_instr_shift OP_SHL (ex_raw_reg REG_AL) (ex_raw_imm8 9)) (by decide) (by decide)
    (by decide)
  have h3 := shl_defined_mask ex_state_al80
    (ex_instr_shift OP_SHL (ex_raw_reg REG_AL) (ex_raw_imm8 3)) (by decide) (by decide)
    (by decide)
  have h32 := shl_defined_mask ex_state_al80
    (ex_instr_shift OP_SHL (ex_raw_reg REG_AL) (ex_raw_imm8 32)) (by decide) (by decide)
    (by decide)
  ⟨h9.2.1 (by decide), h9.2.2.2.2.1 (by decide) (by decide),
   h3.2.2.2.1 (by decide) (by decide), h32.1 (by decide)⟩

/-- A 32-bit pattern below `2 ^ 31` is its own value as an `int32_t`. -/
theorem s32_of_lt (n : Nat) (h : n < 2147483648) : s32 n = (n : Int) := by
  have e : u32 n = n := by unfold u32; omega
  unfold s32
  rw [e, if_pos h]

/-- Defined mask after SHL for a count below `2 ^ 31` whose masked value is not 0: the CF
bit of eflags_def is set when the count is below the width of the destination and clear
when it is at least the width. -/
theorem shl_defined_mask_small_count (state : cli_emu_t) (instr : dis_instr)
    (h1 : (read_operand state (instr.arg 0)).1 = 0)
    (h2 : (read_operand state (instr.arg 1)).1 = 0)
    (hdef : state.eflags_def < 4294967296)
    (hc : (read_operand state (instr.arg 1)).2 &&& 31 ≠ 0)
    (hlt : (read_operand state (instr.arg 1)).2 < 2147483648) :
    ((read_operand state (instr.arg 1)).2 < (dst_desc instr).carry_bit →
      ((emu_shl state instr).2.eflags_def >>> bit_cf) &&& 1 = 1) ∧
    ((dst_desc instr).carry_bit ≤ (read_operand state (instr.arg 1)).2 →
      ((emu_shl state instr).2.eflags_def >>> bit_cf) &&& 1 = 0) := by
  have h := shl_defined_mask state instr h1 h2 hdef
  have e := s32_of_lt _ hlt
  refine ⟨fun hw => h.2.2.2.1 hc ?_, fun hw => h.2.2.2.2.1 hc ?_⟩
  · rw [e]; exact_mod_cast hw
  · rw [e]; exact_mod_cast hw

/-- For a register of the table the view does not depend on the previous content of the
descriptor and its cell index is not the sentinel. -/
theorem get_reg_valid (d : desc_t) (reg : Nat) (h : reg < MAXREG) :
    (get_reg d reg).2 = (get_reg ex_desc0 reg).2 ∧ (get_reg d reg).2.idx ≠ REGIDX_INVALID := by
  have h1 : ¬ reg ≥ MAXREG := by omega
  refine ⟨by simp [get_reg, h1], ?_⟩
  simp only [get_reg, h1, if_false, reg_masks, REGIDX_INVALID]
  unfold MAXREG at h
  split_ifs <;> simp <;> omega

/-- For `REG_INVALID` only the cell index is assigned. -/
theorem get_reg_invalid (d : desc_t) :
    (get_reg d REG_INVALID).2 = { d with idx := REGIDX_INVALID } := by
  simp [get_reg, MAXREG, REG_INVALID]

/-- Reading the view `get_reg` builds gives the value of the register, zero if absent. -/
theorem spec_reg_value_view (state : cli_emu_t) (d : desc_t) (reg : Nat)
    (h : reg < MAXREG ∨ reg = REG_INVALID) :
    readreg state (get_reg d reg).2 = spec_reg_value state reg := by
  rcases h with h | h
  · have hne : reg ≠ REG_INVALID := by unfold MAXREG at h; unfold REG_INVALID; omega
    rw [(get_reg_valid d reg h).1]
    simp [spec_reg_value, hne]
  · subst h
    rw [get_reg_invalid]
    simp [spec_reg_value, readreg]

/-- C29 (decoder normalisation). For every raw MEMORY operand whose base and index are
registers of the table or REG_INVALID, with scale s and displacement d, the operand
DisassembleAt builds satisfies: if s = 0 then scale_reg is sentinel; if s = 1 and the base is
absent then scale_reg is sentinel and add_reg is the view of the index; if s = 1 and the index is
absent then scale_reg is sentinel and add_reg is the view of the base; and in every state calcreg
of it is d + value(base) + s * value(index) mod 2^32, absent registers counting as zero. For a
REGISTER operand scale_reg is sentinel, displacement is 0, access_size is INVALID and add_reg is
the view of the register. -/
theorem C29_decoder_normalisation (raw : Nat → Nat) (arg : dis_arg) (state : cli_emu_t) :
    (u8 (raw 0) = ACCESS_MEM →
      (u8 (raw 2) < MAXREG ∨ u8 (raw 2) = REG_INVALID) →
      (u8 (raw 3) < MAXREG ∨ u8 (raw 3) = REG_INVALID) →
      (u8 (raw 4) = 0 → (DisassembleAt_arg raw arg).scale_reg.idx = REGIDX_INVALID) ∧
      (u8 (raw 4) = 1 → u8 (raw 3) = REG_INVALID →
        (DisassembleAt_arg raw arg).scale_reg.idx = REGIDX_INVALID ∧
        (u8 (raw 2) < MAXREG →
          (DisassembleAt_arg raw arg).add_reg = (get_reg ex_desc0 (u8 (raw 2))).2)) ∧
      (u8 (raw 4) = 1 → u8 (raw 2) = REG_INVALID →
        (DisassembleAt_arg raw arg).scale_reg.idx = REGIDX_INVALID ∧
        (u8 (raw 3) < MAXREG →
          (DisassembleAt_arg raw arg).add_reg = (get_reg ex_desc0 (u8 (raw 3))).2)) ∧
      calcreg state (DisassembleAt_arg raw arg)
        = (le_value [raw 6, raw 7, raw 8, raw 9] + spec_reg_value state (u8 (raw 3))
            + u8 (raw 4) * spec_reg_value state (u8 (raw 2))) % 4294967296 ∧
      (DisassembleAt_arg raw arg).access_size = DIS_SIZE.ofRaw (u8 (raw 1))) ∧
    (u8 (raw 0) = ACCESS_REG →
      (DisassembleAt_arg raw arg).scale_reg.idx = REGIDX_INVALID ∧
      (DisassembleAt_arg raw arg).displacement = 0 ∧
      (DisassembleAt_arg raw arg).access_size = SIZE_INVALID ∧
      (u8 (raw 1) < MAXREG →
        (DisassembleAt_arg raw arg).add_reg = (get_reg ex_desc0 (u8 (raw 1))).2)) := by
  constructor
  · intro hmem hI hB
    have vI := spec_reg_value_view state arg.scale_reg (u8 (raw 2)) hI
    have vB := spec_reg_value_view state arg.add_reg (u8 (raw 3)) hB
    by_cases hs1 : u8 (raw 4) = 1 ∧ u8 (raw 3) = REG_INVALID
    · obtain ⟨hs, hb⟩ := hs1
      have hD : DisassembleAt_arg raw arg
          = { arg with
              access_size := DIS_SIZE.ofRaw (u8 (raw 1))
              scale_reg := { (get_reg arg.scale_reg (u8 (raw 2))).2 with idx := REGIDX_INVALID }
              add_reg := (get_reg arg.scale_reg (u8 (raw 2))).2
              scale := 1
              displacement := le_value [raw 6, raw 7, raw 8, raw 9] } := by
        simp [DisassembleAt_arg, hmem, hs, hb]
      rw [hD]
      refine ⟨fun _ => rfl, fun _ _ => ⟨rfl, fun h => (get_reg_valid _ _ h).1⟩, ?_, ?_, rfl⟩
      · intro _ hi
        refine ⟨rfl, fun h => ?_⟩
        exfalso
        rw [hb] at h
        exact absurd h (by decide)
      · have hsr : readreg state
            { (get_reg arg.scale_reg (u8 (raw 2))).2 with idx := REGIDX_INVALID } = 0 :=
          readreg_sentinel _ _ rfl
        rw [calcreg_eq]
        dsimp only
        rw [hsr, vI, hs, hb]
        simp [spec_reg_value]
    · by_cases hs0 : u8 (raw 4) = 0
      · have hD : DisassembleAt_arg raw arg
            = { arg with
                access_size := DIS_SIZE.ofRaw (u8 (raw 1))
                scale_reg := { (get_reg arg.scale_reg (u8 (raw 2))).2 with idx := REGIDX_INVALID }
                add_reg := (get_reg arg.add_reg (u8 (raw 3))).2
                scale := 0
                displacement := le_value [raw 6, raw 7, raw 8, raw 9] } := by
          simp [DisassembleAt_arg, hmem, hs0]
        rw [hD]
        refine ⟨fun _ => rfl, fun h => absurd (hs0.symm.trans h) (by decide),
          fun h => absurd (hs0.symm.trans h) (by decide), ?_, rfl⟩
        have hsr : readreg state
            { (get_reg arg.scale_reg (u8 (raw 2))).2 with idx := REGIDX_INVALID } = 0 :=
          readreg_sentinel _ _ rfl
        rw [calcreg_eq]
        dsimp only
        rw [hsr, vB, hs0]
        simp
      · have hD : DisassembleAt_arg raw arg
            = { arg with
                access_size := DIS_SIZE.ofRaw (u8 (raw 1))
                scale_reg := (get_reg arg.scale_reg (u8 (raw 2))).2
                add_reg := (get_reg arg.add_reg (u8 (raw 3))).2
                scale := u8 (raw 4)
                displacement := le_value [raw 6, raw 7, raw 8, raw 9] } := by
          simp [DisassembleAt_arg, hmem, hs0, hs1]
        rw [hD]
        refine ⟨fun h => absurd h hs0, fun h hb => absurd ⟨h, hb⟩ hs1, ?_, ?_, rfl⟩
        · intro _ hi
          refine ⟨?_, fun h => (get_reg_valid _ _ h).1⟩
          show (get_reg arg.scale_reg (u8 (raw 2))).2.idx = REGIDX_INVALID
          rw [hi, get_reg_invalid]
        · rw [calcreg_eq]
          dsimp only
          rw [vI, vB]
  · intro hreg
    have hD : DisassembleAt_arg raw arg
        = { arg with
            access_size := SIZE_INVALID
            add_reg := (get_reg arg.add_reg (u8 (raw 1))).2
            scale_reg := { arg.scale_reg with idx := REGIDX_INVALID }
            displacement := 0 } := by
      simp [DisassembleAt_arg, hreg, (by decide : ¬ ACCESS_REG = ACCESS_MEM)]
    rw [hD]
    exact ⟨rfl, rfl, rfl, fun h => (get_reg_valid _ _ h).1⟩

/-- Witness for C29: the operand `[ECX*1 + 16]` without base. -/
theorem C29_decoder_normalisation_witness :
    calcreg ex_state_regs
        (DisassembleAt_arg
          (fun k => if k = 0 then ACCESS_MEM else if k = 1 then 2 else if k = 2 then REG_ECX
                    else if k = 3 then REG_INVALID else if k = 4 then 1 else if k = 6 then 16
                    else 0) ex_arg0)
      = (le_value [16, 0, 0, 0] + spec_reg_value ex_state_regs REG_INVALID
          + 1 * spec_reg_value ex_state_regs REG_ECX) % 4294967296 :=
  ((C29_decoder_normalisation
    (fun k => if k = 0 then ACCESS_MEM else if k = 1 then 2 else if k = 2 then REG_ECX
              else if k = 3 then REG_INVALID else if k = 4 then 1 else if k = 6 then 16
              else 0) ex_arg0 ex_state_regs).1 rfl (by decide) (by decide)).2.2.2.1

/-! ## REPNE and REPE SCASB (C26) -/

/-- The C test `x & (1 << k)` is zero exactly when bit `k` of `x` is clear. -/
theorem and_one_shl_eq_zero (x k : Nat) : x &&& (1 <<< k) = 0 ↔ x.testBit k = false := by
  constructor
  · intro h
    have h1 := congrArg (fun y => Nat.testBit y k) h
    simpa [Nat.testBit_and, testBit_one_shl] using h1
  · intro h
    apply Nat.eq_of_testBit_eq
    intro i
    rw [Nat.testBit_and, testBit_one_shl, Nat.zero_testBit]
    by_cases hi : i = k
    · subst hi; simp [h]
    · simp [hi]

/-- Bit 0 of a truth value. -/
theorem testBit_b2n (p : Prop) [Decidable p] : (b2n (decide p)).testBit 0 = decide p := by
  by_cases h : p <;> simp [b2n, h]

/-- ZF after `calc_flags_addsub` for a subtraction under an 8-bit descriptor: set exactly when
the operands agree modulo 256. -/
theorem testBit_addsub_zf (s : cli_emu_t) (a b : Nat) (d : desc_t) (h8 : d.carry_bit = 8) :
    (calc_flags_addsub s a b d 1).eflags.testBit bit_zf = decide (a % 256 = b % 256) := by
  have hlt : decide (bit_zf < 32) = true := by decide
  unfold calc_flags_addsub
  dsimp only
  rw [testBit_put_flag, if_neg (by decide), testBit_put_flag, if_neg (by decide),
    testBit_put_flag, if_neg (by decide), testBit_put_flag, if_neg (by decide),
    testBit_put_flag, if_neg (by decide), testBit_put_flag, if_pos rfl, hlt, testBit_b2n, h8]
  simp only [Bool.true_and, one_ne_zero, ne_eq, not_false_eq_true, if_true]
  have e : (a % 2 ^ 8 + 2 ^ 8 - b % 2 ^ 8) % 2 ^ 8 = 0 ↔ a % 256 = b % 256 := by
    norm_num
    omega
  simp only [e]

/-- The flag calculator `calc_flags_addsub` leaves DF alone. -/
theorem testBit_addsub_df (s : cli_emu_t) (a b : Nat) (d : desc_t) (x : Nat) :
    (calc_flags_addsub s a b d x).eflags.testBit bit_df = s.eflags.testBit bit_df := by
  have hlt : decide (bit_df < 32) = true := by decide
  unfold calc_flags_addsub
  dsimp only
  rw [testBit_put_flag, if_neg (by decide), testBit_put_flag, if_neg (by decide),
    testBit_put_flag, if_neg (by decide), testBit_put_flag, if_neg (by decide),
    testBit_put_flag, if_neg (by decide), testBit_put_flag, if_neg (by decide), hlt]
  simp

/-- A byte read at a readable address. -/
theorem read8_byte (v : emu_vmm_t) (a : Nat) (h : v.readable (u32 a) = true) :
    cli_emu_vmm_read8 v a = some (u8 (v.data (u32 a))) := by
  have h0 : u32 (u32 a + 0) = u32 a := by unfold u32; omega
  have h1 : u32 (u32 a) = u32 a := by unfold u32; omega
  have hr : vmm_range_ok v.readable (u32 a) 1 = true := by
    simp [vmm_range_ok, List.range_succ, h1, h]
  simp [cli_emu_vmm_read8, cli_emu_vmm_read_r, hr, vmm_bytes, List.range_succ, h0, h1, le_value,
    u8_u8]

/-- The post-check `emu_prefix_post` of SCAS (`repe_is_rep = 0`) under one latch, no
address-size override, with ECX at least 1: ECX is decremented and the loop stops when it reaches
zero or when ZF equals the REPNE mode. -/
theorem prefix_post_scas (repne : Bool) (t : cli_emu_t) (c : Nat)
    (hl : scas_latched repne t)
    (hecx : t.reg_val REG_ECX = c) (hc1 : 1 ≤ c) (hc2 : c < 4294967296) :
    emu_prefix_post t 0 0
      = (if c = 1 ∨ t.eflags.testBit bit_zf = repne then 0 else 1,
         set_reg_val t REG_ECX (c - 1)) := by
  have hcnt : u32 (u32 c + 4294967295) = c - 1 := by unfold u32; omega
  have hc0 : c - 1 < 4294967296 := by omega
  have hlatch : t.prefix_repe ≠ 0 ∨ t.prefix_repne ≠ 0 := by
    cases repne
    · exact Or.inl hl.1
    · exact Or.inr hl.1
  unfold emu_prefix_post
  simp only [hlatch, if_true, cnt_reg, ne_eq, not_true_eq_false, if_false,
    read_reg_32 _ REG_ECX (by decide), hecx, Option.getD_some, hcnt,
    write_reg_32 _ REG_ECX _ (by decide), u32_of_lt hc0, set_reg_val_repne, set_reg_val_repe,
    set_reg_val_eflags, and_one_shl_eq_zero]
  by_cases h1 : c = 1
  · simp [h1]
  · have h2 : c - 1 ≠ 0 := by omega
    cases repne
    · have hr : t.prefix_repe ≠ 0 := hl.1
      have hn : t.prefix_repne = 0 := hl.2
      cases hz : t.eflags.testBit bit_zf <;> simp [h1, h2, hr, hn, hz]
    · have hr : t.prefix_repe = 0 := hl.2
      have hn : t.prefix_repne ≠ 0 := hl.1
      cases hz : t.eflags.testBit bit_zf <;> simp [h1, h2, hr, hn, hz]

/-- The latch state only depends on the two latch fields. -/
theorem scas_latched_frame (repne : Bool) (s t : cli_emu_t)
    (h1 : t.prefix_repe = s.prefix_repe) (h2 : t.prefix_repne = s.prefix_repne)
    (hl : scas_latched repne s) : scas_latched repne t := by
  unfold scas_latched at *
  rw [h1, h2]
  exact hl

/-- The ZF rule in terms of the compared values. -/
theorem zf_rule_iff (repne : Bool) (a b : Nat) :
    (decide (a % 256 = b % 256) = repne) ↔ scas_stops repne a b = true := by
  cases repne <;> simp [scas_stops]

/-- One turn of the loop of `emu_scasx` for SCASB under one latch with `DF = 0`: the byte at
`[EDI]` is compared with `a`, EDI advances by 1, ECX is decremented, and the loop stops when ECX
has reached zero or the ZF rule fires. -/
theorem scasb_iter (instr : dis_instr) (had : instr.address_size = 0) (repne : Bool)
    (a fuel edi src : Nat) (state : cli_emu_t) (c : Nat)
    (hl : scas_latched repne state) (hdf : state.eflags.testBit bit_df = false)
    (hecx : state.reg_val REG_ECX = c) (hc1 : 1 ≤ c) (hc2 : c < 4294967296)
    (hrd : state.mem.readable (u32 edi) = true) :
    emu_scasx_loop instr REG_AL SIZEB 1 a (fuel + 1) edi src state
      = if c = 1 ∨ scas_stops repne a (u8 (state.mem.data (u32 edi))) = true then
          some (u32 (edi + 1),
            set_reg_val (calc_flags_addsub state a (u8 (state.mem.data (u32 edi)))
              ⟨255, 0, 0, 8, 8⟩ 1) REG_ECX (c - 1))
        else
          emu_scasx_loop instr REG_AL SIZEB 1 a fuel (u32 (edi + 1))
            (u8 (state.mem.data (u32 edi)))
            (set_reg_val (calc_flags_addsub state a (u8 (state.mem.data (u32 edi)))
              ⟨255, 0, 0, 8, 8⟩ 1) REG_ECX (c - 1)) := by
  have hg : (get_reg ⟨0, 0, REGIDX_INVALID, 0, 0⟩ REG_AL).2 = ⟨255, 0, 0, 8, 8⟩ := by decide
  have hm : mem_read state edi SIZEB src = (0, u8 (state.mem.data (u32 edi))) := by
    simp [mem_read, read8_byte state.mem edi hrd]
  have hst : ∀ b, (calc_flags_addsub state a b ⟨255, 0, 0, 8, 8⟩ 1).eflags
      &&& (1 <<< bit_df) = 0 := by
    intro b
    rw [and_one_shl_eq_zero, testBit_addsub_df]
    exact hdf
  have hp : ∀ b, emu_prefix_post (calc_flags_addsub state a b ⟨255, 0, 0, 8, 8⟩ 1) 0 0
      = (if c = 1 ∨ scas_stops repne a b = true then 0 else 1,
         set_reg_val (calc_flags_addsub state a b ⟨255, 0, 0, 8, 8⟩ 1) REG_ECX (c - 1)) := by
    intro b
    rw [prefix_post_scas repne (calc_flags_addsub state a b ⟨255, 0, 0, 8, 8⟩ 1) c
      (scas_latched_frame repne state _ rfl rfl hl) hecx hc1 hc2,
      testBit_addsub_zf _ _ _ _ rfl]
    simp only [zf_rule_iff]
  rw [emu_scasx_loop]
  simp only [hm, hg, df_step, hst, had, ne_eq, not_true_eq_false, if_false, hp]
  by_cases hstop : c = 1 ∨ scas_stops repne a (u8 (state.mem.data (u32 edi))) = true
  · simp only [hstop, if_true]
    rfl
  · simp only [hstop, if_false]
    rfl

/-- The loop of `emu_scasx` for SCASB stops at the first index `i` at which the ZF rule fires
or the count runs out, with enough fuel: it returns EDI advanced by `i + 1` and a state whose ECX
is `c - i - 1`, whose other registers and memory are unchanged and whose ZF tells whether the
byte at index `i` equals `a`. -/
theorem scasb_scan (instr : dis_instr) (had : instr.address_size = 0) (repne : Bool) (a : Nat) :
    ∀ (i fuel edi src : Nat) (state : cli_emu_t) (c : Nat),
      scas_latched repne state → state.eflags.testBit bit_df = false →
      state.reg_val REG_ECX = c → c < 4294967296 → i < c → i < fuel →
      (∀ j, j ≤ i → state.mem.readable (u32 (edi + j)) = true) →
      (∀ j, j < i → scas_stops repne a (u8 (state.mem.data (u32 (edi + j)))) = false) →
      (scas_stops repne a (u8 (state.mem.data (u32 (edi + i)))) = true ∨ i + 1 = c) →
      ∃ st, emu_scasx_loop instr REG_AL SIZEB 1 a fuel edi src state
              = some (u32 (edi + i + 1), st) ∧
        st.reg_val REG_ECX = c - i - 1 ∧
        (∀ j, j ≠ REG_ECX → st.reg_val j = state.reg_val j) ∧
        st.mem = state.mem ∧
        st.eflags.testBit bit_zf
          = decide (a % 256 = u8 (state.mem.data (u32 (edi + i))) % 256) := by
  intro i
  induction i with
  | zero =>
    intro fuel edi src state c hl hdf hecx hc2 hic hif hrd _ hstop
    obtain ⟨f, rfl⟩ : ∃ f, fuel = f + 1 := ⟨fuel - 1, by omega⟩
    have hrd0 : state.mem.readable (u32 edi) = true := by simpa using hrd 0 (le_refl 0)
    have hs : c = 1 ∨ scas_stops repne a (u8 (state.mem.data (u32 edi))) = true := by
      rcases hstop with h | h
      · right; simpa using h
      · left; omega
    rw [scasb_iter instr had repne a f edi src state c hl hdf hecx (by omega) hc2 hrd0, if_pos hs]
    refine ⟨_, rfl, ?_, fun j hj => set_reg_val_other _ _ _ _ hj, rfl, ?_⟩
    · rw [set_reg_val_same]; omega
    · rw [set_reg_val_eflags, testBit_addsub_zf _ _ _ _ rfl]
      simp
  | succ i ih =>
    intro fuel edi src state c hl hdf hecx hc2 hic hif hrd hns hstop
    obtain ⟨f, rfl⟩ : ∃ f, fuel = f + 1 := ⟨fuel - 1, by omega⟩
    have hrd0 : state.mem.readable (u32 edi) = true := by simpa using hrd 0 (by omega)
    have hn0 : scas_stops repne a (u8 (state.mem.data (u32 edi))) = false := by
      simpa using hns 0 (by omega)
    have hs : ¬ (c = 1 ∨ scas_stops repne a (u8 (state.mem.data (u32 edi))) = true) := by
      rw [hn0]
      intro h
      rcases h with h | h
      · omega
      · exact absurd h (by decide)
    have haddr : ∀ j, u32 (u32 (edi + 1) + j) = u32 (edi + (j + 1)) := by
      intro j; unfold u32; omega
    rw [scasb_iter instr had repne a f edi src state c hl hdf hecx (by omega) hc2 hrd0, if_neg hs]
    obtain ⟨st, h1, h2, h3, h4, h5⟩ := ih f (u32 (edi + 1)) (u8 (state.mem.data (u32 edi)))
      (set_reg_val (calc_flags_addsub state a (u8 (state.mem.data (u32 edi)))
        ⟨255, 0, 0, 8, 8⟩ 1) REG_ECX (c - 1)) (c - 1)
      (scas_latched_frame repne state _ rfl rfl hl)
      (by rw [set_reg_val_eflags, testBit_addsub_df]; exact hdf)
      (set_reg_val_same _ _ _) (by omega) (by omega) (by omega)
      (by
        intro j hj
        rw [haddr]
        exact hrd (j + 1) (by omega))
      (by
        intro j hj
        rw [haddr]
        exact hns (j + 1) (by omega))
      (by
        rw [haddr]
        rcases hstop with h | h
        · left; exact h
        · right; omega)
    refine ⟨st, ?_, ?_, ?_, h4, ?_⟩
    · rw [h1]
      have e : u32 (u32 (edi + 1) + i + 1) = u32 (edi + (i + 1) + 1) := by unfold u32; omega
      rw [e]
    · rw [h2]; omega
    · intro j hj
      rw [h3 j hj]
      exact set_reg_val_other _ _ _ _ hj
    · rw [h5, haddr]
      rfl

/-- Reading AL. -/
theorem read_reg_al (s : cli_emu_t) : read_reg s REG_AL = some (s.reg_val REG_EAX % 256) := by
  have hg : (get_reg ⟨0, 0, REGIDX_INVALID, 0, 0⟩ REG_AL).2 = ⟨255, 0, 0, 8, 8⟩ := by decide
  have h := @Nat.and_pow_two_sub_one_eq_mod (s.reg_val REG_EAX) 8
  have h' : s.reg_val 0 &&& 255 = s.reg_val REG_EAX % 256 := by simpa [REG_EAX] using h
  unfold read_reg
  rw [hg]
  simp [readreg, REGIDX_INVALID, h']

/-- Function `emu_scasx` for SCASB under one latch, stopping at index `i`. -/
theorem scasb_run (s : cli_emu_t) (instr : dis_instr) (repne : Bool) (k i : Nat)
    (had : instr.address_size = 0) (hl : scas_latched repne s)
    (hdf : s.eflags &&& (1 <<< bit_df) = 0)
    (hk : s.reg_val REG_ECX = k) (hk2 : k < 4294967296) (hi : i < k)
    (hrd : ∀ j, j < k → s.mem.readable (u32 (s.reg_val REG_EDI + j)) = true)
    (hns : ∀ j, j < i → scas_stops repne (s.reg_val REG_EAX % 256)
      (u8 (s.mem.data (u32 (s.reg_val REG_EDI + j)))) = false)
    (hstop : scas_stops repne (s.reg_val REG_EAX % 256)
      (u8 (s.mem.data (u32 (s.reg_val REG_EDI + i)))) = true ∨ i + 1 = k) :
    scas_outcome s (emu_scasx s instr REG_AL SIZEB 1)
      (if s.reg_val REG_EAX % 256 = u8 (s.mem.data (u32 (s.reg_val REG_EDI + i))) then 1 else 0)
      ((s.reg_val REG_EDI + i + 1) % 4294967296) (k - i - 1) := by
  have haddr : ∀ j, u32 (u32 (s.reg_val REG_EDI) + j) = u32 (s.reg_val REG_EDI + j) := by
    intro j; unfold u32; omega
  obtain ⟨st, h1, h2, h3, h4, h5⟩ := scasb_scan instr had repne (s.reg_val REG_EAX % 256) i
    rep_fuel (u32 (s.reg_val REG_EDI)) 0 s k hl ((and_one_shl_eq_zero _ _).mp hdf) hk hk2 hi
    (by unfold rep_fuel; omega)
    (by intro j hj; rw [haddr]; exact hrd j (by omega))
    (by intro j hj; rw [haddr]; exact hns j hj)
    (by rw [haddr]; exact hstop)
  have hpre : emu_prefix_pre s 0 0 = 0 :=
    prefix_pre_pos s 0 0 rfl (by omega) (by omega)
  have hrun : emu_scasx s instr REG_AL SIZEB 1
      = (0, set_reg_val st REG_EDI (u32 (u32 (u32 (s.reg_val REG_EDI) + i + 1)))) := by
    unfold emu_scasx
    simp only [had, ne_eq, not_true_eq_false, if_false, read_reg_32 _ REG_EDI (by decide),
      read_reg_al, hpre, h1, write_reg_32 _ REG_EDI _ (by decide)]
  rw [hrun]
  refine ⟨rfl, ?_, ?_, ?_, ?_, h4⟩
  · rw [emu_flags_eq, set_reg_val_eflags, h5, haddr]
    have e : ∀ x, u8 x % 256 = u8 x := by intro x; unfold u8; omega
    have e2 : s.reg_val REG_EAX % 256 % 256 = s.reg_val REG_EAX % 256 := by omega
    rw [e, e2]
    by_cases h : s.reg_val REG_EAX % 256 = u8 (s.mem.data (u32 (s.reg_val REG_EDI + i)))
    · simp [h]
    · simp [h]
  · rw [set_reg_val_same]
    unfold u32; omega
  · rw [set_reg_val_other _ _ _ _ (by decide), h2]
  · intro j hj1 hj2
    rw [set_reg_val_other _ _ _ _ hj2, h3 j hj1]

/-- The stop rule on byte values. -/
theorem scas_stops_eq (repne : Bool) (a b : Nat) (ha : a < 256) (hb : b < 256) :
    scas_stops repne a b = (if repne then decide (a = b) else decide (a ≠ b)) := by
  unfold scas_stops
  rw [Nat.mod_eq_of_lt ha, Nat.mod_eq_of_lt hb]

/-- C26 (REPNE/REPE SCASB). For every state without address-size override, with DF = 0,
ECX = k with 1 <= k < 2^32, and the k bytes at EDI readable: with the REPNE latch alone set, if i
is the least index below k whose byte equals AL, emu_scasx returns 0 with ZF = 1,
EDI = old EDI + i + 1 (mod 2^32) and ECX = k - i - 1, and if no byte of the range equals AL it
returns 0 with ZF = 0, EDI = old EDI + k and ECX = 0; with the REPE latch alone set the same holds
for the first byte different from AL, with ZF = 0 when it is found and ZF = 1 when every byte
equals AL. Every register other than ECX and EDI (so AL) and the memory are unchanged. -/
theorem C26_repne_scasb (s : cli_emu_t) (instr : dis_instr) (k : Nat)
    (had : instr.address_size = 0) (hdf : s.eflags &&& (1 <<< bit_df) = 0)
    (hk : s.reg_val REG_ECX = k) (hk1 : 1 ≤ k) (hk2 : k < 4294967296)
    (hrd : ∀ j, j < k → s.mem.readable (u32 (s.reg_val REG_EDI + j)) = true) :
    (s.prefix_repne ≠ 0 → s.prefix_repe = 0 →
      (∀ i, i < k →
        u8 (s.mem.data (u32 (s.reg_val REG_EDI + i))) = s.reg_val REG_EAX % 256 →
        (∀ j, j < i →
          u8 (s.mem.data (u32 (s.reg_val REG_EDI + j))) ≠ s.reg_val REG_EAX % 256) →
        scas_outcome s (emu_scasx s instr REG_AL SIZEB 1) 1
          ((s.reg_val REG_EDI + i + 1) % 4294967296) (k - i - 1)) ∧
      ((∀ j, j < k →
          u8 (s.mem.data (u32 (s.reg_val REG_EDI + j))) ≠ s.reg_val REG_EAX % 256) →
        scas_outcome s (emu_scasx s instr REG_AL SIZEB 1) 0
          ((s.reg_val REG_EDI + k) % 4294967296) 0)) ∧
    (s.prefix_repe ≠ 0 → s.prefix_repne = 0 →
      (∀ i, i < k →
        u8 (s.mem.data (u32 (s.reg_val REG_EDI + i))) ≠ s.reg_val REG_EAX % 256 →
        (∀ j, j < i →
          u8 (s.mem.data (u32 (s.reg_val REG_EDI + j))) = s.reg_val REG_EAX % 256) →
        scas_outcome s (emu_scasx s instr REG_AL SIZEB 1) 0
          ((s.reg_val REG_EDI + i + 1) % 4294967296) (k - i - 1)) ∧
      ((∀ j, j < k →
          u8 (s.mem.data (u32 (s.reg_val REG_EDI + j))) = s.reg_val REG_EAX % 256) →
        scas_outcome s (emu_scasx s instr REG_AL SIZEB 1) 1
          ((s.reg_val REG_EDI + k) % 4294967296) 0)) := by
  have ha : s.reg_val REG_EAX % 256 < 256 := Nat.mod_lt _ (by decide)
  have hb : ∀ x, u8 x < 256 := fun x => Nat.mod_lt _ (by decide)
  have hend : (s.reg_val REG_EDI + (k - 1) + 1) % 4294967296
      = (s.reg_val REG_EDI + k) % 4294967296 := by
    have : s.reg_val REG_EDI + (k - 1) + 1 = s.reg_val REG_EDI + k := by omega
    rw [this]
  have hend2 : k - (k - 1) - 1 = 0 := by omega
  constructor
  · intro hne he
    have hl : scas_latched true s := ⟨hne, he⟩
    constructor
    · intro i hi hhit hmiss
      have h := scasb_run s instr true k i had hl hdf hk hk2 hi hrd
        (by
          intro j hj
          rw [scas_stops_eq true _ _ ha (hb _)]
          simpa using fun e => hmiss j hj e.symm)
        (by
          left
          rw [scas_stops_eq true _ _ ha (hb _)]
          simpa using hhit.symm)
      rw [if_pos hhit.symm] at h
      exact h
    · intro hmiss
      have h := scasb_run s instr true k (k - 1) had hl hdf hk hk2 (by omega) hrd
        (by
          intro j hj
          rw [scas_stops_eq true _ _ ha (hb _)]
          simpa using fun e => hmiss j (by omega) e.symm)
        (Or.inr (by omega))
      rw [if_neg (fun e => hmiss (k - 1) (by omega) e.symm), hend, hend2] at h
      exact h
  · intro hne he
    have hl : scas_latched false s := ⟨hne, he⟩
    constructor
    · intro i hi hdiff hsame
      have h := scasb_run s instr false k i had hl hdf hk hk2 hi hrd
        (by
          intro j hj
          rw [scas_stops_eq false _ _ ha (hb _)]
          simpa using (hsame j hj).symm)
        (by
          left
          rw [scas_stops_eq false _ _ ha (hb _)]
          simpa using fun e => hdiff e.symm)
      rw [if_neg (fun e => hdiff e.symm)] at h
      exact h
    · intro hsame
      have h := scasb_run s instr false k (k - 1) had hl hdf hk hk2 (by omega) hrd
        (by
          intro j hj
          rw [scas_stops_eq false _ _ ha (hb _)]
          simpa using (hsame j (by omega)).symm)
        (Or.inr (by omega))
      rw [if_pos (hsame (k - 1) (by omega)).symm, hend, hend2] at h
      exact h

/-- Witness for C26: REPNE SCASB for AL = 7 over the bytes 5, 6, 7, 8 stops at index 2. -/
theorem C26_repne_scasb_witness :
    scas_outcome ex_state_scas (emu_scasx ex_state_scas ex_instr0 REG_AL SIZEB 1) 1
      ((256 + 2 + 1) % 4294967296) (4 - 2 - 1) :=
  ((C26_repne_scasb ex_state_scas ex_instr0 4 rfl (by decide) rfl (by decide) (by decide)
    (by decide)).1 (by decide) rfl).1 2 (by decide) (by decide) (by decide)

/-! ## POPAD under operand-size override (C31) -/

/-- The cell `write16reg` leaves: bits 8..15 of the old value ORed with the 16-bit word. -/
theorem write16reg_value (state : cli_emu_t) (reg val : Nat) :
    (write16reg state reg val).reg_val reg = (state.reg_val reg &&& 65280) ||| (val % 65536) := by
  simp [write16reg, set_reg_val, u16]

/-- After `write16reg` the upper 16 bits of the cell are zero, whatever they were. -/
theorem write16reg_clears_upper (state : cli_emu_t) (reg val : Nat) :
    (write16reg state reg val).reg_val reg < 65536 := by
  rw [write16reg_value]
  have h1 : state.reg_val reg &&& 65280 < 2 ^ 16 :=
    lt_of_le_of_lt Nat.and_le_right (by decide)
  have h2 : val % 65536 < 2 ^ 16 := Nat.mod_lt _ (by decide)
  have h := Nat.or_lt_two_pow h1 h2
  simpa using h

/-- C31 (16-bit POPAD), failing input. On the example register state (EAX = 0x11111111,
EDI = 0x88888888, ESP = 0x8000, the 16 bytes at ESP zero) POPAD under operand-size override
returns 0 with ESP = 0x8010 but leaves EAX = 0x00001100 and EDI = 0x00008800: write16reg keeps
bits 8..15 of the old value and clears the upper 16 bits, where (old & 0xffff0000) | val is
0x11110000. With the word 0xABCD the cell becomes 0x0000BBCD. -/
theorem C31_popa16_clears_upper_halves :
    ex_state_regs.reg_val REG_EAX = 286331153 ∧ ex_state_regs.reg_val REG_EDI = 2290649224 ∧
    cli_emu_vmm_read_r ex_state_regs.mem (ex_state_regs.reg_val REG_ESP) 16
      = some (List.replicate 16 0) ∧
    (emu_popa ex_state_regs (ex_instr_op OP_POPAD 1)).1 = 0 ∧
    (emu_popa ex_state_regs (ex_instr_op OP_POPAD 1)).2.reg_val REG_EAX = 4352 ∧
    (emu_popa ex_state_regs (ex_instr_op OP_POPAD 1)).2.reg_val REG_EDI = 34816 ∧
    (emu_popa ex_state_regs (ex_instr_op OP_POPAD 1)).2.reg_val REG_ESP = 32768 + 16 ∧
    (write16reg ex_state_regs REG_EAX 0).reg_val REG_EAX = 4352 ∧
    (write16reg ex_state_regs REG_EAX 0).reg_val REG_EAX
      ≠ (ex_state_regs.reg_val REG_EAX &&& 4294901760) ||| 0 ∧
    (write16reg ex_state_regs REG_EAX 43981).reg_val REG_EAX = 48077 := by
  refine ⟨?_, ?_, ?_, ?_, ?_, ?_, ?_, ?_, ?_, ?_⟩ <;> decide

/-! ## Stale cache slots (C32) -/

/-- C32 (step independent of stale cache contents), failing input. The states ex_state_regs
and ex_state_cached agree on registers, eflags, eflags_def, eip, latches and memory and differ
only in the cache slot of eip. With the decoder output MOV EAX, sreg, whose source register id
get_reg does not implement (it returns -1 and leaves the view as the slot held it), the step
returns 0 from both, with EAX = 0 from the first and EAX = EBX = 0x44444444 from the second. With
the decoder output INC dword [0x100], whose operand names no register, the steps leave ZF = 1
and ZF = 0: the mask of the absent base register is the one the slot held. -/
theorem C32_stale_cache_leaks :
    ex_state_cached.reg_val = ex_state_regs.reg_val ∧
    ex_state_cached.eflags = ex_state_regs.eflags ∧
    ex_state_cached.eflags_def = ex_state_regs.eflags_def ∧
    ex_state_cached.eip = ex_state_regs.eip ∧
    ex_state_cached.prefix_repe = ex_state_regs.prefix_repe ∧
    ex_state_cached.prefix_repne = ex_state_regs.prefix_repne ∧
    ex_state_cached.mem = ex_state_regs.mem ∧
    (get_reg ex_desc0 ex_reg_unimplemented).1 = -1 ∧
    (cli_emulator_step ex_dec_mov_sreg ex_state_regs).1 = 0 ∧
    (cli_emulator_step ex_dec_mov_sreg ex_state_cached).1 = 0 ∧
    (cli_emulator_step ex_dec_mov_sreg ex_state_regs).2.reg_val REG_EAX = 0 ∧
    (cli_emulator_step ex_dec_mov_sreg ex_state_cached).2.reg_val REG_EAX = 1145324612 ∧
    ex_state_regs.reg_val REG_EBX = 1145324612 ∧
    emu_flags (cli_emulator_step ex_dec_inc_abs ex_state_regs).2 bit_zf = 1 ∧
    emu_flags (cli_emulator_step ex_dec_inc_abs ex_state_cached).2 bit_zf = 0 := by
  have h := disasm_frame ex_dec_mov_ebx ex_state_regs
  refine ⟨h.2.1, h.2.2.1, h.2.2.2.1, h.2.2.2.2.1, h.2.2.2.2.2.1, h.2.2.2.2.2.2, h.1,
    ?_, ?_, ?_, ?_, ?_, ?_, ?_, ?_⟩ <;> decide

/-! ## Termination of the REP harness (C33) -/

/-- Reading the count register of the REP harness. -/
theorem read_cnt (t : cli_emu_t) (ad : Nat) :
    read_reg t (cnt_reg ad) = some (rep_count t ad) := by
  unfold cnt_reg rep_count
  by_cases h : ad = 0
  · simp only [h, ne_eq, not_true_eq_false, if_false]
    rw [read_reg_32 _ REG_ECX (by decide)]
    rfl
  · simp only [h, ne_eq, not_false_eq_true, if_true]
    rw [read_reg_16 _ REG_CX (by decide) (by decide)]
    rfl

/-- The count is a 32-bit value. -/
theorem rep_count_lt (t : cli_emu_t) (ad : Nat) : rep_count t ad < 4294967296 := by
  unfold rep_count
  split_ifs <;> omega

/-- The count after a write of the count register. -/
theorem write_cnt_count (t : cli_emu_t) (ad v : Nat) (hv : v < 4294967296)
    (had : ad ≠ 0 → v < 65536) :
    rep_count (write_reg t (cnt_reg ad) v).2 ad = v := by
  unfold cnt_reg rep_count
  by_cases h : ad = 0
  · simp only [h, ne_eq, not_true_eq_false, if_false]
    rw [write_reg_32 _ REG_ECX _ (by decide), set_reg_val_same]
    unfold u32; omega
  · simp only [h, ne_eq, not_false_eq_true, if_true]
    rw [write_reg_16 _ REG_CX _ (by decide) (by decide)]
    have e : REG_CX - 8 = REG_ECX := by decide
    rw [e, set_reg_val_same, merge16_low]
    have := had h
    omega

/-- A write of the count register leaves the latches and the flags. -/
theorem write_cnt_latches (t : cli_emu_t) (ad v : Nat) :
    (write_reg t (cnt_reg ad) v).2.prefix_repe = t.prefix_repe ∧
    (write_reg t (cnt_reg ad) v).2.prefix_repne = t.prefix_repne ∧
    (write_reg t (cnt_reg ad) v).2.eflags = t.eflags := by
  unfold cnt_reg
  by_cases h : ad = 0
  · simp only [h, ne_eq, not_true_eq_false, if_false]
    rw [write_reg_32 _ REG_ECX _ (by decide)]
    exact ⟨rfl, rfl, rfl⟩
  · simp only [h, ne_eq, not_false_eq_true, if_true]
    rw [write_reg_16 _ REG_CX _ (by decide) (by decide)]
    exact ⟨rfl, rfl, rfl⟩

/-- Without a latch the post-check stops the loop and changes nothing. -/
theorem prefix_post_unlatched (t : cli_emu_t) (ad r : Nat) (h : ¬ rep_latched t) :
    emu_prefix_post t ad r = (0, t) := by
  unfold rep_latched at h
  unfold emu_prefix_post
  rw [if_neg h]

/-- With a latch set the post-check returns 0 or 1 on the state with the decremented count
written back, and 0 when that count is zero. -/
theorem prefix_post_shape (t : cli_emu_t) (ad r : Nat) (h : rep_latched t) :
    ∃ b cnt, cnt = u32 ((read_reg t (cnt_reg ad)).getD 0 + 4294967295) ∧
      emu_prefix_post t ad r = (b, (write_reg t (cnt_reg ad) cnt).2) ∧
      (b = 0 ∨ b = 1) ∧ (cnt = 0 → b = 0) := by
  unfold rep_latched at h
  unfold emu_prefix_post
  rw [if_pos h]
  dsimp only
  generalize u32 ((read_reg t (cnt_reg ad)).getD 0 + 4294967295) = cnt
  split_ifs with h1 h2 h3
  · exact ⟨0, cnt, rfl, rfl, Or.inl rfl, fun _ => rfl⟩
  · exact ⟨0, cnt, rfl, rfl, Or.inl rfl, fun _ => rfl⟩
  · exact ⟨0, cnt, rfl, rfl, Or.inl rfl, fun _ => rfl⟩
  · exact ⟨1, cnt, rfl, rfl, Or.inr rfl, fun h0 => absurd h0 h1⟩

/-- With a latch set and a count of at least 1 the post-check decrements the count by one,
keeps the latches, and lets the loop go on only if the new count is not zero. -/
theorem prefix_post_latched (t : cli_emu_t) (ad r : Nat) (h : rep_latched t)
    (hk : 1 ≤ rep_count t ad) :
    rep_count (emu_prefix_post t ad r).2 ad = rep_count t ad - 1 ∧
    ((emu_prefix_post t ad r).1 ≠ 0 → rep_count t ad ≠ 1) ∧
    (rep_count t ad = 1 → (emu_prefix_post t ad r).1 = 0) ∧
    rep_latched (emu_prefix_post t ad r).2 := by
  have hlt := rep_count_lt t ad
  obtain ⟨c, hkc⟩ : ∃ c, rep_count t ad = c + 1 := ⟨rep_count t ad - 1, by omega⟩
  have hcnt : u32 (rep_count t ad + 4294967295) = c := by unfold u32; omega
  have hsmall : ad ≠ 0 → c < 65536 := by
    intro hne
    have : rep_count t ad < 65536 := by
      unfold rep_count; rw [if_pos hne]; omega
    omega
  have hl := write_cnt_latches t ad c
  have hc := write_cnt_count t ad c (by omega) hsmall
  have hlat : rep_latched (write_reg t (cnt_reg ad) c).2 := by
    unfold rep_latched at *
    rw [hl.1, hl.2.1]
    exact h
  obtain ⟨b, cnt, hcn, hb, hb01, hb0⟩ := prefix_post_shape t ad r h
  rw [read_cnt, Option.getD_some, hcnt] at hcn
  subst hcn
  rw [hb]
  refine ⟨?_, fun h0 => ?_, fun h1 => ?_, hlat⟩
  · show rep_count (write_reg t (cnt_reg ad) cnt).2 ad = rep_count t ad - 1
    rw [hc]; omega
  · intro h1
    have hc0 : cnt = 0 := by omega
    exact h0 (hb0 hc0)
  · have hc0 : cnt = 0 := by omega
    exact hb0 hc0

/-- Reflexivity of `same_count`. -/
theorem same_count_refl (t : cli_emu_t) : same_count t t := ⟨rfl, rfl, rfl⟩

/-- Transitivity of `same_count`. -/
theorem same_count_trans (a b c : cli_emu_t) (h1 : same_count a b) (h2 : same_count b c) :
    same_count a c :=
  ⟨h2.1.trans h1.1, h2.2.1.trans h1.2.1, h2.2.2.trans h1.2.2⟩

/-- States with the same ECX cell have the same count. -/
theorem rep_count_same (t t1 : cli_emu_t) (ad : Nat) (h : same_count t t1) :
    rep_count t1 ad = rep_count t ad := by
  unfold rep_count
  rw [h.2.2]

/-- States with the same latches are latched together. -/
theorem rep_latched_same (t t1 : cli_emu_t) (h : same_count t t1) :
    rep_latched t1 ↔ rep_latched t := by
  unfold rep_latched
  rw [h.1, h.2.1]

/-- A write through a view of a cell other than ECX keeps latches and count. -/
theorem writereg_same_count (t : cli_emu_t) (d : desc_t) (v : Nat) (hd : d.idx ≠ REG_ECX) :
    same_count t (writereg t d v).2 := by
  unfold writereg
  split_ifs
  · exact same_count_refl t
  · exact ⟨rfl, rfl, set_reg_val_other _ _ _ _ (fun e => hd e.symm)⟩

/-- The registers the string bodies write are not views of ECX. -/
theorem write_reg_same_count (t : cli_emu_t) (reg v : Nat)
    (hreg : reg = REG_AL ∨ reg = REG_AX ∨ reg = REG_EAX ∨ reg = REG_ESI ∨ reg = REG_EDI) :
    same_count t (write_reg t reg v).2 := by
  unfold write_reg
  apply writereg_same_count
  rcases hreg with h | h | h | h | h <;> subst h <;> decide

/-- A memory write keeps latches and registers. -/
theorem mem_write_same_count (t : cli_emu_t) (a : Nat) (sz : DIS_SIZE) (v : Nat) :
    same_count t (mem_write t a sz v).2 := by
  unfold mem_write
  cases sz <;> dsimp only <;> split <;> exact ⟨rfl, rfl, rfl⟩

/-- A string loop whose turns have the shape `rep_turn`, entered with a latch set and a
count `k` of at least 1, gives with any fuel of at least `k` the result it gives with fuel `k`,
and that result is not the out-of-fuel marker: the body runs at most `k` times. -/
theorem rep_loop_latched (L : Nat → cli_emu_t → Int × cli_emu_t) (ad r : Nat)
    (hstep : ∀ s, rep_turn L ad r s) :
    ∀ k fuel s, rep_latched s → rep_count s ad = k → 1 ≤ k → k ≤ fuel →
      L fuel s = L k s ∧ (L k s).1 ≠ -3 := by
  intro k
  induction k with
  | zero => intro fuel s _ _ h1 _; omega
  | succ k ih =>
    intro fuel s hl hc _ hf
    obtain ⟨f, rfl⟩ : ∃ f, fuel = f + 1 := ⟨fuel - 1, by omega⟩
    rcases hstep s with ⟨res, hres, _, hL⟩ | ⟨st, hst, hL⟩
    · rw [hL f, hL k]
      exact ⟨rfl, hres⟩
    · have hl1 : rep_latched st := (rep_latched_same s st hst).mpr hl
      have hc1 : rep_count st ad = k + 1 := by rw [rep_count_same s st ad hst, hc]
      have hp := prefix_post_latched st ad r hl1 (by omega)
      rw [hL f, hL k]
      by_cases hgo : (emu_prefix_post st ad r).1 ≠ 0
      · rw [if_pos hgo, if_pos hgo]
        have hk1 : 1 ≤ k := by
          have := hp.2.1 hgo
          omega
        exact ih f (emu_prefix_post st ad r).2 hp.2.2.2 (by rw [hp.1, hc1]; omega) hk1
          (by omega)
      · rw [if_neg hgo, if_neg hgo]
        exact ⟨rfl, show (0 : Int) ≠ -3 by decide⟩

/-- A string loop whose turns have the shape `rep_turn`, entered without a latch, gives with
any fuel the result of a single turn, and leaves the ECX cell as it was. -/
theorem rep_loop_unlatched (L : Nat → cli_emu_t → Int × cli_emu_t) (ad r : Nat)
    (hstep : ∀ s, rep_turn L ad r s) (fuel : Nat) (s : cli_emu_t)
    (hl : ¬ rep_latched s) (hf : 1 ≤ fuel) :
    L fuel s = L 1 s ∧ (L 1 s).1 ≠ -3 ∧ (L 1 s).2.reg_val REG_ECX = s.reg_val REG_ECX := by
  obtain ⟨f, rfl⟩ : ∃ f, fuel = f + 1 := ⟨fuel - 1, by omega⟩
  rcases hstep s with ⟨res, hres, hcnt, hL⟩ | ⟨st, hst, hL⟩
  · rw [hL f, hL 0]
    exact ⟨rfl, hres, hcnt⟩
  · have hl1 : ¬ rep_latched st := fun h => hl ((rep_latched_same s st hst).mp h)
    have hp := prefix_post_unlatched st ad r hl1
    have hn : ¬ ((emu_prefix_post st ad r).1 ≠ 0) := by
      rw [hp]
      exact fun h => h rfl
    rw [hL f, hL 0, if_neg hn, if_neg hn]
    refine ⟨rfl, show (0 : Int) ≠ -3 by decide, ?_⟩
    show (emu_prefix_post st ad r).2.reg_val REG_ECX = s.reg_val REG_ECX
    rw [hp]
    exact hst.2.2

/-- The turns of the loop of `emu_lodsx` have the shape `rep_turn`. -/
theorem lodsx_turn (instr : dis_instr) (size : DIS_SIZE) (reg add : Nat)
    (hreg : reg = REG_AL ∨ reg = REG_AX ∨ reg = REG_EAX) (s : cli_emu_t) :
    rep_turn (emu_lodsx_loop instr size reg add) instr.address_size 1 s := by
  unfold rep_turn
  cases hesi : read_reg s REG_ESI with
  | none =>
    left
    refine ⟨(-1, s), (show (-1 : Int) ≠ -3 by decide), rfl, fun fuel => ?_⟩
    rw [emu_lodsx_loop]
    simp only [hesi]
  | some esi =>
    by_cases hr : (mem_read s esi size 0).1 = -1
    · left
      refine ⟨(-1, s), (show (-1 : Int) ≠ -3 by decide), rfl, fun fuel => ?_⟩
      rw [emu_lodsx_loop]
      simp only [hesi, hr, if_true]
    · right
      refine ⟨(write_reg (write_reg s reg (mem_read s esi size 0).2).2 REG_ESI
          (df_step (write_reg s reg (mem_read s esi size 0).2).2 esi add)).2, ?_, fun fuel => ?_⟩
      · exact same_count_trans _ _ _
          (write_reg_same_count s reg _ (by rcases hreg with h | h | h <;> simp [h]))
          (write_reg_same_count _ REG_ESI _ (by simp))
      · rw [emu_lodsx_loop]
        simp only [hesi, hr, if_false]

/-- The turns of the loop of `emu_stosx` have the shape `rep_turn`. -/
theorem stosx_turn (instr : dis_instr) (size : DIS_SIZE) (reg add : Nat) (s : cli_emu_t) :
    rep_turn (emu_stosx_loop instr size reg add) instr.address_size 1 s := by
  unfold rep_turn
  cases hedi : read_reg s REG_EDI with
  | none =>
    left
    refine ⟨(-1, s), (show (-1 : Int) ≠ -3 by decide), rfl, fun fuel => ?_⟩
    rw [emu_stosx_loop]
    simp only [hedi]
  | some edi =>
    cases hval : read_reg s reg with
    | none =>
      left
      refine ⟨(-1, s), (show (-1 : Int) ≠ -3 by decide), rfl, fun fuel => ?_⟩
      rw [emu_stosx_loop]
      simp only [hedi, hval]
    | some val =>
      by_cases hw : (mem_write s edi size val).1 = -1
      · left
        refine ⟨(-1, (mem_write s edi size val).2), (show (-1 : Int) ≠ -3 by decide),
          (mem_write_same_count s edi size val).2.2, fun fuel => ?_⟩
        rw [emu_stosx_loop]
        simp only [hedi, hval, hw, if_true]
      · right
        refine ⟨(write_reg (mem_write s edi size val).2 REG_EDI
            (df_step (mem_write s edi size val).2 edi add)).2, ?_, fun fuel => ?_⟩
        · exact same_count_trans _ _ _ (mem_write_same_count s edi size val)
            (write_reg_same_count _ REG_EDI _ (by simp))
        · rw [emu_stosx_loop]
          simp only [hedi, hval, hw, if_false]

/-- The turns of the loop of `emu_movsx` have the shape `rep_turn`. -/
theorem movsx_turn (instr : dis_instr) (size : DIS_SIZE) (add : Nat) (s : cli_emu_t) :
    rep_turn (emu_movsx_loop instr size add) instr.address_size 1 s := by
  unfold rep_turn
  cases hesi : read_reg s REG_ESI with
  | none =>
    left
    refine ⟨(-1, s), (show (-1 : Int) ≠ -3 by decide), rfl, fun fuel => ?_⟩
    rw [emu_movsx_loop]
    simp only [hesi]
  | some esi =>
    cases hedi : read_reg s REG_EDI with
    | none =>
      left
      refine ⟨(-1, s), (show (-1 : Int) ≠ -3 by decide), rfl, fun fuel => ?_⟩
      rw [emu_movsx_loop]
      simp only [hesi, hedi]
    | some edi =>
      by_cases hr : (mem_read s esi size 0).1 = -1
      · left
        refine ⟨(-1, s), (show (-1 : Int) ≠ -3 by decide), rfl, fun fuel => ?_⟩
        rw [emu_movsx_loop]
        simp only [hesi, hedi, hr, if_true]
      · by_cases hw : (mem_write s edi size (mem_read s esi size 0).2).1 = -1
        · left
          refine ⟨(-1, (mem_write s edi size (mem_read s esi size 0).2).2), (show (-1 : Int) ≠ -3 by decide),
            (mem_write_same_count s edi size _).2.2, fun fuel => ?_⟩
          rw [emu_movsx_loop]
          simp only [hesi, hedi, hr, hw, if_true, if_false]
        · right
          refine ⟨(write_reg (write_reg (mem_write s edi size (mem_read s esi size 0).2).2 REG_ESI
              (df_step (mem_write s edi size (mem_read s esi size 0).2).2 esi add)).2 REG_EDI
              (df_step (mem_write s edi size (mem_read s esi size 0).2).2 edi add)).2,
            ?_, fun fuel => ?_⟩
          · exact same_count_trans _ _ _ (mem_write_same_count s edi size _)
              (same_count_trans _ _ _ (write_reg_same_count _ REG_ESI _ (by simp))
                (write_reg_same_count _ REG_EDI _ (by simp)))
          · rw [emu_movsx_loop]
            simp only [hesi, hedi, hr, hw, if_false]

/-- The loop of `emu_scasx`, entered with a latch set and a count `k` of at least 1, returns
within `k` turns. -/
theorem scasx_loop_latched (instr : dis_instr) (reg : Nat) (size : DIS_SIZE) (add a : Nat) :
    ∀ k fuel edi src s, rep_latched s → rep_count s instr.address_size = k → 1 ≤ k → k ≤ fuel →
      emu_scasx_loop instr reg size add a fuel edi src s
        = emu_scasx_loop instr reg size add a k edi src s ∧
      emu_scasx_loop instr reg size add a k edi src s ≠ none := by
  intro k
  induction k with
  | zero => intro fuel edi src s _ _ h1 _; omega
  | succ k ih =>
    intro fuel edi src s hl hc _ hf
    obtain ⟨f, rfl⟩ : ∃ f, fuel = f + 1 := ⟨fuel - 1, by omega⟩
    have hsame : same_count s (calc_flags_addsub s a (mem_read s edi size src).2
        (get_reg ⟨0, 0, REGIDX_INVALID, 0, 0⟩ reg).2 1) := ⟨rfl, rfl, rfl⟩
    have hl1 := (rep_latched_same _ _ hsame).mpr hl
    have hc1 := (rep_count_same _ _ instr.address_size hsame).trans hc
    have hp := prefix_post_latched _ instr.address_size 0 hl1 (by omega)
    rw [emu_scasx_loop, emu_scasx_loop]
    by_cases hgo : (emu_prefix_post (calc_flags_addsub s a (mem_read s edi size src).2
        (get_reg ⟨0, 0, REGIDX_INVALID, 0, 0⟩ reg).2 1) instr.address_size 0).1 ≠ 0
    · rw [if_pos hgo, if_pos hgo]
      have hk1 : 1 ≤ k := by
        have := hp.2.1 hgo
        omega
      exact ih f _ _ _ hp.2.2.2 (by rw [hp.1, hc1]; omega) hk1 (by omega)
    · rw [if_neg hgo, if_neg hgo]
      exact ⟨rfl, by simp⟩

/-- The loop of `emu_scasx`, entered without a latch, returns after one turn and leaves ECX. -/
theorem scasx_loop_unlatched (instr : dis_instr) (reg : Nat) (size : DIS_SIZE) (add a : Nat)
    (fuel edi src : Nat) (s : cli_emu_t) (hl : ¬ rep_latched s) (hf : 1 ≤ fuel) :
    ∃ r, emu_scasx_loop instr reg size add a fuel edi src s = some r ∧
      emu_scasx_loop instr reg size add a 1 edi src s = some r ∧
      r.2.reg_val REG_ECX = s.reg_val REG_ECX := by
  obtain ⟨f, rfl⟩ : ∃ f, fuel = f + 1 := ⟨fuel - 1, by omega⟩
  have hsame : same_count s (calc_flags_addsub s a (mem_read s edi size src).2
      (get_reg ⟨0, 0, REGIDX_INVALID, 0, 0⟩ reg).2 1) := ⟨rfl, rfl, rfl⟩
  have hl1 : ¬ rep_latched (calc_flags_addsub s a (mem_read s edi size src).2
      (get_reg ⟨0, 0, REGIDX_INVALID, 0, 0⟩ reg).2 1) :=
    fun h => hl ((rep_latched_same _ _ hsame).mp h)
  have hp := prefix_post_unlatched _ instr.address_size 0 hl1
  have hn : ¬ ((emu_prefix_post (calc_flags_addsub s a (mem_read s edi size src).2
      (get_reg ⟨0, 0, REGIDX_INVALID, 0, 0⟩ reg).2 1) instr.address_size 0).1 ≠ 0) := by
    rw [hp]
    exact fun h => h rfl
  rw [emu_scasx_loop, emu_scasx_loop]
  rw [if_neg hn, if_neg hn]
  refine ⟨_, rfl, rfl, ?_⟩
  show (emu_prefix_post _ instr.address_size 0).2.reg_val REG_ECX = s.reg_val REG_ECX
  rw [hp]
  rfl

/-- The pre-check either skips the loop or, under a latch, finds a count of at least 1. -/
theorem prefix_pre_cases (s : cli_emu_t) (ad r : Nat) :
    emu_prefix_pre s ad r ≠ 0 ∨ (rep_latched s → 1 ≤ rep_count s ad) := by
  by_cases hl : rep_latched s
  · by_cases hz : rep_count s ad = 0
    · left
      unfold rep_latched at hl
      unfold emu_prefix_pre
      rw [if_pos hl, read_cnt]
      simp [hz]
    · right
      intro _
      omega
  · right
    intro h
    exact absurd h hl

/-- The fuel `rep_fuel` exceeds every count. -/
theorem rep_fuel_enough (s : cli_emu_t) (ad : Nat) : rep_count s ad ≤ rep_fuel := by
  have := rep_count_lt s ad
  unfold rep_fuel
  omega

/-- A string handler made of the pre-check and a loop of shape `rep_turn` never runs out of
fuel. -/
theorem rep_handler_returns (L : Nat → cli_emu_t → Int × cli_emu_t) (ad r : Nat)
    (hstep : ∀ s, rep_turn L ad r s) (s : cli_emu_t) :
    (if emu_prefix_pre s ad r ≠ 0 then ((0 : Int), s) else L rep_fuel s).1 ≠ -3 := by
  by_cases hpre : emu_prefix_pre s ad r ≠ 0
  · rw [if_pos hpre]
    exact (show (0 : Int) ≠ -3 by decide)
  · rw [if_neg hpre]
    by_cases hl : rep_latched s
    · have hk : 1 ≤ rep_count s ad := by
        rcases prefix_pre_cases s ad r with h | h
        · exact absurd h hpre
        · exact h hl
      have h := rep_loop_latched L ad r hstep (rep_count s ad) rep_fuel s hl rfl hk
        (rep_fuel_enough s ad)
      rw [h.1]
      exact h.2
    · have h := rep_loop_unlatched L ad r hstep rep_fuel s hl (by unfold rep_fuel; omega)
      rw [h.1]
      exact h.2.1

/-- Function `emu_scasx` never runs out of fuel. -/
theorem emu_scasx_returns (s : cli_emu_t) (instr : dis_instr) (reg : Nat) (size : DIS_SIZE)
    (add : Nat) : (emu_scasx s instr reg size add).1 ≠ -3 := by
  unfold emu_scasx
  dsimp only
  cases hdi : read_reg s (if instr.address_size ≠ 0 then REG_DI else REG_EDI) with
  | none => simp
  | some edi =>
    cases ha : read_reg s reg with
    | none => simp
    | some a =>
      dsimp only
      by_cases hpre : emu_prefix_pre s instr.address_size 0 ≠ 0
      · rw [if_pos hpre]
        exact (show (0 : Int) ≠ -3 by decide)
      · rw [if_neg hpre]
        have hsome : ∃ r, emu_scasx_loop instr reg size add a rep_fuel edi 0 s = some r := by
          by_cases hl : rep_latched s
          · have hk : 1 ≤ rep_count s instr.address_size := by
              rcases prefix_pre_cases s instr.address_size 0 with h | h
              · exact absurd h hpre
              · exact h hl
            have h := scasx_loop_latched instr reg size add a (rep_count s instr.address_size)
              rep_fuel edi 0 s hl rfl hk (rep_fuel_enough s _)
            rw [h.1]
            exact Option.ne_none_iff_exists'.mp h.2
          · obtain ⟨r, h1, _, _⟩ := scasx_loop_unlatched instr reg size add a rep_fuel edi 0 s hl
              (by unfold rep_fuel; omega)
            exact ⟨r, h1⟩
        obtain ⟨r, hr⟩ := hsome
        rw [hr]
        exact (show (0 : Int) ≠ -3 by decide)

/-- C33 (REP harness terminates). For every state, instruction (any address size), element
size and step, with the AL, AX or EAX view as the handlers are called: emu_lodsx, emu_stosx,
emu_movsx and emu_scasx return a result other than the out-of-fuel marker -3; with a latch set
and a count k of at least 1 in CX or ECX, their loops return within k turns (any fuel of at least
k gives the result of fuel k, which is not the marker); each post-check under a latch decrements
the count by one, returns 0 when the count was 1 and lets the loop go on only with a count of at
least 1; and with no latch set the loops return after exactly one turn (any fuel gives the result
of fuel 1) with the ECX cell unchanged. -/
theorem C33_rep_harness_terminates (s : cli_emu_t) (instr : dis_instr) (size : DIS_SIZE)
    (reg add a : Nat) (hreg : reg = REG_AL ∨ reg = REG_AX ∨ reg = REG_EAX) :
    ((emu_lodsx s instr size reg add).1 ≠ -3 ∧
     (emu_stosx s instr size reg add).1 ≠ -3 ∧
     (emu_movsx s instr size add).1 ≠ -3 ∧
     (emu_scasx s instr reg size add).1 ≠ -3) ∧
    (rep_latched s → 1 ≤ rep_count s instr.address_size →
      ∀ fuel, rep_count s instr.address_size ≤ fuel →
        (emu_lodsx_loop instr size reg add fuel s
            = emu_lodsx_loop instr size reg add (rep_count s instr.address_size) s ∧
          (emu_lodsx_loop instr size reg add (rep_count s instr.address_size) s).1 ≠ -3) ∧
        (emu_stosx_loop instr size reg add fuel s
            = emu_stosx_loop instr size reg add (rep_count s instr.address_size) s ∧
          (emu_stosx_loop instr size reg add (rep_count s instr.address_size) s).1 ≠ -3) ∧
        (emu_movsx_loop instr size add fuel s
            = emu_movsx_loop instr size add (rep_count s instr.address_size) s ∧
          (emu_movsx_loop instr size add (rep_count s instr.address_size) s).1 ≠ -3) ∧
        (∀ edi src,
          emu_scasx_loop instr reg size add a fuel edi src s
            = emu_scasx_loop instr reg size add a (rep_count s instr.address_size) edi src s ∧
          emu_scasx_loop instr reg size add a (rep_count s instr.address_size) edi src s
            ≠ none)) ∧
    (rep_latched s → 1 ≤ rep_count s instr.address_size →
      ∀ r, rep_count (emu_prefix_post s instr.address_size r).2 instr.address_size
          = rep_count s instr.address_size - 1 ∧
        (rep_count s instr.address_size = 1 →
          (emu_prefix_post s instr.address_size r).1 = 0) ∧
        ((emu_prefix_post s instr.address_size r).1 ≠ 0 →
          1 ≤ rep_count (emu_prefix_post s instr.address_size r).2 instr.address_size)) ∧
    (¬ rep_latched s → ∀ fuel, 1 ≤ fuel →
      (emu_lodsx_loop instr size reg add fuel s = emu_lodsx_loop instr size reg add 1 s ∧
        (emu_lodsx_loop instr size reg add 1 s).1 ≠ -3 ∧
        (emu_lodsx_loop instr size reg add 1 s).2.reg_val REG_ECX = s.reg_val REG_ECX) ∧
      (emu_stosx_loop instr size reg add fuel s = emu_stosx_loop instr size reg add 1 s ∧
        (emu_stosx_loop instr size reg add 1 s).1 ≠ -3 ∧
        (emu_stosx_loop instr size reg add 1 s).2.reg_val REG_ECX = s.reg_val REG_ECX) ∧
      (emu_movsx_loop instr size add fuel s = emu_movsx_loop instr size add 1 s ∧
        (emu_movsx_loop instr size add 1 s).1 ≠ -3 ∧
        (emu_movsx_loop instr size add 1 s).2.reg_val REG_ECX = s.reg_val REG_ECX) ∧
      (∀ edi src, ∃ r,
        emu_scasx_loop instr reg size add a fuel edi src s = some r ∧
        emu_scasx_loop instr reg size add a 1 edi src s = some r ∧
        r.2.reg_val REG_ECX = s.reg_val REG_ECX)) := by
  have hlods := lodsx_turn instr size reg add hreg
  have hstos := stosx_turn instr size reg add
  have hmovs := movsx_turn instr size add
  refine ⟨⟨?_, ?_, ?_, emu_scasx_returns s instr reg size add⟩, ?_, ?_, ?_⟩
  · exact rep_handler_returns _ instr.address_size 1 hlods s
  · exact rep_handler_returns _ instr.address_size 1 hstos s
  · exact rep_handler_returns _ instr.address_size 1 hmovs s
  · intro hl hk fuel hf
    exact ⟨rep_loop_latched _ _ 1 hlods _ fuel s hl rfl hk hf,
      rep_loop_latched _ _ 1 hstos _ fuel s hl rfl hk hf,
      rep_loop_latched _ _ 1 hmovs _ fuel s hl rfl hk hf,
      fun edi src => scasx_loop_latched instr reg size add a _ fuel edi src s hl rfl hk hf⟩
  · intro hl hk r
    have hp := prefix_post_latched s instr.address_size r hl hk
    refine ⟨hp.1, hp.2.2.1, fun h => ?_⟩
    have := hp.2.1 h
    rw [hp.1]
    omega
  · intro hl fuel hf
    exact ⟨rep_loop_unlatched _ _ 1 hlods fuel s hl hf,
      rep_loop_unlatched _ _ 1 hstos fuel s hl hf,
      rep_loop_unlatched _ _ 1 hmovs fuel s hl hf,
      fun edi src => scasx_loop_unlatched instr reg size add a fuel edi src s hl hf⟩

/-- Witness for C33: MOVSB, SCASB and STOSB under the REPNE latch with ECX = 2, and LODSB
without a latch. -/
theorem C33_rep_harness_terminates_witness :
    (emu_movsx (ex_state_repne 64) ex_instr0 SIZEB 1).1 ≠ -3 ∧
    (emu_scasx (ex_state_repne 64) ex_instr0 REG_AL SIZEB 1).1 ≠ -3 ∧
    (emu_stosx_loop ex_instr0 SIZEB REG_AL 1 5 (ex_state_repne 0)
      = emu_stosx_loop ex_instr0 SIZEB REG_AL 1 (rep_count (ex_state_repne 0) 0)
          (ex_state_repne 0)) ∧
    rep_count (emu_prefix_post (ex_state_repne 0) ex_instr0.address_size 1).2
        ex_instr0.address_size
      = rep_count (ex_state_repne 0) ex_instr0.address_size - 1 ∧
    (emu_lodsx_loop ex_instr0 SIZEB REG_AL 1 7 ex_state_regs
      = emu_lodsx_loop ex_instr0 SIZEB REG_AL 1 1 ex_state_regs) :=
  have h := C33_rep_harness_terminates (ex_state_repne 64) ex_instr0 SIZEB REG_AL 1 0
    (Or.inl rfl)
  have h0 := C33_rep_harness_terminates (ex_state_repne 0) ex_instr0 SIZEB REG_AL 1 0
    (Or.inl rfl)
  have h1 := C33_rep_harness_terminates ex_state_regs ex_instr0 SIZEB REG_AL 1 0 (Or.inl rfl)
  ⟨h.1.2.2.1, h.1.2.2.2,
   ((h0.2.1 (Or.inr (by decide)) (by decide) 5 (by decide)).2.1).1,
   ((h0.2.2.1 (Or.inr (by decide)) (by decide)) 1).1,
   ((h1.2.2.2 (by unfold rep_latched; decide) 7 (by decide)).1).1⟩

end ClamEmu
